import Mathlib

/-!
# Swarms: the generic probe-module framework

A shallow embedding of `src/user/imodule.go` and of the probe variants
(`src/user/probe_*.go`).

* Go `error` values are the inductive `Error`; `nil` is `Option.none`.
* `*ebpf.Map`, `perf.Record`, `ringbuf.Record`, the instrumentation manager and the
  concrete event structs belong to libraries or to files that are not embedded here;
  what the code uses of them is a field of a structure or a parameter.
* Methods that mutate their receiver are state passing functions.
* A reader goroutine is a function from the answers of its environment (the
  cancellation check, `rd.Read()`, whether the failure channel takes its send) to the
  list of calls it makes, its `Action` trace.
* `readEvents` runs against the readers it started: it is a state machine driven by a
  schedule that interleaves its own steps with the sends of the readers.
-/

set_option linter.dupNamespace false

namespace Swarms

/-! ## Errors, byte strings, maps -/

/-- Go `error` values that are not nil. `ErrClosed` is the sentinel `os.ErrClosed`;
`new` is what `errors.New` and `fmt.Errorf` (without `%w`) build; `wrap` is
`errors.Wrap(cause, msg)`. -/
inductive Error where
  | ErrClosed
  | new (msg : String)
  | wrap (cause : Error) (msg : String)
deriving DecidableEq, Repr

/-- The sentinel `ringbuf.ErrClosed`: the library declares it as `os.ErrClosed`. -/
def ringbuf.ErrClosed : Error := .ErrClosed

/-- The sentinel `perf.ErrClosed`: the library declares it as `os.ErrClosed`, so it is
the same value as `ringbuf.ErrClosed`. -/
def perf.ErrClosed : Error := .ErrClosed

/-- The text of an error, `err.Error()`, as `%s` and `%v` print it. -/
def Error.Error : Error → String
  | .ErrClosed => "file already closed"
  | .new msg => msg
  | .wrap cause msg => msg ++ ": " ++ cause.Error

/-- The test `errors.Is(err, target)`: `target` is `err` or one of its causes. -/
def errors.Is : Error → Error → Bool
  | .wrap cause msg, target =>
      decide (Error.wrap cause msg = target) || errors.Is cause target
  | err, target => decide (err = target)

/-- A `[]byte`. -/
abbrev Bytes := List (Fin 256)

/-- The values of `ebpf.MapType` the framework tells apart, and all the others. -/
inductive MapType where
  | RingBuf
  | PerfEventArray
  | Other (name : String)
deriving DecidableEq, Repr

/-- The text `MapType.String()` prints. -/
def MapType.String : MapType → String
  | .RingBuf => "RingBuf"
  | .PerfEventArray => "PerfEventArray"
  | .Other name => name

/-- A `*ebpf.Map`: the address it points to, and the type and name of the map there. -/
structure EbpfMap where
  addr : Nat
  typ : MapType
  name : String
deriving DecidableEq, Repr

/-- The method `event.Type()`. -/
def EbpfMap.Type (em : EbpfMap) : MapType := em.typ

/-- A stand-in for the text `%p` prints for the pointer; the theorems never look into
it. -/
def EbpfMap.pointer (em : EbpfMap) : String := "0x" ++ toString em.addr

/-- A stand-in for the text `em.String()` prints (the library also prints the file
descriptor); the theorems never look into it. -/
def EbpfMap.String (em : EbpfMap) : String :=
  em.typ.String ++ "(" ++ em.name ++ ")"

/-! ## Structured events -/

/-- The method set of the interface `IEventStruct` (its declaration and its
implementations are not among the embedded files). `E` is the type of interface values (pointers to
event structs), `W` the memory their methods read and write. `Decode` may write,
`Clone` returns the new instance. -/
structure IEventStruct (E W : Type) where
  Decode : E → Bytes → W → Option Error × W
  String : E → W → String
  Clone : E → W → E × W

/-- One call that `Decode(em, b)` makes on its collaborators. -/
inductive Call (E : Type) where
  /-- The call `m.child.DecodeFun(em)`. -/
  | DecodeFun (em : EbpfMap)
  /-- The call `es.Clone()`. -/
  | Clone (es : E)
  /-- The call `te.Decode(payload)`. -/
  | Decode (te : E) (payload : Bytes)
  /-- The call `te.String()`. -/
  | String (te : E)
deriving DecidableEq, Repr

/-- One call made by a goroutine of the framework, in program order. -/
inductive Action where
  /-- The calls `perf.NewReader(em, ...)` and `ringbuf.NewReader(em)`. -/
  | NewReader (em : EbpfMap)
  /-- The non blocking check of `m.ctx.Done()`, with what it found. -/
  | CtxDone (fired : Bool)
  /-- The call `rd.Read()`. -/
  | Read
  /-- The call `m.child.Decode(em, raw)`. -/
  | Decode (em : EbpfMap) (raw : Bytes)
  /-- The call `m.Write(result)`. -/
  | Write (result : String)
  /-- A send `errChan <- err`, recorded when the goroutine reaches it. -/
  | Send (err : Error)
  /-- A line given to `log.Printf`, `m.logger.Printf` or `m.logger.Println`. -/
  | Log (line : String)
  /-- The deferred `rd.Close()`. -/
  | CloseReader
  /-- The call `m.child.Stop()`. -/
  | Stop
  /-- A line given to `m.logger.Fatalf`, which ends the process. -/
  | Fatalf (line : String)
deriving DecidableEq, Repr

/-- What a `Decode(em, b)` hands back: the two results, the memory after it, and the
calls it made. -/
structure DecodeResult (E W : Type) where
  result : String
  err : Option Error
  world : W
  calls : List (Call E)

/-! ## Decode dispatch (`imodule.go`, lines 220-241) -/

/-- The method `Module.EventsDecode(payload, es)`. -/
def Module.EventsDecode {E W : Type} (I : IEventStruct E W) (payload : Bytes) (es : E)
    (w : W) : DecodeResult E W :=
  let te := (I.Clone es w).1
  let w1 := (I.Clone es w).2
  match I.Decode te payload w1 with
  | (some err, w2) =>
      { result := "", err := some err, world := w2,
        calls := [.Clone es, .Decode te payload] }
  | (none, w2) =>
      { result := I.String te w2, err := none, world := w2,
        calls := [.Clone es, .Decode te payload, .String te] }

/-- The method `Module.Decode(em, b)`; `childDecodeFun` is `m.child.DecodeFun`. -/
def Module.Decode {E W : Type} (I : IEventStruct E W)
    (childDecodeFun : EbpfMap → Option E) (em : EbpfMap) (b : Bytes) (w : W) :
    DecodeResult E W :=
  match childDecodeFun em with
  | none =>
      { result := "",
        err := some (.new ("can't found decode function :" ++ em.String ++
          ", address:" ++ em.pointer)),
        world := w, calls := [.DecodeFun em] }
  | some es =>
      let r := Module.EventsDecode I b es w
      { r with calls := .DecodeFun em :: r.calls }

/-! ## Buffer readers (`imodule.go`, lines 140-218) -/

/-- The fields of a `perf.Record` the reader uses. -/
structure perf.Record where
  CPU : Nat
  RawSample : Bytes
  LostSamples : Nat
deriving DecidableEq, Repr

/-- The field of a `ringbuf.Record` the reader uses. -/
structure ringbuf.Record where
  RawSample : Bytes
deriving DecidableEq, Repr

/-- What the environment answers in one iteration of a reader loop: whether
`m.ctx.Done()` is ready at the `select`, and what `rd.Read()` returns if it is called. -/
structure Cycle (R : Type) where
  done : Bool
  read : Except Error R

/-- Where a goroutine stands once the answers given to it are used up. -/
inductive Status where
  /-- The function has returned. -/
  | returned
  /-- The function is still in its loop, about to start the next iteration. -/
  | running
  /-- The process was ended by `logger.Fatalf`. -/
  | exited
  /-- The goroutine stands for ever in the send on the failure channel that ends its
  trace. -/
  | blocked
deriving DecidableEq, Repr

/-- What a reader finds of the failure channel `errChan` it is given when it sends on
it. A reader sends at most once, and `readEvents` receives once from a channel of
capacity 8. -/
inductive ErrChan where
  /-- The channel takes the send: it has room, or gets room from the receive. -/
  | takes
  /-- The channel is full and stays full: the send blocks for ever. -/
  | full
deriving DecidableEq, Repr

/-- Where a reader stands after `errChan <- err; return`: it has returned if the channel
took the send, it is blocked in the send if not. -/
def ErrChan.afterSend : ErrChan → Status
  | .takes => .returned
  | .full => .blocked

/-- A run of a reader: its calls in order, where it stands, and the memory. The memory
is threaded through the calls of one reader, as if no other goroutine wrote to it in
between. -/
structure ReaderRun (E W : Type) where
  trace : List Action
  status : Status
  world : W

/-- Put the calls `pre` in front of the run `r`. -/
def ReaderRun.after {E W : Type} (pre : List Action) (r : ReaderRun E W) :
    ReaderRun E W :=
  { r with trace := pre ++ r.trace }

/-- The `for` loop of `Module.perfEventReader` (lines 147-179), one `Cycle` for each
iteration; `childDecode` is `m.child.Decode`, `errChan` tells what becomes of the send
of a read error. -/
def Module.perfEventReader.loop {E W : Type} (errChan : ErrChan)
    (childDecode : EbpfMap → Bytes → W → DecodeResult E W) (em : EbpfMap) :
    List (Cycle perf.Record) → W → ReaderRun E W
  | [], w => { trace := [], status := .running, world := w }
  | c :: rest, w =>
    if c.done then
      { trace := [.CtxDone true,
          .Log "readEvent recived close signal from context.Done."],
        status := .returned, world := w }
    else
      match c.read with
      | .error err =>
        if errors.Is err perf.ErrClosed then
          { trace := [.CtxDone false, .Read], status := .returned, world := w }
        else
          { trace := [.CtxDone false, .Read,
              .Send (.new ("reading from perf event reader: " ++ err.Error))],
            status := errChan.afterSend, world := w }
      | .ok record =>
        if record.LostSamples ≠ 0 then
          (Module.perfEventReader.loop errChan childDecode em rest w).after
            [.CtxDone false, .Read,
              .Log ("perf event ring buffer full, dropped " ++
                toString record.LostSamples ++ " samples")]
        else
          let r := childDecode em record.RawSample w
          match r.err with
          | some err =>
            (Module.perfEventReader.loop errChan childDecode em rest r.world).after
              ([.CtxDone false, .Read, .Decode em record.RawSample] ++
                [.Log ("this.child.decode error:" ++ err.Error)])
          | none =>
            (Module.perfEventReader.loop errChan childDecode em rest r.world).after
              ([.CtxDone false, .Read, .Decode em record.RawSample] ++
                [.Write r.result])

/-- The deferred `rd.Close()`: it runs when the reader function returns, and not when the
reader is blocked in its send. -/
def ReaderRun.deferClose {E W : Type} (r : ReaderRun E W) : ReaderRun E W :=
  match r.status with
  | .returned => { r with trace := r.trace ++ [.CloseReader] }
  | .running => r
  | .exited => r
  | .blocked => r

/-- The method `Module.perfEventReader(errChan, em)`; `newReader` is the error of
`perf.NewReader(em, os.Getpagesize())`. A send on the failure channel is recorded where
the reader reaches it; the reader goes on to its `return` only if `errChan` takes the
send, and the deferred `rd.Close()` runs only when it returns. -/
def Module.perfEventReader {E W : Type} (errChan : ErrChan)
    (childDecode : EbpfMap → Bytes → W → DecodeResult E W) (em : EbpfMap)
    (newReader : Option Error) (cycles : List (Cycle perf.Record)) (w : W) :
    ReaderRun E W :=
  match newReader with
  | some err =>
    { trace := [.NewReader em,
        .Send (.new ("creating " ++ em.String ++ " reader dns: " ++ err.Error))],
      status := errChan.afterSend, world := w }
  | none =>
    ((Module.perfEventReader.loop errChan childDecode em cycles w).deferClose).after
      [.NewReader em]

/-- The `for` loop of `Module.ringbufEventReader` (lines 189-217); `errChan` tells what
becomes of the send of a read error. -/
def Module.ringbufEventReader.loop {E W : Type} (errChan : ErrChan)
    (childDecode : EbpfMap → Bytes → W → DecodeResult E W) (em : EbpfMap) :
    List (Cycle ringbuf.Record) → W → ReaderRun E W
  | [], w => { trace := [], status := .running, world := w }
  | c :: rest, w =>
    if c.done then
      { trace := [.CtxDone true,
          .Log "readEvent recived close signal from context.Done."],
        status := .returned, world := w }
    else
      match c.read with
      | .error err =>
        if errors.Is err ringbuf.ErrClosed then
          { trace := [.CtxDone false, .Read, .Log "Received signal, exiting.."],
            status := .returned, world := w }
        else
          { trace := [.CtxDone false, .Read,
              .Send (.new ("reading from ringbuf reader: " ++ err.Error))],
            status := errChan.afterSend, world := w }
      | .ok record =>
        let r := childDecode em record.RawSample w
        match r.err with
        | some err =>
          (Module.ringbufEventReader.loop errChan childDecode em rest r.world).after
            ([.CtxDone false, .Read, .Decode em record.RawSample] ++
              [.Log ("this.child.decode error:" ++ err.Error)])
        | none =>
          (Module.ringbufEventReader.loop errChan childDecode em rest r.world).after
            ([.CtxDone false, .Read, .Decode em record.RawSample] ++
              [.Write r.result])

/-- The method `Module.ringbufEventReader(errChan, em)`; `newReader` is the error of
`ringbuf.NewReader(em)`. As in the perf reader, the reader returns after a send only if
`errChan` takes it. -/
def Module.ringbufEventReader {E W : Type} (errChan : ErrChan)
    (childDecode : EbpfMap → Bytes → W → DecodeResult E W) (em : EbpfMap)
    (newReader : Option Error) (cycles : List (Cycle ringbuf.Record)) (w : W) :
    ReaderRun E W :=
  match newReader with
  | some err =>
    { trace := [.NewReader em,
        .Send (.new ("creating " ++ em.String ++ " reader dns: " ++ err.Error))],
      status := errChan.afterSend, world := w }
  | none =>
    ((Module.ringbufEventReader.loop errChan childDecode em cycles w).deferClose).after
      [.NewReader em]


/-! ## The module interface -/

/-- The methods of the interface `IModule` that the framework calls through `m.child`,
and `Close`, over the state `S` of the variant behind the interface. (`Init` and
`SetChild` bind the variant to its `Module`; `Run` is `Module.Run` below.) -/
structure IModule (S E W : Type) where
  Name : S → String
  Start : S → Option Error × S
  Stop : S → Option Error × S
  Close : S → Option Error × S
  Events : S → List EbpfMap
  DecodeFun : S → EbpfMap → Option E
  Decode : S → EbpfMap → Bytes → W → DecodeResult E W

/-! ## Supervision (`imodule.go`, lines 84-138) -/

/-- A goroutine started by a `go` statement of `readEvents`. -/
inductive Task where
  | ringbufEventReader (em : EbpfMap)
  | perfEventReader (em : EbpfMap)
deriving DecidableEq, Repr

/-- The capacity of the failure channel, `make(chan error, 8)`. -/
def errChanCap : Nat := 8

/-- The error of the `default` branch of `readEvents`. -/
def unsupportedError (event : EbpfMap) : Error :=
  .new ("Not support mapType:" ++ event.Type.String ++ " , mapinfo:" ++ event.String)

/-- The reader `readEvents` starts for a map, if its type has one. -/
def readerFor (event : EbpfMap) : Option Task :=
  match event.Type with
  | .RingBuf => some (.ringbufEventReader event)
  | .PerfEventArray => some (.perfEventReader event)
  | .Other _ => none

/-- The error `readEvents` sends for a map, if its type has no reader. -/
def unsupportedFor (event : EbpfMap) : Option Error :=
  match event.Type with
  | .RingBuf => none
  | .PerfEventArray => none
  | .Other _ => some (unsupportedError event)

/-- The goroutine that executes `readEvents`, and the failure channel.
* `todo`: the maps the `for` loop has still to visit;
* `errChan`: the errors buffered in the channel, oldest first;
* `spawned`: the readers started so far, in order;
* `sent`: the readers (by position in `spawned`) that have reached their send;
* `stuck`: those of them whose send found the channel full, and blocks (the one
  receive of `readEvents` can let one blocked send through, the others stay);
* `result`: what `readEvents` returned, `none` as long as it has not returned. Every
  value sent on the channel is built by `fmt.Errorf`, so a received error is not nil. -/
structure ReadEvents where
  todo : List EbpfMap
  errChan : List Error
  spawned : List Task
  sent : List Nat
  stuck : List Nat
  result : Option (Option Error)
deriving DecidableEq, Repr

/-- The choices of the scheduler: the goroutine in `readEvents` takes its next step, or
the reader at position `i` of `spawned` reaches a send `errChan <- err`. -/
inductive Sched where
  | main
  | reader (i : Nat) (err : Error)
deriving DecidableEq, Repr

/-- The state at the entry of `readEvents`, with `events` the value of
`m.child.Events()`. -/
def ReadEvents.init (events : List EbpfMap) : ReadEvents :=
  { todo := events, errChan := [], spawned := [], sent := [], stuck := [],
    result := none }

/-- Whether the goroutine in `readEvents` stands at the send of the `default` branch
with the channel full: nothing receives from the channel before the loop is over, so
it stays there. -/
def ReadEvents.blockedOnSend (st : ReadEvents) : Bool :=
  match st.result, st.todo with
  | none, event :: _ =>
    (unsupportedFor event).isSome && decide (errChanCap ≤ st.errChan.length)
  | _, _ => false

/-- One step of the goroutine in `readEvents` (lines 121-137): an iteration of the `for`
loop over the events, or the receive of the `select` once the loop is over. -/
def ReadEvents.mainStep (st : ReadEvents) : ReadEvents :=
  match st.result with
  | some _ => st
  | none =>
    match st.todo with
    | event :: rest =>
      match event.Type with
      | .RingBuf =>
        { st with todo := rest, spawned := st.spawned ++ [.ringbufEventReader event] }
      | .PerfEventArray =>
        { st with todo := rest, spawned := st.spawned ++ [.perfEventReader event] }
      | .Other _ =>
        if st.errChan.length < errChanCap then
          { st with todo := rest, errChan := st.errChan ++ [unsupportedError event] }
        else st
    | [] =>
      match st.errChan with
      | err :: rest => { st with errChan := rest, result := some (some err) }
      | [] => st

/-- The reader at position `i` reaches a send `errChan <- err`. A reader sends at most
once (it returns after its send), and only a reader that was started can send. -/
def ReadEvents.readerStep (st : ReadEvents) (i : Nat) (err : Error) : ReadEvents :=
  if i < st.spawned.length ∧ i ∉ st.sent then
    if st.errChan.length < errChanCap then
      { st with sent := i :: st.sent, errChan := st.errChan ++ [err] }
    else
      { st with sent := i :: st.sent, stuck := i :: st.stuck }
  else st

/-- One step of the schedule. -/
def ReadEvents.step (st : ReadEvents) : Sched → ReadEvents
  | .main => st.mainStep
  | .reader i err => st.readerStep i err

/-- The method `Module.readEvents()` under the schedule `sched`; `events` is the value
of `m.child.Events()`. -/
def Module.readEvents (events : List EbpfMap) (sched : List Sched) : ReadEvents :=
  sched.foldl ReadEvents.step (ReadEvents.init events)

/-- Where `Module.Run()` stands.
* `child`: the variant after `Start`;
* `readEvents`: the state of `readEvents`, `none` if it was not called;
* `supervisor`: whether the statement `go func() { m.run() }()` was executed;
* `result`: what `Run` returned, `none` as long as it has not returned. -/
structure RunState (S : Type) where
  child : S
  readEvents : Option ReadEvents
  supervisor : Bool
  result : Option (Option Error)

/-- The method `Module.Run()` under the schedule `sched`. -/
def Module.Run {S E W : Type} (child : IModule S E W) (s : S) (sched : List Sched) :
    RunState S :=
  match child.Start s with
  | (some err, s1) =>
    { child := s1, readEvents := none, supervisor := false, result := some (some err) }
  | (none, s1) =>
    let re := Module.readEvents (child.Events s1) sched
    match re.result with
    | none =>
      { child := s1, readEvents := some re, supervisor := false, result := none }
    | some (some err) =>
      { child := s1, readEvents := some re, supervisor := false,
        result := some (some err) }
    | some none =>
      { child := s1, readEvents := some re, supervisor := true, result := some none }

/-- The method `Module.Stop()`. -/
def Module.Stop {S : Type} (s : S) : Option Error × S := (none, s)

/-- A run of the supervisory task: its calls, where it stands, and the variant. -/
structure SupervisorRun (S : Type) where
  trace : List Action
  status : Status
  child : S

/-- The method `Module.run()` (lines 106-117); `fired` tells whether the cancellation
token fires while the task waits in its `select`. -/
def Module.run {S E W : Type} (child : IModule S E W) (s : S) (fired : Bool) :
    SupervisorRun S :=
  if fired then
    match child.Stop s with
    | (some err, s1) =>
      { trace := [.CtxDone true, .Stop,
          .Fatalf ("stop Module:" ++ child.Name s1 ++ " error:" ++ err.Error ++ ".")],
        status := .exited, child := s1 }
    | (none, s1) => { trace := [.CtxDone true, .Stop], status := .returned, child := s1 }
  else
    { trace := [], status := .running, child := s }


/-! ## The probe variants (`probe_*.go`) -/

/-- A call on the variant's `manager.Manager`; `Stop` is `Stop(manager.CleanAll)`. -/
inductive ManagerCall where
  | InitWithOptions
  | Start
  | GetMap (name : String)
  | GetPerfMap (name : String)
  | Stop
deriving DecidableEq, Repr

/-- The three results of `GetMap(name)`. -/
structure GetMapResult where
  map : EbpfMap
  found : Bool
  err : Option Error

/-- What the collaborators of a variant answer to it: the error of
`assets.Asset(name)`, and the results of the calls on the manager. -/
structure Manager where
  Asset : String → Option Error
  InitWithOptions : Option Error
  Start : Option Error
  GetMap : String → GetMapResult
  GetPerfMap : String → Bool
  Stop : Option Error

/-- The interface values that the expressions `&TCPEvent{}`, `&EventIPV4{}`, ... of the
decode tables evaluate to (the event structs are declared elsewhere). -/
structure Prototypes (E : Type) where
  TCPEvent : E
  EventIPV4 : E
  EventIPV6 : E
  EventOther : E
  UDPEvent : E
  ForkProcEvent : E
  DNSEVENT : E
  JavaJDKExecPeEvent : E
  BpfCallEvent : E

/-- The fields of a probe variant. The seven variant structs have the same fields: the
embedded `Module` (`name`, `mType`; its `ctx` and `child` are the environment and the
`IModule` value here), the manager (the calls made on it so far), the decode table and
the list of event maps. A Go map is a list of pairs, newest first, read by
`List.lookup`. -/
structure Probe (E : Type) where
  name : String
  mType : String
  managerCalls : List ManagerCall
  eventFuncMaps : List (EbpfMap × E)
  eventMaps : List EbpfMap

/-- Record a call on the manager. -/
def Probe.call {E : Type} (p : Probe E) (c : ManagerCall) : Probe E :=
  { p with managerCalls := p.managerCalls ++ [c] }

/-- The method `Module.Name()`. -/
def Module.Name {E : Type} (p : Probe E) : String := p.name

/-! ### `MTCPProbe` -/

/-- The method `MTCPProbe.Init(ctx, logger)`. -/
def MTCPProbe.Init {E : Type} (p : Probe E) : Option Error × Probe E :=
  (none, { p with eventMaps := [], eventFuncMaps := [] })

/-- The method `MTCPProbe.setupManagers()`: a new manager, on which nothing was called. -/
def MTCPProbe.setupManagers {E : Type} (p : Probe E) : Probe E :=
  { p with managerCalls := [] }

/-- The method `MTCPProbe.DecodeFun(em)`. -/
def MTCPProbe.DecodeFun {E : Type} (p : Probe E) (em : EbpfMap) : Option E :=
  List.lookup em p.eventFuncMaps

/-- The method `MTCPProbe.initDecodeFun()`. -/
def MTCPProbe.initDecodeFun {E : Type} (mgr : Manager) (protos : Prototypes E)
    (p : Probe E) : Option Error × Probe E :=
  let p := { p with eventFuncMaps := [] }
  let r := mgr.GetMap "events"
  let p := p.call (.GetMap "events")
  match r.err with
  | some err => (some err, p)
  | none =>
    if !r.found then (some (.new "cant found map:events"), p)
    else
      (none, { p with eventMaps := p.eventMaps ++ [r.map],
                      eventFuncMaps := (r.map, protos.TCPEvent) :: p.eventFuncMaps })

/-- The method `MTCPProbe.Events()`. -/
def MTCPProbe.Events {E : Type} (p : Probe E) : List EbpfMap := p.eventMaps

/-- The method `MTCPProbe.start()`. -/
def MTCPProbe.start {E : Type} (mgr : Manager) (protos : Prototypes E) (p : Probe E) :
    Option Error × Probe E :=
  match mgr.Asset "user/bytecode/tcp_set_state_kern.o" with
  | some err => (some (.wrap err "couldn't find asset"), p)
  | none =>
    let p := MTCPProbe.setupManagers p
    match mgr.InitWithOptions with
    | some err => (some (.wrap err "couldn't init manager"), p.call .InitWithOptions)
    | none =>
      match mgr.Start with
      | some err =>
        (some (.wrap err "couldn't start bootstrap manager"),
          (p.call .InitWithOptions).call .Start)
      | none => MTCPProbe.initDecodeFun mgr protos ((p.call .InitWithOptions).call .Start)

/-- The method `MTCPProbe.Start()`. -/
def MTCPProbe.Start {E : Type} (mgr : Manager) (protos : Prototypes E) (p : Probe E) :
    Option Error × Probe E :=
  match MTCPProbe.start mgr protos p with
  | (some err, p1) => (some err, p1)
  | (none, p1) => (none, p1)

/-- The method `MTCPProbe.Close()`. -/
def MTCPProbe.Close {E : Type} (mgr : Manager) (p : Probe E) : Option Error × Probe E :=
  match mgr.Stop with
  | some err => (some (.wrap err "couldn't stop manager"), p.call .Stop)
  | none => (none, p.call .Stop)

/-- The variant `MTCPProbe` behind the interface `IModule`: `Name`, `Stop` and `Decode` are
the methods of the embedded `Module`. -/
def MTCPProbe.asIModule {E W : Type} (I : IEventStruct E W) (mgr : Manager)
    (protos : Prototypes E) : IModule (Probe E) E W where
  Name := Module.Name
  Start := MTCPProbe.Start mgr protos
  Stop := Module.Stop
  Close := MTCPProbe.Close mgr
  Events := MTCPProbe.Events
  DecodeFun := MTCPProbe.DecodeFun
  Decode := fun p => Module.Decode I (MTCPProbe.DecodeFun p)

/-! ### `MTCPSecProbe` -/

/-- The method `MTCPSecProbe.Init(ctx, logger)`. -/
def MTCPSecProbe.Init {E : Type} (p : Probe E) : Option Error × Probe E :=
  (none, { p with eventMaps := [], eventFuncMaps := [] })

/-- The method `MTCPSecProbe.setupManagers()`: a new manager, on which nothing was called. -/
def MTCPSecProbe.setupManagers {E : Type} (p : Probe E) : Probe E :=
  { p with managerCalls := [] }

/-- The method `MTCPSecProbe.DecodeFun(em)`. -/
def MTCPSecProbe.DecodeFun {E : Type} (p : Probe E) (em : EbpfMap) : Option E :=
  List.lookup em p.eventFuncMaps

/-- The method `MTCPSecProbe.initDecodeFun()`. -/
def MTCPSecProbe.initDecodeFun {E : Type} (mgr : Manager) (protos : Prototypes E)
    (p : Probe E) : Option Error × Probe E :=
  let r4 := mgr.GetMap "ipv4_events"
  let p := p.call (.GetMap "ipv4_events")
  match r4.err with
  | some err => (some err, p)
  | none =>
    if !r4.found then (some (.new "cant found map:events"), p)
    else
      let p := { p with eventMaps := p.eventMaps ++ [r4.map],
                        eventFuncMaps := (r4.map, protos.EventIPV4) :: p.eventFuncMaps }
      let r6 := mgr.GetMap "ipv6_events"
      let p := p.call (.GetMap "ipv6_events")
      match r6.err with
      | some err => (some err, p)
      | none =>
        if !r6.found then (some (.new "cant found map:events"), p)
        else
          let p := { p with eventMaps := p.eventMaps ++ [r6.map],
                            eventFuncMaps :=
                              (r6.map, protos.EventIPV6) :: p.eventFuncMaps }
          let ro := mgr.GetMap "other_socket_events"
          let p := p.call (.GetMap "other_socket_events")
          match ro.err with
          | some err => (some err, p)
          | none =>
            if !ro.found then (some (.new "cant found map:events"), p)
            else
              (none, { p with eventMaps := p.eventMaps ++ [ro.map],
                              eventFuncMaps :=
                                (ro.map, protos.EventOther) :: p.eventFuncMaps })

/-- The method `MTCPSecProbe.Events()`. -/
def MTCPSecProbe.Events {E : Type} (p : Probe E) : List EbpfMap := p.eventMaps

/-- The method `MTCPSecProbe.start()`. -/
def MTCPSecProbe.start {E : Type} (mgr : Manager) (protos : Prototypes E) (p : Probe E) :
    Option Error × Probe E :=
  match mgr.Asset "user/bytecode/sec_socket_connect_kern.o" with
  | some err => (some (.wrap err "couldn't find asset"), p)
  | none =>
    let p := MTCPSecProbe.setupManagers p
    match mgr.InitWithOptions with
    | some err => (some (.wrap err "couldn't init manager"), p.call .InitWithOptions)
    | none =>
      match mgr.Start with
      | some err =>
        (some (.wrap err "couldn't start bootstrap manager"),
          (p.call .InitWithOptions).call .Start)
      | none => MTCPSecProbe.initDecodeFun mgr protos ((p.call .InitWithOptions).call .Start)

/-- The method `MTCPSecProbe.Start()`. -/
def MTCPSecProbe.Start {E : Type} (mgr : Manager) (protos : Prototypes E) (p : Probe E) :
    Option Error × Probe E :=
  match MTCPSecProbe.start mgr protos p with
  | (some err, p1) => (some err, p1)
  | (none, p1) => (none, p1)

/-- The method `MTCPSecProbe.Close()`. -/
def MTCPSecProbe.Close {E : Type} (mgr : Manager) (p : Probe E) : Option Error × Probe E :=
  match mgr.Stop with
  | some err => (some (.wrap err "couldn't stop manager"), p.call .Stop)
  | none => (none, p.call .Stop)

/-- The variant `MTCPSecProbe` behind the interface `IModule`: `Name`, `Stop` and `Decode` are
the methods of the embedded `Module`. -/
def MTCPSecProbe.asIModule {E W : Type} (I : IEventStruct E W) (mgr : Manager)
    (protos : Prototypes E) : IModule (Probe E) E W where
  Name := Module.Name
  Start := MTCPSecProbe.Start mgr protos
  Stop := Module.Stop
  Close := MTCPSecProbe.Close mgr
  Events := MTCPSecProbe.Events
  DecodeFun := MTCPSecProbe.DecodeFun
  Decode := fun p => Module.Decode I (MTCPSecProbe.DecodeFun p)

/-! ### `MUDPProbe` -/

/-- The method `MUDPProbe.Init(ctx, logger)`. -/
def MUDPProbe.Init {E : Type} (p : Probe E) : Option Error × Probe E :=
  (none, { p with eventMaps := [], eventFuncMaps := [] })

/-- The method `MUDPProbe.setupManagers()`: a new manager, on which nothing was called. -/
def MUDPProbe.setupManagers {E : Type} (p : Probe E) : Probe E :=
  { p with managerCalls := [] }

/-- The method `MUDPProbe.DecodeFun(em)`. -/
def MUDPProbe.DecodeFun {E : Type} (p : Probe E) (em : EbpfMap) : Option E :=
  List.lookup em p.eventFuncMaps

/-- The method `MUDPProbe.initDecodeFun()`. -/
def MUDPProbe.initDecodeFun {E : Type} (mgr : Manager) (protos : Prototypes E)
    (p : Probe E) : Option Error × Probe E :=
  let r := mgr.GetMap "dns_events"
  let p := p.call (.GetMap "dns_events")
  match r.err with
  | some err => (some err, p)
  | none =>
    if !r.found then (some (.new "cant found map:events"), p)
    else
      (none, { p with eventMaps := p.eventMaps ++ [r.map],
                      eventFuncMaps := (r.map, protos.UDPEvent) :: p.eventFuncMaps })

/-- The method `MUDPProbe.Events()`. -/
def MUDPProbe.Events {E : Type} (p : Probe E) : List EbpfMap := p.eventMaps

/-- The method `MUDPProbe.start()`. -/
def MUDPProbe.start {E : Type} (mgr : Manager) (protos : Prototypes E) (p : Probe E) :
    Option Error × Probe E :=
  match mgr.Asset "user/bytecode/udp_lookup_kern.o" with
  | some err => (some (.wrap err "couldn't find asset"), p)
  | none =>
    let p := MUDPProbe.setupManagers p
    match mgr.InitWithOptions with
    | some err => (some (.wrap err "couldn't init manager"), p.call .InitWithOptions)
    | none =>
      match mgr.Start with
      | some err =>
        (some (.wrap err "couldn't start bootstrap manager"),
          (p.call .InitWithOptions).call .Start)
      | none => MUDPProbe.initDecodeFun mgr protos ((p.call .InitWithOptions).call .Start)

/-- The method `MUDPProbe.Start()`. -/
def MUDPProbe.Start {E : Type} (mgr : Manager) (protos : Prototypes E) (p : Probe E) :
    Option Error × Probe E :=
  match MUDPProbe.start mgr protos p with
  | (some err, p1) => (some err, p1)
  | (none, p1) => (none, p1)

/-- The method `MUDPProbe.Close()`. -/
def MUDPProbe.Close {E : Type} (mgr : Manager) (p : Probe E) : Option Error × Probe E :=
  match mgr.Stop with
  | some err => (some (.wrap err "couldn't stop manager"), p.call .Stop)
  | none => (none, p.call .Stop)

/-- The variant `MUDPProbe` behind the interface `IModule`: `Name`, `Stop` and `Decode` are
the methods of the embedded `Module`. -/
def MUDPProbe.asIModule {E W : Type} (I : IEventStruct E W) (mgr : Manager)
    (protos : Prototypes E) : IModule (Probe E) E W where
  Name := Module.Name
  Start := MUDPProbe.Start mgr protos
  Stop := Module.Stop
  Close := MUDPProbe.Close mgr
  Events := MUDPProbe.Events
  DecodeFun := MUDPProbe.DecodeFun
  Decode := fun p => Module.Decode I (MUDPProbe.DecodeFun p)

/-! ### `MProcProbe` -/

/-- The method `MProcProbe.Init(ctx, logger)`. -/
def MProcProbe.Init {E : Type} (p : Probe E) : Option Error × Probe E :=
  (none, { p with eventMaps := [], eventFuncMaps := [] })

/-- The method `MProcProbe.setupManagers()`: a new manager, on which nothing was called. -/
def MProcProbe.setupManagers {E : Type} (p : Probe E) : Probe E :=
  { p with managerCalls := [] }

/-- The method `MProcProbe.DecodeFun(em)`. -/
def MProcProbe.DecodeFun {E : Type} (p : Probe E) (em : EbpfMap) : Option E :=
  List.lookup em p.eventFuncMaps

/-- The method `MProcProbe.initDecodeFun()`. -/
def MProcProbe.initDecodeFun {E : Type} (mgr : Manager) (protos : Prototypes E)
    (p : Probe E) : Option Error × Probe E :=
  let r := mgr.GetMap "ringbuf_proc"
  let p := p.call (.GetMap "ringbuf_proc")
  match r.err with
  | some err => (some err, p)
  | none =>
    if !r.found then (some (.new "cant found map:events"), p)
    else
      (none, { p with eventMaps := p.eventMaps ++ [r.map],
                      eventFuncMaps := (r.map, protos.ForkProcEvent) :: p.eventFuncMaps })

/-- The method `MProcProbe.Events()`. -/
def MProcProbe.Events {E : Type} (p : Probe E) : List EbpfMap := p.eventMaps

/-- The method `MProcProbe.start()`. -/
def MProcProbe.start {E : Type} (mgr : Manager) (protos : Prototypes E) (p : Probe E) :
    Option Error × Probe E :=
  match mgr.Asset "user/bytecode/proc_kern.o" with
  | some err => (some (.wrap err "couldn't find asset"), p)
  | none =>
    let p := MProcProbe.setupManagers p
    match mgr.InitWithOptions with
    | some err => (some (.wrap err "couldn't init manager"), p.call .InitWithOptions)
    | none =>
      match mgr.Start with
      | some err =>
        (some (.wrap err "couldn't start bootstrap manager"),
          (p.call .InitWithOptions).call .Start)
      | none => MProcProbe.initDecodeFun mgr protos ((p.call .InitWithOptions).call .Start)

/-- The method `MProcProbe.Start()`. -/
def MProcProbe.Start {E : Type} (mgr : Manager) (protos : Prototypes E) (p : Probe E) :
    Option Error × Probe E :=
  match MProcProbe.start mgr protos p with
  | (some err, p1) => (some err, p1)
  | (none, p1) => (none, p1)

/-- The method `MProcProbe.Close()`. -/
def MProcProbe.Close {E : Type} (mgr : Manager) (p : Probe E) : Option Error × Probe E :=
  match mgr.Stop with
  | some err => (some (.wrap err "couldn't stop manager"), p.call .Stop)
  | none => (none, p.call .Stop)

/-- The variant `MProcProbe` behind the interface `IModule`: `Name`, `Stop` and `Decode` are
the methods of the embedded `Module`. -/
def MProcProbe.asIModule {E W : Type} (I : IEventStruct E W) (mgr : Manager)
    (protos : Prototypes E) : IModule (Probe E) E W where
  Name := Module.Name
  Start := MProcProbe.Start mgr protos
  Stop := Module.Stop
  Close := MProcProbe.Close mgr
  Events := MProcProbe.Events
  DecodeFun := MProcProbe.DecodeFun
  Decode := fun p => Module.Decode I (MProcProbe.DecodeFun p)

/-! ### `MUDNSProbe` -/

/-- The method `MUDNSProbe.Init(ctx, logger)`. -/
def MUDNSProbe.Init {E : Type} (p : Probe E) : Option Error × Probe E :=
  (none, { p with eventMaps := [], eventFuncMaps := [] })

/-- The method `MUDNSProbe.setupManagers()`: a new manager, on which nothing was called. -/
def MUDNSProbe.setupManagers {E : Type} (p : Probe E) : Probe E :=
  { p with managerCalls := [] }

/-- The method `MUDNSProbe.DecodeFun(em)`. -/
def MUDNSProbe.DecodeFun {E : Type} (p : Probe E) (em : EbpfMap) : Option E :=
  List.lookup em p.eventFuncMaps

/-- The method `MUDNSProbe.initDecodeFun()`. -/
def MUDNSProbe.initDecodeFun {E : Type} (mgr : Manager) (protos : Prototypes E)
    (p : Probe E) : Option Error × Probe E :=
  let r := mgr.GetMap "events"
  let p := p.call (.GetMap "events")
  match r.err with
  | some err => (some err, p)
  | none =>
    if !r.found then (some (.new "cant found map:events"), p)
    else
      (none, { p with eventMaps := p.eventMaps ++ [r.map],
                      eventFuncMaps := (r.map, protos.DNSEVENT) :: p.eventFuncMaps })

/-- The method `MUDNSProbe.Events()`. -/
def MUDNSProbe.Events {E : Type} (p : Probe E) : List EbpfMap := p.eventMaps

/-- The method `MUDNSProbe.start()`. -/
def MUDNSProbe.start {E : Type} (mgr : Manager) (protos : Prototypes E) (p : Probe E) :
    Option Error × Probe E :=
  match mgr.Asset "user/bytecode/dns_lookup_kern.o" with
  | some err => (some (.wrap err "couldn't find asset"), p)
  | none =>
    let p := MUDNSProbe.setupManagers p
    match mgr.InitWithOptions with
    | some err => (some (.wrap err "couldn't init manager"), p.call .InitWithOptions)
    | none =>
      match mgr.Start with
      | some err =>
        (some (.wrap err "couldn't start bootstrap manager"),
          (p.call .InitWithOptions).call .Start)
      | none => MUDNSProbe.initDecodeFun mgr protos ((p.call .InitWithOptions).call .Start)

/-- The method `MUDNSProbe.Start()`. -/
def MUDNSProbe.Start {E : Type} (mgr : Manager) (protos : Prototypes E) (p : Probe E) :
    Option Error × Probe E :=
  match MUDNSProbe.start mgr protos p with
  | (some err, p1) => (some err, p1)
  | (none, p1) => (none, p1)

/-- The method `MUDNSProbe.Close()`. -/
def MUDNSProbe.Close {E : Type} (mgr : Manager) (p : Probe E) : Option Error × Probe E :=
  match mgr.Stop with
  | some err => (some (.wrap err "couldn't stop manager"), p.call .Stop)
  | none => (none, p.call .Stop)

/-- The variant `MUDNSProbe` behind the interface `IModule`: `Name`, `Stop` and `Decode` are
the methods of the embedded `Module`. -/
def MUDNSProbe.asIModule {E W : Type} (I : IEventStruct E W) (mgr : Manager)
    (protos : Prototypes E) : IModule (Probe E) E W where
  Name := Module.Name
  Start := MUDNSProbe.Start mgr protos
  Stop := Module.Stop
  Close := MUDNSProbe.Close mgr
  Events := MUDNSProbe.Events
  DecodeFun := MUDNSProbe.DecodeFun
  Decode := fun p => Module.Decode I (MUDNSProbe.DecodeFun p)

/-! ### `MJavaRasp` -/

/-- The method `MJavaRasp.Init(ctx, logger)`. -/
def MJavaRasp.Init {E : Type} (p : Probe E) : Option Error × Probe E :=
  (none, { p with eventMaps := [], eventFuncMaps := [] })

/-- The method `MJavaRasp.setupManagers()`: a new manager, on which nothing was called. -/
def MJavaRasp.setupManagers {E : Type} (p : Probe E) : Probe E :=
  { p with managerCalls := [] }

/-- The method `MJavaRasp.DecodeFun(em)`. -/
def MJavaRasp.DecodeFun {E : Type} (p : Probe E) (em : EbpfMap) : Option E :=
  List.lookup em p.eventFuncMaps

/-- The method `MJavaRasp.initDecodeFun()`. -/
def MJavaRasp.initDecodeFun {E : Type} (mgr : Manager) (protos : Prototypes E)
    (p : Probe E) : Option Error × Probe E :=
  let p := { p with eventFuncMaps := [] }
  let r := mgr.GetMap "jdk_execvpe_events"
  let p := p.call (.GetMap "jdk_execvpe_events")
  match r.err with
  | some err => (some err, p)
  | none =>
    if !r.found then (some (.new "cant found map:jdk_execvpe_events"), p)
    else
      (none, { p with eventMaps := p.eventMaps ++ [r.map],
                      eventFuncMaps := (r.map, protos.JavaJDKExecPeEvent) :: p.eventFuncMaps })

/-- The method `MJavaRasp.Events()`. -/
def MJavaRasp.Events {E : Type} (p : Probe E) : List EbpfMap := p.eventMaps

/-- The method `MJavaRasp.start()`. -/
def MJavaRasp.start {E : Type} (mgr : Manager) (protos : Prototypes E) (p : Probe E) :
    Option Error × Probe E :=
  match mgr.Asset "user/bytecode/java_exec_kern.o" with
  | some err => (some (.wrap err "couldn't find asset"), p)
  | none =>
    let p := MJavaRasp.setupManagers p
    match mgr.InitWithOptions with
    | some err => (some (.wrap err "couldn't init manager"), p.call .InitWithOptions)
    | none =>
      match mgr.Start with
      | some err =>
        (some (.wrap err "couldn't start bootstrap manager"),
          (p.call .InitWithOptions).call .Start)
      | none => MJavaRasp.initDecodeFun mgr protos ((p.call .InitWithOptions).call .Start)

/-- The method `MJavaRasp.Start()`. -/
def MJavaRasp.Start {E : Type} (mgr : Manager) (protos : Prototypes E) (p : Probe E) :
    Option Error × Probe E :=
  match MJavaRasp.start mgr protos p with
  | (some err, p1) => (some err, p1)
  | (none, p1) => (none, p1)

/-- The method `MJavaRasp.Close()`. -/
def MJavaRasp.Close {E : Type} (mgr : Manager) (p : Probe E) : Option Error × Probe E :=
  match mgr.Stop with
  | some err => (some (.wrap err "couldn't stop manager"), p.call .Stop)
  | none => (none, p.call .Stop)

/-- The method `MJavaRasp.Decode(em, b)` (lines 135-146); `EventsDecode` is the one of the
embedded `Module`. -/
def MJavaRasp.Decode {E W : Type} (I : IEventStruct E W) (p : Probe E) (em : EbpfMap)
    (b : Bytes) (w : W) : DecodeResult E W :=
  match MJavaRasp.DecodeFun p em with
  | none =>
      { result := "",
        err := some (.new ("can't found decode function :" ++ em.String ++
          ", address:" ++ em.pointer)),
        world := w, calls := [.DecodeFun em] }
  | some es =>
      let r := Module.EventsDecode I b es w
      { r with calls := .DecodeFun em :: r.calls }

/-- The variant `MJavaRasp` behind the interface `IModule`: `Name` and `Stop` are the
methods of the embedded `Module`, `Decode` is its own. -/
def MJavaRasp.asIModule {E W : Type} (I : IEventStruct E W) (mgr : Manager)
    (protos : Prototypes E) : IModule (Probe E) E W where
  Name := Module.Name
  Start := MJavaRasp.Start mgr protos
  Stop := Module.Stop
  Close := MJavaRasp.Close mgr
  Events := MJavaRasp.Events
  DecodeFun := MJavaRasp.DecodeFun
  Decode := fun p => MJavaRasp.Decode I p

/-! ### `MBPFCallProbe` -/

/-- The method `MBPFCallProbe.Init(ctx, logger)`. -/
def MBPFCallProbe.Init {E : Type} (p : Probe E) : Option Error × Probe E :=
  (none, { p with eventMaps := [], eventFuncMaps := [] })

/-- The method `MBPFCallProbe.setupManagers()`: a new manager, on which nothing was called. -/
def MBPFCallProbe.setupManagers {E : Type} (p : Probe E) : Probe E :=
  { p with managerCalls := [] }

/-- The method `MBPFCallProbe.DecodeFun(em)`. -/
def MBPFCallProbe.DecodeFun {E : Type} (p : Probe E) (em : EbpfMap) : Option E :=
  List.lookup em p.eventFuncMaps

/-- The method `MBPFCallProbe.initDecodeFun()`. -/
def MBPFCallProbe.initDecodeFun {E : Type} (_mgr : Manager) (_protos : Prototypes E)
    (p : Probe E) : Option Error × Probe E :=
  (none, p)

/-- The method `MBPFCallProbe.Events()`. -/
def MBPFCallProbe.Events {E : Type} (p : Probe E) : List EbpfMap := p.eventMaps

/-- The method `MBPFCallProbe.start()`; between `GetPerfMap` and `InitWithOptions` it
sets the handlers of the perf map. -/
def MBPFCallProbe.start {E : Type} (mgr : Manager) (protos : Prototypes E) (p : Probe E) :
    Option Error × Probe E :=
  match mgr.Asset "user/bytecode/bpf_call_kern.o" with
  | some err => (some (.wrap err "couldn't find asset"), p)
  | none =>
    let p := MBPFCallProbe.setupManagers p
    let p := p.call (.GetPerfMap "events")
    if !mgr.GetPerfMap "events" then (some (.new "couldn't find events perf map"), p)
    else
      match mgr.InitWithOptions with
      | some err => (some (.wrap err "couldn't init manager"), p.call .InitWithOptions)
      | none =>
        match mgr.Start with
        | some err =>
          (some (.wrap err "couldn't start bootstrap manager"),
            (p.call .InitWithOptions).call .Start)
        | none =>
          MBPFCallProbe.initDecodeFun mgr protos ((p.call .InitWithOptions).call .Start)

/-- The method `MBPFCallProbe.Start()`. -/
def MBPFCallProbe.Start {E : Type} (mgr : Manager) (protos : Prototypes E) (p : Probe E) :
    Option Error × Probe E :=
  match MBPFCallProbe.start mgr protos p with
  | (some err, p1) => (some err, p1)
  | (none, p1) => (none, p1)

/-- The method `MBPFCallProbe.Close()`. -/
def MBPFCallProbe.Close {E : Type} (mgr : Manager) (p : Probe E) : Option Error × Probe E :=
  match mgr.Stop with
  | some err => (some (.wrap err "couldn't stop manager"), p.call .Stop)
  | none => (none, p.call .Stop)

/-- The variant `MBPFCallProbe` behind the interface `IModule`: `Name`, `Stop` and `Decode` are
the methods of the embedded `Module`. -/
def MBPFCallProbe.asIModule {E W : Type} (I : IEventStruct E W) (mgr : Manager)
    (protos : Prototypes E) : IModule (Probe E) E W where
  Name := Module.Name
  Start := MBPFCallProbe.Start mgr protos
  Stop := Module.Stop
  Close := MBPFCallProbe.Close mgr
  Events := MBPFCallProbe.Events
  DecodeFun := MBPFCallProbe.DecodeFun
  Decode := fun p => Module.Decode I (MBPFCallProbe.DecodeFun p)

/-- The callback `MBPFCallProbe.dataHandler(cpu, data, perfmap, manager)` (lines
130-140). `newBpfCallEvent` is the allocation `&BpfCallEvent{}`: it returns the new
struct and the memory that holds it. -/
def MBPFCallProbe.dataHandler {E W : Type} (I : IEventStruct E W)
    (newBpfCallEvent : W → E × W) (cpu : Int) (data : Bytes) (w : W) : ReaderRun E W :=
  let bpfEvent := (newBpfCallEvent w).1
  let w1 := (newBpfCallEvent w).2
  match I.Decode bpfEvent data w1 with
  | (some err, w2) =>
    { trace := [.Fatalf ("decode error:" ++ err.Error)], status := .exited, world := w2 }
  | (none, w2) =>
    { trace := [.Write ("BPFCALL EVENT CPU:" ++ toString cpu ++ ", " ++
        I.String bpfEvent w2)],
      status := .returned, world := w2 }

/-- The manager fails to attach: `InitWithOptions` or `Start` returns an error. -/
def Manager.attachFails (mgr : Manager) : Prop :=
  mgr.InitWithOptions ≠ none ∨ mgr.Start ≠ none

/-- The lookup of the named buffer errs, or reports it not found. -/
def Manager.lookupFails (mgr : Manager) (name : String) : Prop :=
  (mgr.GetMap name).err ≠ none ∨ (mgr.GetMap name).found = false

/-- `Run` has returned `err` and has neither called `readEvents` (so it has not
enumerated `Events()` nor started a reader) nor started the supervisory task. -/
def RunState.failedWith {S : Type} (r : RunState S) (err : Error) : Prop :=
  r.result = some (some err) ∧ r.readEvents = none ∧ r.supervisor = false

/-- Every map of `eventMaps` has an entry in `eventFuncMaps`. -/
def Probe.Covered {E : Type} (p : Probe E) : Prop :=
  ∀ em ∈ p.eventMaps, (List.lookup em p.eventFuncMaps).isSome = true

/-- What every reachable state of `readEvents` satisfies: the readers started and those
the rest of the loop will start are the readers of the supported maps of `events`, and
once `readEvents` has returned the loop is over. -/
def ReadEvents.Inv (events : List EbpfMap) (st : ReadEvents) : Prop :=
  st.spawned ++ st.todo.filterMap readerFor = events.filterMap readerFor ∧
    (st.result ≠ none → st.todo = [])

/-- What bounds the failure channel in every reachable state of `readEvents`: each map
visited gave one reader or one error, a reader sends once, and `sent` lists readers
that were started, each once. -/
def ReadEvents.Bounded (events : List EbpfMap) (st : ReadEvents) : Prop :=
  st.errChan.length + st.todo.length + st.spawned.length ≤
      events.length + st.sent.length ∧
    st.sent.Nodup ∧ (∀ i ∈ st.sent, i < st.spawned.length)

/-- The error that enters the failure channel in the step `c` from the state `st`, if
one does: the error of the `default` branch, or the error of a reader, when the channel
has room. -/
def ReadEvents.delivers (st : ReadEvents) : Sched → Option Error
  | .main =>
    match st.result, st.todo with
    | none, event :: _ =>
      if st.errChan.length < errChanCap then unsupportedFor event else none
    | _, _ => none
  | .reader i err =>
    if i < st.spawned.length ∧ i ∉ st.sent ∧ st.errChan.length < errChanCap then some err
    else none

/-- The failures delivered on the channel along the schedule, in order of delivery. -/
def ReadEvents.delivered (st : ReadEvents) : List Sched → List Error
  | [] => []
  | c :: rest => (st.delivers c).toList ++ ReadEvents.delivered (st.step c) rest

/-! ### Reading a trace -/

/-- The texts passed to `Write`, in order. -/
def writes : List Action → List String
  | [] => []
  | .Write s :: rest => s :: writes rest
  | _ :: rest => writes rest

/-- The errors sent on the failure channel, in order. -/
def sends : List Action → List Error
  | [] => []
  | .Send e :: rest => e :: sends rest
  | _ :: rest => sends rest

/-- What a reader does with the outcome of `m.child.Decode`: it logs the error, or it
passes the text to `Write`. -/
def afterDecode {E W : Type} (r : DecodeResult E W) : List Action :=
  match r.err with
  | some err => [.Log ("this.child.decode error:" ++ err.Error)]
  | none => [.Write r.result]

/-- The iterations in which the token is not fired and `Read` returns the record. -/
def okCycles {R : Type} (records : List R) : List (Cycle R) :=
  records.map fun r => { done := false, read := .ok r }

/-- The texts of the byte strings whose `Decode` succeeds, in order, each `Decode`
starting from the memory the one before left. -/
def decodedTexts {E W : Type} (childDecode : EbpfMap → Bytes → W → DecodeResult E W)
    (em : EbpfMap) : List Bytes → W → List String
  | [], _ => []
  | b :: rest, w =>
    match (childDecode em b w).err with
    | some _ => decodedTexts childDecode em rest (childDecode em b w).world
    | none =>
      (childDecode em b w).result ::
        decodedTexts childDecode em rest (childDecode em b w).world

/-! ### A small event format, for concrete runs -/

/-- A memory of event structs: the cell at address `a` holds the bytes decoded into the
struct at `a`. -/
abbrev Demo.Heap := List Bytes

/-- An event format over `Demo.Heap`: `Clone` allocates an empty struct at the next
address, `Decode` fails on an empty payload and otherwise stores the payload in its
receiver, `String` prints the number of bytes stored. -/
def Demo.events : IEventStruct Nat Demo.Heap where
  Decode := fun te payload w =>
    match payload with
    | [] => (some (.new "short read"), w)
    | _ :: _ => (none, w.set te payload)
  String := fun te w =>
    match (w.getD te []).length with
    | 0 => "empty"
    | 1 => "one byte"
    | _ => "bytes"
  Clone := fun _ w => (w.length, w ++ [[]])

/-- A ring buffer map. -/
def Demo.ringMap : EbpfMap := { addr := 1, typ := .RingBuf, name := "ringbuf_proc" }

/-- A perf event array map. -/
def Demo.perfMap : EbpfMap := { addr := 2, typ := .PerfEventArray, name := "events" }

/-- A map of a type the framework has no reader for. -/
def Demo.hashMap : EbpfMap := { addr := 3, typ := .Other "Hash", name := "conns" }

/-- A decode table with the prototype at address 0 for the two event maps. -/
def Demo.decodeFun (em : EbpfMap) : Option Nat :=
  if em = Demo.ringMap ∨ em = Demo.perfMap then some 0 else none

/-- A decode table without any entry. -/
def Demo.noDecodeFun (_ : EbpfMap) : Option Nat := none

/-! ### A manager and prototypes, for concrete runs -/

/-- A manager on which every call succeeds; each name has its map: `ringbuf_proc` is a
ring buffer, `conns` a hash map, every other name a perf event array. -/
def Demo.manager : Manager where
  Asset := fun _ => none
  InitWithOptions := none
  Start := none
  GetMap := fun name =>
    if name = "ringbuf_proc" then { map := Demo.ringMap, found := true, err := none }
    else if name = "conns" then { map := Demo.hashMap, found := true, err := none }
    else { map := { addr := 2, typ := .PerfEventArray, name := name }, found := true,
           err := none }
  GetPerfMap := fun _ => true
  Stop := none

/-- Prototypes at the addresses 0 to 8. -/
def Demo.protos : Prototypes Nat where
  TCPEvent := 0
  EventIPV4 := 1
  EventIPV6 := 2
  EventOther := 3
  UDPEvent := 4
  ForkProcEvent := 5
  DNSEVENT := 6
  JavaJDKExecPeEvent := 7
  BpfCallEvent := 8

/-- A variant struct as `init()` registers it, before `Init`. -/
def Demo.probe : Probe Nat :=
  { name := "EBPFProbeProc", mType := "kprobe", managerCalls := [], eventFuncMaps := [],
    eventMaps := [] }

/-- A child whose `Start` succeeds and whose `Events()` is the list `events`. -/
def Demo.child (events : List EbpfMap) : IModule Unit Nat Demo.Heap where
  Name := fun _ => "demo"
  Start := fun s => (none, s)
  Stop := Module.Stop
  Close := fun s => (none, s)
  Events := fun _ => events
  DecodeFun := fun _ => Demo.decodeFun
  Decode := fun _ => Module.Decode Demo.events Demo.decodeFun

/-- The allocation of an empty event struct at the next address of `Demo.Heap`. -/
def Demo.newEvent (w : Demo.Heap) : Nat × Demo.Heap := (w.length, w ++ [[]])

/-- A manager that attaches but reports every named buffer not found. -/
def Demo.managerWithoutMaps : Manager where
  Asset := fun _ => none
  InitWithOptions := none
  Start := none
  GetMap := fun _ => { map := Demo.hashMap, found := false, err := none }
  GetPerfMap := fun _ => true
  Stop := none

/-! ## Theorems -/

/-! ### Traces and reader loops -/

theorem writes_append (xs ys : List Action) : writes (xs ++ ys) = writes xs ++ writes ys := by
  induction xs with
  | nil => rfl
  | cons a xs ih => cases a <;> simp [writes, ih]

theorem sends_append (xs ys : List Action) : sends (xs ++ ys) = sends xs ++ sends ys := by
  induction xs with
  | nil => rfl
  | cons a xs ih => cases a <;> simp [sends, ih]

theorem ringbuf_loop_okCycles {E W : Type} (errChan : ErrChan)
    (childDecode : EbpfMap → Bytes → W → DecodeResult E W) (em : EbpfMap)
    (records : List ringbuf.Record) (w : W) :
    writes (Module.ringbufEventReader.loop errChan childDecode em (okCycles records) w).trace =
        decodedTexts childDecode em (records.map fun r => r.RawSample) w ∧
      sends (Module.ringbufEventReader.loop errChan childDecode em (okCycles records) w).trace = [] ∧
      (Module.ringbufEventReader.loop errChan childDecode em (okCycles records) w).status =
        .running := by
  induction records generalizing w with
  | nil => simp [okCycles, Module.ringbufEventReader.loop, writes, sends, decodedTexts]
  | cons r rest ih =>
    have h := ih (childDecode em r.RawSample w).world
    simp only [okCycles] at h
    simp only [okCycles, List.map_cons, Module.ringbufEventReader.loop, decodedTexts]
    cases hd : (childDecode em r.RawSample w).err with
    | none =>
      simp [ReaderRun.after, writes_append, sends_append, writes, sends, h]
    | some e =>
      simp [ReaderRun.after, writes_append, sends_append, writes, sends, h]

theorem perf_loop_okCycles {E W : Type} (errChan : ErrChan)
    (childDecode : EbpfMap → Bytes → W → DecodeResult E W) (em : EbpfMap)
    (records : List perf.Record) (w : W) (hlost : ∀ r ∈ records, r.LostSamples = 0) :
    writes (Module.perfEventReader.loop errChan childDecode em (okCycles records) w).trace =
        decodedTexts childDecode em (records.map fun r => r.RawSample) w ∧
      sends (Module.perfEventReader.loop errChan childDecode em (okCycles records) w).trace = [] ∧
      (Module.perfEventReader.loop errChan childDecode em (okCycles records) w).status =
        .running := by
  induction records generalizing w with
  | nil => simp [okCycles, Module.perfEventReader.loop, writes, sends, decodedTexts]
  | cons r rest ih =>
    have hr : r.LostSamples = 0 := hlost r (List.mem_cons_self _ _)
    have h := ih (childDecode em r.RawSample w).world
      (fun x hx => hlost x (List.mem_cons_of_mem _ hx))
    simp only [okCycles] at h
    simp only [okCycles, List.map_cons, Module.perfEventReader.loop, decodedTexts]
    cases hd : (childDecode em r.RawSample w).err with
    | none =>
      simp [ReaderRun.after, writes_append, sends_append, writes, sends, h, hr]
    | some e =>
      simp [ReaderRun.after, writes_append, sends_append, writes, sends, h, hr]

@[simp] theorem ReaderRun.after_status {E W : Type} (xs : List Action) (r : ReaderRun E W) :
    (r.after xs).status = r.status := rfl

@[simp] theorem ReaderRun.after_world {E W : Type} (xs : List Action) (r : ReaderRun E W) :
    (r.after xs).world = r.world := rfl

@[simp] theorem ReaderRun.after_trace {E W : Type} (xs : List Action) (r : ReaderRun E W) :
    (r.after xs).trace = xs ++ r.trace := rfl

@[simp] theorem ErrChan.afterSend_ne_running (errChan : ErrChan) :
    errChan.afterSend = .running ↔ False := by
  cases errChan <;> simp [ErrChan.afterSend]

theorem ReaderRun.after_after {E W : Type} (xs ys : List Action) (r : ReaderRun E W) :
    (r.after ys).after xs = r.after (xs ++ ys) := by
  simp [ReaderRun.after]

theorem ringbuf_loop_ok {E W : Type} {errChan : ErrChan}
    (childDecode : EbpfMap → Bytes → W → DecodeResult E W) (em : EbpfMap)
    (record : ringbuf.Record) (rest : List (Cycle ringbuf.Record)) (w : W) :
    Module.ringbufEventReader.loop errChan childDecode em
        ({ done := false, read := .ok record } :: rest) w =
      (Module.ringbufEventReader.loop errChan childDecode em rest
        (childDecode em record.RawSample w).world).after
        ([.CtxDone false, .Read, .Decode em record.RawSample] ++
          afterDecode (childDecode em record.RawSample w)) := by
  simp only [Module.ringbufEventReader.loop, afterDecode]
  cases (childDecode em record.RawSample w).err <;> simp

theorem perf_loop_ok {E W : Type} {errChan : ErrChan}
    (childDecode : EbpfMap → Bytes → W → DecodeResult E W) (em : EbpfMap)
    (record : perf.Record) (rest : List (Cycle perf.Record)) (w : W)
    (hlost : record.LostSamples = 0) :
    Module.perfEventReader.loop errChan childDecode em
        ({ done := false, read := .ok record } :: rest) w =
      (Module.perfEventReader.loop errChan childDecode em rest
        (childDecode em record.RawSample w).world).after
        ([.CtxDone false, .Read, .Decode em record.RawSample] ++
          afterDecode (childDecode em record.RawSample w)) := by
  simp only [Module.perfEventReader.loop, afterDecode, hlost]
  cases (childDecode em record.RawSample w).err <;> simp

theorem perf_loop_lost {E W : Type} {errChan : ErrChan}
    (childDecode : EbpfMap → Bytes → W → DecodeResult E W) (em : EbpfMap)
    (record : perf.Record) (rest : List (Cycle perf.Record)) (w : W)
    (hlost : record.LostSamples ≠ 0) :
    Module.perfEventReader.loop errChan childDecode em
        ({ done := false, read := .ok record } :: rest) w =
      (Module.perfEventReader.loop errChan childDecode em rest w).after
        [.CtxDone false, .Read,
          .Log ("perf event ring buffer full, dropped " ++
            toString record.LostSamples ++ " samples")] := by
  simp [Module.perfEventReader.loop, hlost]

theorem ringbuf_loop_append {E W : Type} {errChan : ErrChan}
    (childDecode : EbpfMap → Bytes → W → DecodeResult E W) (em : EbpfMap)
    (pre rest : List (Cycle ringbuf.Record)) (w : W)
    (hrun : (Module.ringbufEventReader.loop errChan childDecode em pre w).status = .running) :
    Module.ringbufEventReader.loop errChan childDecode em (pre ++ rest) w =
      (Module.ringbufEventReader.loop errChan childDecode em rest
        (Module.ringbufEventReader.loop errChan childDecode em pre w).world).after
        (Module.ringbufEventReader.loop errChan childDecode em pre w).trace := by
  induction pre generalizing w with
  | nil => simp [Module.ringbufEventReader.loop, ReaderRun.after]
  | cons c pre ih =>
    rcases c with ⟨done, read⟩
    cases done with
    | true => simp [Module.ringbufEventReader.loop] at hrun
    | false =>
      cases read with
      | error err =>
        by_cases hc : errors.Is err ringbuf.ErrClosed = true <;>
          simp [Module.ringbufEventReader.loop, hc] at hrun
      | ok record =>
        rw [ringbuf_loop_ok] at hrun
        rw [List.cons_append, ringbuf_loop_ok, ringbuf_loop_ok,
          ih _ (by simpa using hrun), ReaderRun.after_after]
        simp

theorem perf_loop_append {E W : Type} {errChan : ErrChan}
    (childDecode : EbpfMap → Bytes → W → DecodeResult E W) (em : EbpfMap)
    (pre rest : List (Cycle perf.Record)) (w : W)
    (hrun : (Module.perfEventReader.loop errChan childDecode em pre w).status = .running) :
    Module.perfEventReader.loop errChan childDecode em (pre ++ rest) w =
      (Module.perfEventReader.loop errChan childDecode em rest
        (Module.perfEventReader.loop errChan childDecode em pre w).world).after
        (Module.perfEventReader.loop errChan childDecode em pre w).trace := by
  induction pre generalizing w with
  | nil => simp [Module.perfEventReader.loop, ReaderRun.after]
  | cons c pre ih =>
    rcases c with ⟨done, read⟩
    cases done with
    | true => simp [Module.perfEventReader.loop] at hrun
    | false =>
      cases read with
      | error err =>
        by_cases hc : errors.Is err perf.ErrClosed = true <;>
          simp [Module.perfEventReader.loop, hc] at hrun
      | ok record =>
        by_cases hl : record.LostSamples = 0
        · rw [perf_loop_ok _ _ _ _ _ hl] at hrun
          rw [List.cons_append, perf_loop_ok _ _ _ _ _ hl, perf_loop_ok _ _ _ _ _ hl,
            ih _ (by simpa using hrun), ReaderRun.after_after]
          simp
        · rw [perf_loop_lost _ _ _ _ _ hl] at hrun
          rw [List.cons_append, perf_loop_lost _ _ _ _ _ hl, perf_loop_lost _ _ _ _ _ hl,
            ih _ (by simpa using hrun), ReaderRun.after_after]
          simp

@[simp] theorem ReaderRun.deferClose_status {E W : Type} (r : ReaderRun E W) :
    r.deferClose.status = r.status := by
  unfold ReaderRun.deferClose
  cases h : r.status <;> simp [h]

@[simp] theorem ReaderRun.deferClose_world {E W : Type} (r : ReaderRun E W) :
    r.deferClose.world = r.world := by
  unfold ReaderRun.deferClose
  cases h : r.status <;> simp

theorem ReaderRun.deferClose_running {E W : Type} (r : ReaderRun E W)
    (h : r.status = .running) : r.deferClose.trace = r.trace := by
  unfold ReaderRun.deferClose
  simp [h]

theorem ReaderRun.deferClose_returned {E W : Type} (r : ReaderRun E W)
    (h : r.status = .returned) : r.deferClose.trace = r.trace ++ [.CloseReader] := by
  unfold ReaderRun.deferClose
  simp [h]

theorem ringbuf_loop_done {E W : Type} {errChan : ErrChan}
    (childDecode : EbpfMap → Bytes → W → DecodeResult E W) (em : EbpfMap)
    (c : Cycle ringbuf.Record) (rest : List (Cycle ringbuf.Record)) (w : W)
    (hdone : c.done = true) :
    Module.ringbufEventReader.loop errChan childDecode em (c :: rest) w =
      { trace := [.CtxDone true,
          .Log "readEvent recived close signal from context.Done."],
        status := .returned, world := w } := by
  simp [Module.ringbufEventReader.loop, hdone]

theorem perf_loop_done {E W : Type} {errChan : ErrChan}
    (childDecode : EbpfMap → Bytes → W → DecodeResult E W) (em : EbpfMap)
    (c : Cycle perf.Record) (rest : List (Cycle perf.Record)) (w : W)
    (hdone : c.done = true) :
    Module.perfEventReader.loop errChan childDecode em (c :: rest) w =
      { trace := [.CtxDone true,
          .Log "readEvent recived close signal from context.Done."],
        status := .returned, world := w } := by
  simp [Module.perfEventReader.loop, hdone]

theorem ringbuf_reader_cancel {E W : Type} {errChan : ErrChan}
    (childDecode : EbpfMap → Bytes → W → DecodeResult E W) (em : EbpfMap) (w : W)
    (pre : List (Cycle ringbuf.Record)) (c : Cycle ringbuf.Record)
    (rest : List (Cycle ringbuf.Record)) (hdone : c.done = true)
    (hrun : (Module.ringbufEventReader errChan childDecode em none pre w).status = .running) :
    (Module.ringbufEventReader errChan childDecode em none (pre ++ c :: rest) w).trace =
        (Module.ringbufEventReader errChan childDecode em none pre w).trace ++
          [.CtxDone true, .Log "readEvent recived close signal from context.Done.",
            .CloseReader] ∧
      (Module.ringbufEventReader errChan childDecode em none (pre ++ c :: rest) w).status =
        .returned ∧
      (Module.ringbufEventReader errChan childDecode em none (pre ++ c :: rest) w).world =
        (Module.ringbufEventReader errChan childDecode em none pre w).world := by
  have hl : (Module.ringbufEventReader.loop errChan childDecode em pre w).status = .running := by
    simpa [Module.ringbufEventReader] using hrun
  have ha := ringbuf_loop_append childDecode em pre (c :: rest) w hl
  rw [ringbuf_loop_done _ _ _ _ _ hdone] at ha
  have hs : (Module.ringbufEventReader.loop errChan childDecode em (pre ++ c :: rest) w).status =
      .returned := by rw [ha]; rfl
  simp only [Module.ringbufEventReader, ReaderRun.after_trace, ReaderRun.after_status,
    ReaderRun.after_world, ReaderRun.deferClose_status, ReaderRun.deferClose_world,
    ReaderRun.deferClose_running _ hl, ReaderRun.deferClose_returned _ hs]
  rw [ha]
  simp [ReaderRun.after]

theorem perf_reader_cancel {E W : Type} {errChan : ErrChan}
    (childDecode : EbpfMap → Bytes → W → DecodeResult E W) (em : EbpfMap) (w : W)
    (pre : List (Cycle perf.Record)) (c : Cycle perf.Record)
    (rest : List (Cycle perf.Record)) (hdone : c.done = true)
    (hrun : (Module.perfEventReader errChan childDecode em none pre w).status = .running) :
    (Module.perfEventReader errChan childDecode em none (pre ++ c :: rest) w).trace =
        (Module.perfEventReader errChan childDecode em none pre w).trace ++
          [.CtxDone true, .Log "readEvent recived close signal from context.Done.",
            .CloseReader] ∧
      (Module.perfEventReader errChan childDecode em none (pre ++ c :: rest) w).status =
        .returned ∧
      (Module.perfEventReader errChan childDecode em none (pre ++ c :: rest) w).world =
        (Module.perfEventReader errChan childDecode em none pre w).world := by
  have hl : (Module.perfEventReader.loop errChan childDecode em pre w).status = .running := by
    simpa [Module.perfEventReader] using hrun
  have ha := perf_loop_append childDecode em pre (c :: rest) w hl
  rw [perf_loop_done _ _ _ _ _ hdone] at ha
  have hs : (Module.perfEventReader.loop errChan childDecode em (pre ++ c :: rest) w).status =
      .returned := by rw [ha]; rfl
  simp only [Module.perfEventReader, ReaderRun.after_trace, ReaderRun.after_status,
    ReaderRun.after_world, ReaderRun.deferClose_status, ReaderRun.deferClose_world,
    ReaderRun.deferClose_running _ hl, ReaderRun.deferClose_returned _ hs]
  rw [ha]
  simp [ReaderRun.after]

theorem ringbuf_reader_snoc_ok {E W : Type} {errChan : ErrChan}
    (childDecode : EbpfMap → Bytes → W → DecodeResult E W) (em : EbpfMap) (w : W)
    (pre : List (Cycle ringbuf.Record)) (record : ringbuf.Record)
    (hrun : (Module.ringbufEventReader errChan childDecode em none pre w).status = .running) :
    (Module.ringbufEventReader errChan childDecode em none
        (pre ++ [{ done := false, read := .ok record }]) w).trace =
        (Module.ringbufEventReader errChan childDecode em none pre w).trace ++
          ([.CtxDone false, .Read, .Decode em record.RawSample] ++
            afterDecode (childDecode em record.RawSample
              (Module.ringbufEventReader errChan childDecode em none pre w).world)) ∧
      (Module.ringbufEventReader errChan childDecode em none
        (pre ++ [{ done := false, read := .ok record }]) w).status = .running := by
  have hl : (Module.ringbufEventReader.loop errChan childDecode em pre w).status = .running := by
    simpa [Module.ringbufEventReader] using hrun
  have ha := ringbuf_loop_append childDecode em pre
    [{ done := false, read := .ok record }] w hl
  rw [ringbuf_loop_ok] at ha
  have hs : (Module.ringbufEventReader.loop errChan childDecode em
      (pre ++ [{ done := false, read := .ok record }]) w).status = .running := by
    rw [ha]; rfl
  simp only [Module.ringbufEventReader, ReaderRun.after_trace, ReaderRun.after_status,
    ReaderRun.after_world, ReaderRun.deferClose_status, ReaderRun.deferClose_world,
    ReaderRun.deferClose_running _ hl, ReaderRun.deferClose_running _ hs]
  rw [ha]
  simp [ReaderRun.after, Module.ringbufEventReader.loop]

theorem perf_reader_snoc_ok {E W : Type} {errChan : ErrChan}
    (childDecode : EbpfMap → Bytes → W → DecodeResult E W) (em : EbpfMap) (w : W)
    (pre : List (Cycle perf.Record)) (record : perf.Record)
    (hlost : record.LostSamples = 0)
    (hrun : (Module.perfEventReader errChan childDecode em none pre w).status = .running) :
    (Module.perfEventReader errChan childDecode em none
        (pre ++ [{ done := false, read := .ok record }]) w).trace =
        (Module.perfEventReader errChan childDecode em none pre w).trace ++
          ([.CtxDone false, .Read, .Decode em record.RawSample] ++
            afterDecode (childDecode em record.RawSample
              (Module.perfEventReader errChan childDecode em none pre w).world)) ∧
      (Module.perfEventReader errChan childDecode em none
        (pre ++ [{ done := false, read := .ok record }]) w).status = .running := by
  have hl : (Module.perfEventReader.loop errChan childDecode em pre w).status = .running := by
    simpa [Module.perfEventReader] using hrun
  have ha := perf_loop_append childDecode em pre
    [{ done := false, read := .ok record }] w hl
  rw [perf_loop_ok _ _ _ _ _ hlost] at ha
  have hs : (Module.perfEventReader.loop errChan childDecode em
      (pre ++ [{ done := false, read := .ok record }]) w).status = .running := by
    rw [ha]; rfl
  simp only [Module.perfEventReader, ReaderRun.after_trace, ReaderRun.after_status,
    ReaderRun.after_world, ReaderRun.deferClose_status, ReaderRun.deferClose_world,
    ReaderRun.deferClose_running _ hl, ReaderRun.deferClose_running _ hs]
  rw [ha]
  simp [ReaderRun.after, Module.perfEventReader.loop]

theorem perf_reader_snoc_lost {E W : Type} {errChan : ErrChan}
    (childDecode : EbpfMap → Bytes → W → DecodeResult E W) (em : EbpfMap) (w : W)
    (pre : List (Cycle perf.Record)) (record : perf.Record)
    (hlost : record.LostSamples ≠ 0)
    (hrun : (Module.perfEventReader errChan childDecode em none pre w).status = .running) :
    (Module.perfEventReader errChan childDecode em none
        (pre ++ [{ done := false, read := .ok record }]) w).trace =
        (Module.perfEventReader errChan childDecode em none pre w).trace ++
          [.CtxDone false, .Read,
            .Log ("perf event ring buffer full, dropped " ++
              toString record.LostSamples ++ " samples")] ∧
      (Module.perfEventReader errChan childDecode em none
        (pre ++ [{ done := false, read := .ok record }]) w).status = .running := by
  have hl : (Module.perfEventReader.loop errChan childDecode em pre w).status = .running := by
    simpa [Module.perfEventReader] using hrun
  have ha := perf_loop_append childDecode em pre
    [{ done := false, read := .ok record }] w hl
  rw [perf_loop_lost _ _ _ _ _ hlost] at ha
  have hs : (Module.perfEventReader.loop errChan childDecode em
      (pre ++ [{ done := false, read := .ok record }]) w).status = .running := by
    rw [ha]; rfl
  simp only [Module.perfEventReader, ReaderRun.after_trace, ReaderRun.after_status,
    ReaderRun.after_world, ReaderRun.deferClose_status, ReaderRun.deferClose_world,
    ReaderRun.deferClose_running _ hl, ReaderRun.deferClose_running _ hs]
  rw [ha]
  simp [ReaderRun.after, Module.perfEventReader.loop]

theorem sends_afterDecode {E W : Type} (r : DecodeResult E W) : sends (afterDecode r) = [] := by
  unfold afterDecode
  cases r.err <;> rfl

theorem ringbuf_loop_sends {E W : Type} (errChan : ErrChan)
    (childDecode : EbpfMap → Bytes → W → DecodeResult E W) (em : EbpfMap)
    (cycles : List (Cycle ringbuf.Record)) (w : W) :
    (sends (Module.ringbufEventReader.loop errChan childDecode em cycles w).trace).length ≤ 1 ∧
      ((Module.ringbufEventReader.loop errChan childDecode em cycles w).status = .running →
        sends (Module.ringbufEventReader.loop errChan childDecode em cycles w).trace = []) := by
  induction cycles generalizing w with
  | nil => simp [Module.ringbufEventReader.loop, sends]
  | cons c rest ih =>
    rcases c with ⟨done, read⟩
    cases done with
    | true => simp [Module.ringbufEventReader.loop, sends]
    | false =>
      cases read with
      | error err =>
        by_cases hc : errors.Is err ringbuf.ErrClosed = true <;>
          simp [Module.ringbufEventReader.loop, hc, sends]
      | ok record =>
        rw [ringbuf_loop_ok]
        simpa [sends_append, sends, sends_afterDecode] using
          ih (childDecode em record.RawSample w).world

theorem perf_loop_sends {E W : Type} (errChan : ErrChan)
    (childDecode : EbpfMap → Bytes → W → DecodeResult E W) (em : EbpfMap)
    (cycles : List (Cycle perf.Record)) (w : W) :
    (sends (Module.perfEventReader.loop errChan childDecode em cycles w).trace).length ≤ 1 ∧
      ((Module.perfEventReader.loop errChan childDecode em cycles w).status = .running →
        sends (Module.perfEventReader.loop errChan childDecode em cycles w).trace = []) := by
  induction cycles generalizing w with
  | nil => simp [Module.perfEventReader.loop, sends]
  | cons c rest ih =>
    rcases c with ⟨done, read⟩
    cases done with
    | true => simp [Module.perfEventReader.loop, sends]
    | false =>
      cases read with
      | error err =>
        by_cases hc : errors.Is err perf.ErrClosed = true <;>
          simp [Module.perfEventReader.loop, hc, sends]
      | ok record =>
        by_cases hl : record.LostSamples = 0
        · rw [perf_loop_ok _ _ _ _ _ hl]
          simpa [sends_append, sends, sends_afterDecode] using
            ih (childDecode em record.RawSample w).world
        · rw [perf_loop_lost _ _ _ _ _ hl]
          simpa [sends_append, sends] using ih w

/-- A reader sends at most one error on the failure channel, and none while it is still
in its loop: this is what `ReadEvents.readerStep` takes from the readers. -/
theorem reader_sends_at_most_once {E W : Type} (errChan : ErrChan)
    (childDecode : EbpfMap → Bytes → W → DecodeResult E W) (em : EbpfMap)
    (newReader : Option Error) (w : W) :
    (∀ cycles : List (Cycle ringbuf.Record),
      (sends (Module.ringbufEventReader errChan childDecode em newReader cycles w).trace).length
        ≤ 1) ∧
    (∀ cycles : List (Cycle perf.Record),
      (sends (Module.perfEventReader errChan childDecode em newReader cycles w).trace).length
        ≤ 1) := by
  constructor
  · intro cycles
    cases newReader with
    | some err => simp [Module.ringbufEventReader, sends]
    | none =>
      have h := ringbuf_loop_sends errChan childDecode em cycles w
      unfold Module.ringbufEventReader ReaderRun.deferClose
      cases hs : (Module.ringbufEventReader.loop errChan childDecode em cycles w).status <;>
        simpa [sends_append, sends] using h.1
  · intro cycles
    cases newReader with
    | some err => simp [Module.perfEventReader, sends]
    | none =>
      have h := perf_loop_sends errChan childDecode em cycles w
      unfold Module.perfEventReader ReaderRun.deferClose
      cases hs : (Module.perfEventReader.loop errChan childDecode em cycles w).status <;>
        simpa [sends_append, sends] using h.1

/-! ### Decode dispatch -/

/-- C1: when `DecodeFun(em)` finds the prototype `es` and `Decode(b)` succeeds on
`es.Clone()`, `Module.Decode(em, b)` returns the `String()` of the decoded clone and a
nil error; its only call of an event `Decode` has the clone as receiver, so none has the
prototype `es` when the clone is another instance. -/
theorem Module.Decode_found_ok {E W : Type} (I : IEventStruct E W)
    (childDecodeFun : EbpfMap → Option E) (em : EbpfMap) (b : Bytes) (w : W) (es : E)
    (hfound : childDecodeFun em = some es)
    (hdec : (I.Decode (I.Clone es w).1 b (I.Clone es w).2).1 = none) :
    (Module.Decode I childDecodeFun em b w).result =
        I.String (I.Clone es w).1 (I.Decode (I.Clone es w).1 b (I.Clone es w).2).2 ∧
      (Module.Decode I childDecodeFun em b w).err = none ∧
      (Module.Decode I childDecodeFun em b w).calls =
        [.DecodeFun em, .Clone es, .Decode (I.Clone es w).1 b, .String (I.Clone es w).1] ∧
      ((I.Clone es w).1 ≠ es →
        ∀ payload, Call.Decode es payload ∉ (Module.Decode I childDecodeFun em b w).calls) := by
  have h : I.Decode (I.Clone es w).1 b (I.Clone es w).2 =
      (none, (I.Decode (I.Clone es w).1 b (I.Clone es w).2).2) := by
    rw [← hdec]
  have hcalls : (Module.Decode I childDecodeFun em b w).calls =
      [.DecodeFun em, .Clone es, .Decode (I.Clone es w).1 b, .String (I.Clone es w).1] := by
    simp only [Module.Decode, hfound, Module.EventsDecode]
    rw [h]
  refine ⟨?_, ?_, hcalls, ?_⟩
  · simp only [Module.Decode, hfound, Module.EventsDecode]
    rw [h]
  · simp only [Module.Decode, hfound, Module.EventsDecode]
    rw [h]
  · intro hne payload hmem
    rw [hcalls] at hmem
    simp at hmem
    exact hne hmem.1.symm

/-- Witness of C1: the prototype at address 0, a one byte payload. -/
theorem Module.Decode_found_ok_witness :
    (Module.Decode Demo.events Demo.decodeFun Demo.ringMap [7] [[]]).result = "one byte" ∧
      (Module.Decode Demo.events Demo.decodeFun Demo.ringMap [7] [[]]).err = none ∧
      (Module.Decode Demo.events Demo.decodeFun Demo.ringMap [7] [[]]).calls =
        [.DecodeFun Demo.ringMap, .Clone 0, .Decode 1 [7], .String 1] ∧
      (∀ payload, Call.Decode 0 payload ∉
        (Module.Decode Demo.events Demo.decodeFun Demo.ringMap [7] [[]]).calls) := by
  have h := Module.Decode_found_ok Demo.events Demo.decodeFun Demo.ringMap [7] [[]] 0
    (by decide) (by decide)
  exact ⟨h.1, h.2.1, h.2.2.1, h.2.2.2 (by decide)⟩

/-- C2: `Module.Decode(em, b)` returns an error exactly when `DecodeFun(em)` finds no
prototype or the `Decode(b)` of the clone fails; the text is then empty, and in the
second case the error is the one the event's `Decode` returned. -/
theorem Module.Decode_err_iff {E W : Type} (I : IEventStruct E W)
    (childDecodeFun : EbpfMap → Option E) (em : EbpfMap) (b : Bytes) (w : W) :
    ((Module.Decode I childDecodeFun em b w).err ≠ none ↔
        (childDecodeFun em = none ∨ ∃ es, childDecodeFun em = some es ∧
          (I.Decode (I.Clone es w).1 b (I.Clone es w).2).1 ≠ none)) ∧
      ((Module.Decode I childDecodeFun em b w).err ≠ none →
        (Module.Decode I childDecodeFun em b w).result = "") ∧
      (∀ es err, childDecodeFun em = some es →
        (I.Decode (I.Clone es w).1 b (I.Clone es w).2).1 = some err →
        (Module.Decode I childDecodeFun em b w).err = some err) := by
  cases hf : childDecodeFun em with
  | none => simp [Module.Decode, hf]
  | some es =>
    rcases hd : I.Decode (I.Clone es w).1 b (I.Clone es w).2 with ⟨e, w2⟩
    cases e with
    | none =>
      simp only [Module.Decode, hf, Module.EventsDecode, hd]
      refine ⟨by simp [hd], by simp, ?_⟩
      intro es2 err hes herr
      cases hes
      rw [hd] at herr
      cases herr
    | some err =>
      simp only [Module.Decode, hf, Module.EventsDecode, hd]
      refine ⟨by simp [hd], by simp, ?_⟩
      intro es2 err2 hes herr
      cases hes
      rw [hd] at herr
      exact herr

/-- Witness of C2: a prototype is found and the `Decode` of an empty payload fails; the
error is the one of the event and the text is empty. -/
theorem Module.Decode_err_iff_witness :
    (Module.Decode Demo.events Demo.decodeFun Demo.ringMap [] [[]]).err =
        some (.new "short read") ∧
      (Module.Decode Demo.events Demo.decodeFun Demo.ringMap [] [[]]).result = "" :=
  ⟨(Module.Decode_err_iff Demo.events Demo.decodeFun Demo.ringMap [] [[]]).2.2 0
      (.new "short read") (by decide) (by decide),
    (Module.Decode_err_iff Demo.events Demo.decodeFun Demo.ringMap [] [[]]).2.1
      (by decide)⟩

/-! ### Buffer readers -/

/-- C3: when the token is not fired and every `Read` returns a record (for the perf
reader, with `LostSamples = 0`), the texts passed to `Write` are, in read order, the
results of `m.child.Decode` on the records whose `Decode` succeeds; nothing is sent on
the failure channel and the reader is still in its loop after the last record, so a
record that fails to decode does not keep the next one from being processed. -/
theorem readers_publish_decoded {E W : Type} (errChan : ErrChan)
    (childDecode : EbpfMap → Bytes → W → DecodeResult E W) (em : EbpfMap) (w : W) :
    (∀ records : List ringbuf.Record,
      writes (Module.ringbufEventReader errChan childDecode em none (okCycles records) w).trace =
          decodedTexts childDecode em (records.map fun r => r.RawSample) w ∧
        sends (Module.ringbufEventReader errChan childDecode em none (okCycles records) w).trace
          = [] ∧
        (Module.ringbufEventReader errChan childDecode em none (okCycles records) w).status =
          .running) ∧
    (∀ records : List perf.Record, (∀ r ∈ records, r.LostSamples = 0) →
      writes (Module.perfEventReader errChan childDecode em none (okCycles records) w).trace =
          decodedTexts childDecode em (records.map fun r => r.RawSample) w ∧
        sends (Module.perfEventReader errChan childDecode em none (okCycles records) w).trace
          = [] ∧
        (Module.perfEventReader errChan childDecode em none (okCycles records) w).status =
          .running) := by
  constructor
  · intro records
    have h := ringbuf_loop_okCycles errChan childDecode em records w
    simp only [Module.ringbufEventReader, ReaderRun.deferClose, h.2.2,
      ReaderRun.after_trace, ReaderRun.after_status]
    simp [writes, sends, h]
  · intro records hlost
    have h := perf_loop_okCycles errChan childDecode em records w hlost
    simp only [Module.perfEventReader, ReaderRun.deferClose, h.2.2,
      ReaderRun.after_trace, ReaderRun.after_status]
    simp [writes, sends, h]

/-- Witness of C3: the records valid, corrupt, valid give exactly two texts, on the ring
buffer reader and on the perf reader. -/
theorem readers_publish_decoded_witness :
    writes (Module.ringbufEventReader .takes (Module.Decode Demo.events Demo.decodeFun)
        Demo.ringMap none (okCycles [⟨[7]⟩, ⟨[]⟩, ⟨[8, 9]⟩]) [[]]).trace =
        ["one byte", "bytes"] ∧
      writes (Module.perfEventReader .takes (Module.Decode Demo.events Demo.decodeFun)
        Demo.perfMap none (okCycles [⟨0, [7], 0⟩, ⟨0, [], 0⟩, ⟨1, [8, 9], 0⟩]) [[]]).trace =
        ["one byte", "bytes"] := by
  constructor
  · rw [((readers_publish_decoded .takes (Module.Decode Demo.events Demo.decodeFun)
      Demo.ringMap [[]]).1 [⟨[7]⟩, ⟨[]⟩, ⟨[8, 9]⟩]).1]
    decide
  · rw [((readers_publish_decoded .takes (Module.Decode Demo.events Demo.decodeFun)
      Demo.perfMap [[]]).2 [⟨0, [7], 0⟩, ⟨0, [], 0⟩, ⟨1, [8, 9], 0⟩] (by decide)).1]
    decide

/-- C4: a perf read that returns a record with `LostSamples ≠ 0` is only logged: the
reader sends nothing on the failure channel, stays in its loop and goes on to the next
read with the memory unchanged; a following record with `LostSamples = 0` that decodes
is passed to `Write`. -/
theorem perf_lost_samples_continue {E W : Type} (errChan : ErrChan)
    (childDecode : EbpfMap → Bytes → W → DecodeResult E W) (em : EbpfMap) (w : W)
    (lost normal : perf.Record) (hlost : lost.LostSamples ≠ 0)
    (hnormal : normal.LostSamples = 0)
    (hdec : (childDecode em normal.RawSample w).err = none) :
    (∀ rest : List (Cycle perf.Record),
      Module.perfEventReader.loop errChan childDecode em
          ({ done := false, read := .ok lost } :: rest) w =
        (Module.perfEventReader.loop errChan childDecode em rest w).after
          [.CtxDone false, .Read,
            .Log ("perf event ring buffer full, dropped " ++
              toString lost.LostSamples ++ " samples")]) ∧
      (Module.perfEventReader errChan childDecode em none (okCycles [lost]) w).status = .running ∧
      sends (Module.perfEventReader errChan childDecode em none (okCycles [lost]) w).trace = [] ∧
      (Module.perfEventReader errChan childDecode em none (okCycles [lost, normal]) w).trace =
        [.NewReader em, .CtxDone false, .Read,
          .Log ("perf event ring buffer full, dropped " ++
            toString lost.LostSamples ++ " samples"),
          .CtxDone false, .Read, .Decode em normal.RawSample,
          .Write (childDecode em normal.RawSample w).result] ∧
      (Module.perfEventReader errChan childDecode em none (okCycles [lost, normal]) w).status =
        .running := by
  have h1 : Module.perfEventReader.loop errChan childDecode em (okCycles [lost]) w =
      { trace := [.CtxDone false, .Read,
          .Log ("perf event ring buffer full, dropped " ++
            toString lost.LostSamples ++ " samples")],
        status := .running, world := w } := by
    show Module.perfEventReader.loop errChan childDecode em [{ done := false, read := .ok lost }] w
      = _
    rw [perf_loop_lost _ _ _ _ _ hlost]
    rfl
  have h2 : Module.perfEventReader.loop errChan childDecode em (okCycles [lost, normal]) w =
      { trace := [.CtxDone false, .Read,
          .Log ("perf event ring buffer full, dropped " ++
            toString lost.LostSamples ++ " samples"),
          .CtxDone false, .Read, .Decode em normal.RawSample,
          .Write (childDecode em normal.RawSample w).result],
        status := .running, world := (childDecode em normal.RawSample w).world } := by
    show Module.perfEventReader.loop errChan childDecode em
      [{ done := false, read := .ok lost }, { done := false, read := .ok normal }] w = _
    rw [perf_loop_lost _ _ _ _ _ hlost, perf_loop_ok _ _ _ _ _ hnormal]
    simp [afterDecode, hdec, Module.perfEventReader.loop, ReaderRun.after]
  refine ⟨fun rest => perf_loop_lost childDecode em lost rest w hlost, ?_, ?_, ?_, ?_⟩
  · simp [Module.perfEventReader, h1, ReaderRun.deferClose]
  · simp [Module.perfEventReader, h1, ReaderRun.deferClose, sends]
  · simp [Module.perfEventReader, h2, ReaderRun.deferClose]
  · simp [Module.perfEventReader, h2, ReaderRun.deferClose]

/-- Witness of C4: a read with `LostSamples = 5`, then a record that decodes. -/
theorem perf_lost_samples_continue_witness :
    writes (Module.perfEventReader .takes (Module.Decode Demo.events Demo.decodeFun)
        Demo.perfMap none (okCycles [⟨0, [], 5⟩, ⟨0, [7], 0⟩]) [[]]).trace = ["one byte"] ∧
      (Module.perfEventReader .takes (Module.Decode Demo.events Demo.decodeFun)
        Demo.perfMap none (okCycles [⟨0, [], 5⟩, ⟨0, [7], 0⟩]) [[]]).status = .running := by
  have h := perf_lost_samples_continue .takes (Module.Decode Demo.events Demo.decodeFun)
    Demo.perfMap [[]] ⟨0, [], 5⟩ ⟨0, [7], 0⟩ (by decide) (by decide) (by decide)
  refine ⟨?_, h.2.2.2.2⟩
  rw [h.2.2.2.1]
  decide

/-- Counterexample to C5: with an empty decode table the ring buffer reader that reads
one record sends nothing on the failure channel and is still in its loop. -/
theorem missing_decoder_not_fatal_counterexample :
    Demo.noDecodeFun Demo.ringMap = none ∧
      ¬ (sends (Module.ringbufEventReader .takes (Module.Decode Demo.events Demo.noDecodeFun)
          Demo.ringMap none (okCycles [⟨[7]⟩]) [[]]).trace ≠ [] ∧
        (Module.ringbufEventReader .takes (Module.Decode Demo.events Demo.noDecodeFun)
          Demo.ringMap none (okCycles [⟨[7]⟩]) [[]]).status = .returned) := by
  decide

/-- C5, amended: when `DecodeFun(em)` reports no prototype, a reader that has read a
record from `em` logs the error of `Decode`, sends nothing on the failure channel, writes
nothing for the record, and goes on with the next iteration, the memory unchanged. -/
theorem missing_decoder_skips_record {E W : Type} (errChan : ErrChan) (I : IEventStruct E W)
    (childDecodeFun : EbpfMap → Option E) (em : EbpfMap) (w : W)
    (hmissing : childDecodeFun em = none) :
    (∀ (record : ringbuf.Record) (rest : List (Cycle ringbuf.Record)),
      Module.ringbufEventReader.loop errChan (Module.Decode I childDecodeFun) em
          ({ done := false, read := .ok record } :: rest) w =
        (Module.ringbufEventReader.loop errChan (Module.Decode I childDecodeFun) em rest w).after
          [.CtxDone false, .Read, .Decode em record.RawSample,
            .Log ("this.child.decode error:" ++ ("can't found decode function :" ++
              em.String ++ ", address:" ++ em.pointer))]) ∧
    (∀ (record : perf.Record) (rest : List (Cycle perf.Record)),
      record.LostSamples = 0 →
      Module.perfEventReader.loop errChan (Module.Decode I childDecodeFun) em
          ({ done := false, read := .ok record } :: rest) w =
        (Module.perfEventReader.loop errChan (Module.Decode I childDecodeFun) em rest w).after
          [.CtxDone false, .Read, .Decode em record.RawSample,
            .Log ("this.child.decode error:" ++ ("can't found decode function :" ++
              em.String ++ ", address:" ++ em.pointer))]) ∧
    (∀ records : List ringbuf.Record,
      sends (Module.ringbufEventReader errChan (Module.Decode I childDecodeFun) em none
          (okCycles records) w).trace = [] ∧
        writes (Module.ringbufEventReader errChan (Module.Decode I childDecodeFun) em none
          (okCycles records) w).trace = [] ∧
        (Module.ringbufEventReader errChan (Module.Decode I childDecodeFun) em none
          (okCycles records) w).status = .running) := by
  have hd : ∀ b : Bytes, Module.Decode I childDecodeFun em b w =
      { result := "",
        err := some (.new ("can't found decode function :" ++ em.String ++
          ", address:" ++ em.pointer)),
        world := w, calls := [.DecodeFun em] } := by
    intro b
    simp [Module.Decode, hmissing]
  refine ⟨?_, ?_, ?_⟩
  · intro record rest
    rw [ringbuf_loop_ok, hd]
    simp [afterDecode, Error.Error]
  · intro record rest hlost
    rw [perf_loop_ok _ _ _ _ _ hlost, hd]
    simp [afterDecode, Error.Error]
  · intro records
    have h := (readers_publish_decoded errChan (Module.Decode I childDecodeFun) em w).1 records
    refine ⟨h.2.1, ?_, h.2.2⟩
    rw [h.1]
    clear h
    induction records with
    | nil => rfl
    | cons r rest ih =>
      simp only [List.map_cons, decodedTexts, hd]
      exact ih

/-- Witness of C5 as amended: an empty decode table, two records. -/
theorem missing_decoder_skips_record_witness :
    sends (Module.ringbufEventReader .takes (Module.Decode Demo.events Demo.noDecodeFun)
        Demo.ringMap none (okCycles [⟨[7]⟩, ⟨[8]⟩]) [[]]).trace = [] ∧
      writes (Module.ringbufEventReader .takes (Module.Decode Demo.events Demo.noDecodeFun)
        Demo.ringMap none (okCycles [⟨[7]⟩, ⟨[8]⟩]) [[]]).trace = [] ∧
      (Module.ringbufEventReader .takes (Module.Decode Demo.events Demo.noDecodeFun)
        Demo.ringMap none (okCycles [⟨[7]⟩, ⟨[8]⟩]) [[]]).status = .running :=
  (missing_decoder_skips_record .takes Demo.events Demo.noDecodeFun Demo.ringMap [[]]
    (by decide)).2.2 [⟨[7]⟩, ⟨[8]⟩]

/-- Counterexample to C10: the perf reader reads a record with `LostSamples = 5` whose
bytes would decode, and finds the token fired at the next check. The record was read in
the iteration before and has only been logged as dropped samples: it was neither decoded
nor published. -/
theorem lost_record_not_decoded_counterexample :
    (Module.perfEventReader .takes (Module.Decode Demo.events Demo.decodeFun) Demo.perfMap
        none [{ done := false, read := .ok ⟨0, [7], 5⟩ },
          { done := true, read := .ok ⟨0, [8], 0⟩ }] [[]]).trace =
        [.NewReader Demo.perfMap, .CtxDone false, .Read,
          .Log "perf event ring buffer full, dropped 5 samples", .CtxDone true,
          .Log "readEvent recived close signal from context.Done.", .CloseReader] ∧
      (Module.Decode Demo.events Demo.decodeFun Demo.perfMap [7] [[]]).err = none ∧
      Action.Decode Demo.perfMap [7] ∉
        (Module.perfEventReader .takes (Module.Decode Demo.events Demo.decodeFun)
          Demo.perfMap none [{ done := false, read := .ok ⟨0, [7], 5⟩ },
            { done := true, read := .ok ⟨0, [8], 0⟩ }] [[]]).trace ∧
      writes (Module.perfEventReader .takes (Module.Decode Demo.events Demo.decodeFun)
        Demo.perfMap none [{ done := false, read := .ok ⟨0, [7], 5⟩ },
          { done := true, read := .ok ⟨0, [8], 0⟩ }] [[]]).trace = [] := by
  decide

/-- C10, amended: when a reader finds the token fired at the check that opens an
iteration, it logs, closes its reader handle and returns: its trace is the trace of the
iterations before, and after it come no `Read`, no `Decode`, no `Write` and no send on
the failure channel, whatever the environment would have answered next. A record read in
the iteration before has been handled in full before that check: it was decoded, and
published when it decoded; a perf record with `LostSamples ≠ 0` was only logged as
dropped samples, without `Decode` and without `Write`. -/
theorem readers_stop_at_cancellation {E W : Type} (errChan : ErrChan)
    (childDecode : EbpfMap → Bytes → W → DecodeResult E W) (em : EbpfMap) (w : W) :
    (∀ (pre : List (Cycle ringbuf.Record)) (c : Cycle ringbuf.Record)
        (rest : List (Cycle ringbuf.Record)), c.done = true →
      (Module.ringbufEventReader errChan childDecode em none pre w).status = .running →
      (Module.ringbufEventReader errChan childDecode em none (pre ++ c :: rest) w).trace =
          (Module.ringbufEventReader errChan childDecode em none pre w).trace ++
            [.CtxDone true, .Log "readEvent recived close signal from context.Done.",
              .CloseReader] ∧
        (Module.ringbufEventReader errChan childDecode em none (pre ++ c :: rest) w).status =
          .returned) ∧
    (∀ (pre : List (Cycle perf.Record)) (c : Cycle perf.Record)
        (rest : List (Cycle perf.Record)), c.done = true →
      (Module.perfEventReader errChan childDecode em none pre w).status = .running →
      (Module.perfEventReader errChan childDecode em none (pre ++ c :: rest) w).trace =
          (Module.perfEventReader errChan childDecode em none pre w).trace ++
            [.CtxDone true, .Log "readEvent recived close signal from context.Done.",
              .CloseReader] ∧
        (Module.perfEventReader errChan childDecode em none (pre ++ c :: rest) w).status =
          .returned) ∧
    (∀ (pre : List (Cycle ringbuf.Record)) (record : ringbuf.Record)
        (c : Cycle ringbuf.Record) (rest : List (Cycle ringbuf.Record)), c.done = true →
      (Module.ringbufEventReader errChan childDecode em none pre w).status = .running →
      (Module.ringbufEventReader errChan childDecode em none
          (pre ++ { done := false, read := .ok record } :: c :: rest) w).trace =
        (Module.ringbufEventReader errChan childDecode em none pre w).trace ++
          ([.CtxDone false, .Read, .Decode em record.RawSample] ++
            afterDecode (childDecode em record.RawSample
              (Module.ringbufEventReader errChan childDecode em none pre w).world)) ++
          [.CtxDone true, .Log "readEvent recived close signal from context.Done.",
            .CloseReader]) ∧
    (∀ (pre : List (Cycle perf.Record)) (record : perf.Record)
        (c : Cycle perf.Record) (rest : List (Cycle perf.Record)), c.done = true →
      record.LostSamples = 0 →
      (Module.perfEventReader errChan childDecode em none pre w).status = .running →
      (Module.perfEventReader errChan childDecode em none
          (pre ++ { done := false, read := .ok record } :: c :: rest) w).trace =
        (Module.perfEventReader errChan childDecode em none pre w).trace ++
          ([.CtxDone false, .Read, .Decode em record.RawSample] ++
            afterDecode (childDecode em record.RawSample
              (Module.perfEventReader errChan childDecode em none pre w).world)) ++
          [.CtxDone true, .Log "readEvent recived close signal from context.Done.",
            .CloseReader]) ∧
    (∀ (pre : List (Cycle perf.Record)) (record : perf.Record)
        (c : Cycle perf.Record) (rest : List (Cycle perf.Record)), c.done = true →
      record.LostSamples ≠ 0 →
      (Module.perfEventReader errChan childDecode em none pre w).status = .running →
      (Module.perfEventReader errChan childDecode em none
          (pre ++ { done := false, read := .ok record } :: c :: rest) w).trace =
        (Module.perfEventReader errChan childDecode em none pre w).trace ++
          [.CtxDone false, .Read,
            .Log ("perf event ring buffer full, dropped " ++
              toString record.LostSamples ++ " samples")] ++
          [.CtxDone true, .Log "readEvent recived close signal from context.Done.",
            .CloseReader]) := by
  refine ⟨?_, ?_, ?_, ?_, ?_⟩
  · intro pre c rest hdone hrun
    have h := ringbuf_reader_cancel childDecode em w pre c rest hdone hrun
    exact ⟨h.1, h.2.1⟩
  · intro pre c rest hdone hrun
    have h := perf_reader_cancel childDecode em w pre c rest hdone hrun
    exact ⟨h.1, h.2.1⟩
  · intro pre record c rest hdone hrun
    have hs := ringbuf_reader_snoc_ok childDecode em w pre record hrun
    have h := ringbuf_reader_cancel childDecode em w
      (pre ++ [{ done := false, read := .ok record }]) c rest hdone hs.2
    rw [List.append_assoc, List.singleton_append] at h
    rw [h.1, hs.1]
  · intro pre record c rest hdone hlost hrun
    have hs := perf_reader_snoc_ok childDecode em w pre record hlost hrun
    have h := perf_reader_cancel childDecode em w
      (pre ++ [{ done := false, read := .ok record }]) c rest hdone hs.2
    rw [List.append_assoc, List.singleton_append] at h
    rw [h.1, hs.1]
  · intro pre record c rest hdone hlost hrun
    have hs := perf_reader_snoc_lost childDecode em w pre record hlost hrun
    have h := perf_reader_cancel childDecode em w
      (pre ++ [{ done := false, read := .ok record }]) c rest hdone hs.2
    rw [List.append_assoc, List.singleton_append] at h
    rw [h.1, hs.1]

/-- Witness of C10 as amended: a record is read and published, the token is then found
fired, and the record the environment holds ready after it is never read. -/
theorem readers_stop_at_cancellation_witness :
    (Module.ringbufEventReader .takes (Module.Decode Demo.events Demo.decodeFun) Demo.ringMap
        none ([] ++ { done := false, read := .ok ⟨[7]⟩ } ::
          { done := true, read := .ok ⟨[8]⟩ } :: okCycles [⟨[9]⟩]) [[]]).trace =
      [.NewReader Demo.ringMap, .CtxDone false, .Read, .Decode Demo.ringMap [7],
        .Write "one byte", .CtxDone true,
        .Log "readEvent recived close signal from context.Done.", .CloseReader] := by
  rw [(readers_stop_at_cancellation .takes (Module.Decode Demo.events Demo.decodeFun)
    Demo.ringMap [[]]).2.2.1 [] ⟨[7]⟩ { done := true, read := .ok ⟨[8]⟩ }
    (okCycles [⟨[9]⟩]) rfl (by decide)]
  decide

theorem ringbuf_loop_read_error {E W : Type} {errChan : ErrChan}
    (childDecode : EbpfMap → Bytes → W → DecodeResult E W) (em : EbpfMap)
    (err : Error) (rest : List (Cycle ringbuf.Record)) (w : W) :
    Module.ringbufEventReader.loop errChan childDecode em
        ({ done := false, read := .error err } :: rest) w =
      { trace :=
          if errors.Is err ringbuf.ErrClosed then
            [.CtxDone false, .Read, .Log "Received signal, exiting.."]
          else
            [.CtxDone false, .Read,
              .Send (.new ("reading from ringbuf reader: " ++ err.Error))],
        status := if errors.Is err ringbuf.ErrClosed then .returned else errChan.afterSend,
        world := w } := by
  by_cases hc : errors.Is err ringbuf.ErrClosed = true <;>
    simp [Module.ringbufEventReader.loop, hc]

theorem perf_loop_read_error {E W : Type} {errChan : ErrChan}
    (childDecode : EbpfMap → Bytes → W → DecodeResult E W) (em : EbpfMap)
    (err : Error) (rest : List (Cycle perf.Record)) (w : W) :
    Module.perfEventReader.loop errChan childDecode em
        ({ done := false, read := .error err } :: rest) w =
      { trace :=
          if errors.Is err perf.ErrClosed then [.CtxDone false, .Read]
          else
            [.CtxDone false, .Read,
              .Send (.new ("reading from perf event reader: " ++ err.Error))],
        status := if errors.Is err perf.ErrClosed then .returned else errChan.afterSend,
        world := w } := by
  by_cases hc : errors.Is err perf.ErrClosed = true <;>
    simp [Module.perfEventReader.loop, hc]

theorem ReaderRun.deferClose_after {E W : Type} (xs : List Action) (r : ReaderRun E W) :
    (r.after xs).deferClose = (r.deferClose).after xs := by
  rcases r with ⟨t, st, w⟩
  cases st <;> simp [ReaderRun.deferClose, ReaderRun.after]

/-- A reader that is in its loop after the cycles `pre` goes on with the cycles `tail`
as its loop does from there; the deferred `rd.Close()` follows if the loop returns. -/
theorem ringbuf_reader_append {E W : Type} {errChan : ErrChan}
    (childDecode : EbpfMap → Bytes → W → DecodeResult E W) (em : EbpfMap) (w : W)
    (pre tail : List (Cycle ringbuf.Record))
    (hrun : (Module.ringbufEventReader errChan childDecode em none pre w).status =
      .running) :
    (Module.ringbufEventReader errChan childDecode em none (pre ++ tail) w).trace =
        (Module.ringbufEventReader errChan childDecode em none pre w).trace ++
          ((Module.ringbufEventReader.loop errChan childDecode em tail
            (Module.ringbufEventReader errChan childDecode em none pre w).world
            ).deferClose).trace ∧
      (Module.ringbufEventReader errChan childDecode em none (pre ++ tail) w).status =
        (Module.ringbufEventReader.loop errChan childDecode em tail
          (Module.ringbufEventReader errChan childDecode em none pre w).world).status := by
  have hl : (Module.ringbufEventReader.loop errChan childDecode em pre w).status =
      .running := by
    simpa [Module.ringbufEventReader] using hrun
  have ha := ringbuf_loop_append childDecode em pre tail w hl
  simp only [Module.ringbufEventReader, ReaderRun.after_trace, ReaderRun.after_status,
    ReaderRun.after_world, ReaderRun.deferClose_status, ReaderRun.deferClose_world,
    ReaderRun.deferClose_running _ hl]
  rw [ha, ReaderRun.deferClose_after]
  simp

theorem perf_reader_append {E W : Type} {errChan : ErrChan}
    (childDecode : EbpfMap → Bytes → W → DecodeResult E W) (em : EbpfMap) (w : W)
    (pre tail : List (Cycle perf.Record))
    (hrun : (Module.perfEventReader errChan childDecode em none pre w).status =
      .running) :
    (Module.perfEventReader errChan childDecode em none (pre ++ tail) w).trace =
        (Module.perfEventReader errChan childDecode em none pre w).trace ++
          ((Module.perfEventReader.loop errChan childDecode em tail
            (Module.perfEventReader errChan childDecode em none pre w).world
            ).deferClose).trace ∧
      (Module.perfEventReader errChan childDecode em none (pre ++ tail) w).status =
        (Module.perfEventReader.loop errChan childDecode em tail
          (Module.perfEventReader errChan childDecode em none pre w).world).status := by
  have hl : (Module.perfEventReader.loop errChan childDecode em pre w).status =
      .running := by
    simpa [Module.perfEventReader] using hrun
  have ha := perf_loop_append childDecode em pre tail w hl
  simp only [Module.perfEventReader, ReaderRun.after_trace, ReaderRun.after_status,
    ReaderRun.after_world, ReaderRun.deferClose_status, ReaderRun.deferClose_world,
    ReaderRun.deferClose_running _ hl]
  rw [ha, ReaderRun.deferClose_after]
  simp

/-- Counterexample to C11: a `Read` of the ring buffer reader fails with an error that
is not the reader-closed error while the failure channel is full. The reader reaches
its send and stays there: it does not return and does not close its handle. The channel
gets full this way: with ten ring buffer maps whose readers all fail, the ninth and the
tenth send find the eight places taken, and `readEvents` receives only once. -/
theorem reader_blocked_in_send_counterexample :
    (Module.ringbufEventReader .full (Module.Decode Demo.events Demo.decodeFun)
        Demo.ringMap none [{ done := false, read := .error (.new "EBADF") }] [[]]).trace =
        [.NewReader Demo.ringMap, .CtxDone false, .Read,
          .Send (.new "reading from ringbuf reader: EBADF")] ∧
      (Module.ringbufEventReader .full (Module.Decode Demo.events Demo.decodeFun)
        Demo.ringMap none [{ done := false, read := .error (.new "EBADF") }] [[]]).status =
        .blocked ∧
      ¬ ((Module.ringbufEventReader .full (Module.Decode Demo.events Demo.decodeFun)
        Demo.ringMap none [{ done := false, read := .error (.new "EBADF") }] [[]]).status =
        .returned) ∧
      (Module.readEvents (List.replicate 10 Demo.ringMap)
        (List.replicate 10 .main ++
          (List.range 10).map fun i => .reader i (.new "reading from ringbuf reader: EBADF"))
        ).stuck = [9, 8] ∧
      (Module.readEvents (List.replicate 10 Demo.ringMap)
        (List.replicate 10 .main ++
          (List.range 10).map fun i => .reader i (.new "reading from ringbuf reader: EBADF"))
        ).errChan.length = errChanCap := by
  decide

/-- C11, amended: when a `Read` returns an error, the reader makes no `Decode` and no
`Write` for that read. If the error is the reader-closed error (`errors.Is(err,
ringbuf.ErrClosed)`, `errors.Is(err, perf.ErrClosed)`) it sends nothing on the failure
channel, closes its handle and returns. For any other error it makes exactly one send,
of the failure built from the read error; if the channel takes the send the reader
closes its handle and returns, and if the channel is full it stays blocked in the send.
-/
theorem readers_read_error {E W : Type} (errChan : ErrChan)
    (childDecode : EbpfMap → Bytes → W → DecodeResult E W) (em : EbpfMap) (w : W)
    (err : Error) :
    (∀ (pre rest : List (Cycle ringbuf.Record)),
      (Module.ringbufEventReader errChan childDecode em none pre w).status = .running →
      (errors.Is err ringbuf.ErrClosed = true →
          (Module.ringbufEventReader errChan childDecode em none
            (pre ++ { done := false, read := .error err } :: rest) w).trace =
            (Module.ringbufEventReader errChan childDecode em none pre w).trace ++
              [.CtxDone false, .Read, .Log "Received signal, exiting..", .CloseReader] ∧
          (Module.ringbufEventReader errChan childDecode em none
            (pre ++ { done := false, read := .error err } :: rest) w).status =
            .returned) ∧
        (errors.Is err ringbuf.ErrClosed = false → errChan = .takes →
          (Module.ringbufEventReader errChan childDecode em none
            (pre ++ { done := false, read := .error err } :: rest) w).trace =
            (Module.ringbufEventReader errChan childDecode em none pre w).trace ++
              [.CtxDone false, .Read,
                .Send (.new ("reading from ringbuf reader: " ++ err.Error)),
                .CloseReader] ∧
          (Module.ringbufEventReader errChan childDecode em none
            (pre ++ { done := false, read := .error err } :: rest) w).status =
            .returned) ∧
        (errors.Is err ringbuf.ErrClosed = false → errChan = .full →
          (Module.ringbufEventReader errChan childDecode em none
            (pre ++ { done := false, read := .error err } :: rest) w).trace =
            (Module.ringbufEventReader errChan childDecode em none pre w).trace ++
              [.CtxDone false, .Read,
                .Send (.new ("reading from ringbuf reader: " ++ err.Error))] ∧
          (Module.ringbufEventReader errChan childDecode em none
            (pre ++ { done := false, read := .error err } :: rest) w).status =
            .blocked)) ∧
    (∀ (pre rest : List (Cycle perf.Record)),
      (Module.perfEventReader errChan childDecode em none pre w).status = .running →
      (errors.Is err perf.ErrClosed = true →
          (Module.perfEventReader errChan childDecode em none
            (pre ++ { done := false, read := .error err } :: rest) w).trace =
            (Module.perfEventReader errChan childDecode em none pre w).trace ++
              [.CtxDone false, .Read, .CloseReader] ∧
          (Module.perfEventReader errChan childDecode em none
            (pre ++ { done := false, read := .error err } :: rest) w).status =
            .returned) ∧
        (errors.Is err perf.ErrClosed = false → errChan = .takes →
          (Module.perfEventReader errChan childDecode em none
            (pre ++ { done := false, read := .error err } :: rest) w).trace =
            (Module.perfEventReader errChan childDecode em none pre w).trace ++
              [.CtxDone false, .Read,
                .Send (.new ("reading from perf event reader: " ++ err.Error)),
                .CloseReader] ∧
          (Module.perfEventReader errChan childDecode em none
            (pre ++ { done := false, read := .error err } :: rest) w).status =
            .returned) ∧
        (errors.Is err perf.ErrClosed = false → errChan = .full →
          (Module.perfEventReader errChan childDecode em none
            (pre ++ { done := false, read := .error err } :: rest) w).trace =
            (Module.perfEventReader errChan childDecode em none pre w).trace ++
              [.CtxDone false, .Read,
                .Send (.new ("reading from perf event reader: " ++ err.Error))] ∧
          (Module.perfEventReader errChan childDecode em none
            (pre ++ { done := false, read := .error err } :: rest) w).status =
            .blocked)) := by
  constructor
  · intro pre rest hrun
    have h := ringbuf_reader_append childDecode em w pre
      ({ done := false, read := .error err } :: rest) hrun
    rw [ringbuf_loop_read_error] at h
    refine ⟨?_, ?_, ?_⟩
    · intro hc
      rw [h.1, h.2]
      simp [hc, ReaderRun.deferClose]
    · intro hc hch
      subst hch
      rw [h.1, h.2]
      simp [hc, ReaderRun.deferClose, ErrChan.afterSend]
    · intro hc hch
      subst hch
      rw [h.1, h.2]
      simp [hc, ReaderRun.deferClose, ErrChan.afterSend]
  · intro pre rest hrun
    have h := perf_reader_append childDecode em w pre
      ({ done := false, read := .error err } :: rest) hrun
    rw [perf_loop_read_error] at h
    refine ⟨?_, ?_, ?_⟩
    · intro hc
      rw [h.1, h.2]
      simp [hc, ReaderRun.deferClose]
    · intro hc hch
      subst hch
      rw [h.1, h.2]
      simp [hc, ReaderRun.deferClose, ErrChan.afterSend]
    · intro hc hch
      subst hch
      rw [h.1, h.2]
      simp [hc, ReaderRun.deferClose, ErrChan.afterSend]

/-- Witness of C11 as amended: after one published record a read fails with an error
that is not the reader-closed error, once with room in the channel and once without;
and a read fails with `perf.ErrClosed` wrapped once. -/
theorem readers_read_error_witness :
    (Module.ringbufEventReader .takes (Module.Decode Demo.events Demo.decodeFun)
        Demo.ringMap none
        (okCycles [⟨[7]⟩] ++ { done := false, read := .error (.new "EBADF") } ::
          okCycles [⟨[8]⟩]) [[]]).trace =
        [.NewReader Demo.ringMap, .CtxDone false, .Read, .Decode Demo.ringMap [7],
          .Write "one byte", .CtxDone false, .Read,
          .Send (.new "reading from ringbuf reader: EBADF"), .CloseReader] ∧
      (Module.ringbufEventReader .full (Module.Decode Demo.events Demo.decodeFun)
        Demo.ringMap none
        (okCycles [⟨[7]⟩] ++ { done := false, read := .error (.new "EBADF") } ::
          okCycles [⟨[8]⟩]) [[]]).status = .blocked ∧
      sends (Module.perfEventReader .full (Module.Decode Demo.events Demo.decodeFun)
        Demo.perfMap none
        ([] ++ { done := false, read := .error (Error.wrap perf.ErrClosed "epoll wait") } ::
          okCycles [⟨0, [8], 0⟩]) [[]]).trace = [] := by
  have h1 := (((readers_read_error .takes (Module.Decode Demo.events Demo.decodeFun)
    Demo.ringMap [[]] (.new "EBADF")).1 (okCycles [⟨[7]⟩]) (okCycles [⟨[8]⟩])
    (by decide)).2.1 (by decide) rfl).1
  have h2 := (((readers_read_error .full (Module.Decode Demo.events Demo.decodeFun)
    Demo.ringMap [[]] (.new "EBADF")).1 (okCycles [⟨[7]⟩]) (okCycles [⟨[8]⟩])
    (by decide)).2.2 (by decide) rfl).2
  have h3 := (((readers_read_error .full (Module.Decode Demo.events Demo.decodeFun)
    Demo.perfMap [[]] (Error.wrap perf.ErrClosed "epoll wait")).2 []
    (okCycles [⟨0, [8], 0⟩]) (by decide)).1 (by decide)).1
  refine ⟨?_, h2, ?_⟩
  · rw [h1]; decide
  · rw [h3]; decide

/-! ### Decode tables of the variants -/

theorem Probe.covered_empty {E : Type} (p : Probe E) (h : p.eventMaps = []) :
    p.Covered := by
  intro em hem
  rw [h] at hem
  cases hem

theorem Probe.covered_call {E : Type} (p : Probe E) (c : ManagerCall) (h : p.Covered) :
    (p.call c).Covered := h

theorem Probe.covered_register {E : Type} (p : Probe E) (m : EbpfMap) (v : E)
    (h : p.Covered) :
    Probe.Covered { p with eventMaps := p.eventMaps ++ [m],
                           eventFuncMaps := (m, v) :: p.eventFuncMaps } := by
  intro em hem
  simp only [List.mem_append, List.mem_singleton] at hem
  by_cases heq : em = m
  · subst heq
    simp [List.lookup]
  · have hne : (em == m) = false := by simpa using heq
    rcases hem with hem | hem
    · simpa [List.lookup, hne] using h em hem
    · exact absurd hem heq

theorem MTCPProbe_initDecodeFun_covered {E : Type} (mgr : Manager)
    (protos : Prototypes E) (p : Probe E) (h : p.eventMaps = []) :
    (MTCPProbe.initDecodeFun mgr protos p).2.Covered := by
  dsimp only [MTCPProbe.initDecodeFun]
  cases (mgr.GetMap "events").err with
  | some err => exact Probe.covered_empty _ h
  | none =>
    cases (mgr.GetMap "events").found with
    | false => exact Probe.covered_empty _ h
    | true =>
      intro em hem
      simp [Probe.call, h] at hem
      subst hem
      simp [List.lookup]

theorem MJavaRasp_initDecodeFun_covered {E : Type} (mgr : Manager)
    (protos : Prototypes E) (p : Probe E) (h : p.eventMaps = []) :
    (MJavaRasp.initDecodeFun mgr protos p).2.Covered := by
  dsimp only [MJavaRasp.initDecodeFun]
  cases (mgr.GetMap "jdk_execvpe_events").err with
  | some err => exact Probe.covered_empty _ h
  | none =>
    cases (mgr.GetMap "jdk_execvpe_events").found with
    | false => exact Probe.covered_empty _ h
    | true =>
      intro em hem
      simp [Probe.call, h] at hem
      subst hem
      simp [List.lookup]

theorem MUDPProbe_initDecodeFun_covered {E : Type} (mgr : Manager)
    (protos : Prototypes E) (p : Probe E) (h : p.Covered) :
    (MUDPProbe.initDecodeFun mgr protos p).2.Covered := by
  dsimp only [MUDPProbe.initDecodeFun]
  cases (mgr.GetMap "dns_events").err with
  | some err => exact h
  | none =>
    cases (mgr.GetMap "dns_events").found with
    | false => exact h
    | true => exact Probe.covered_register _ _ _ (Probe.covered_call _ _ h)

theorem MProcProbe_initDecodeFun_covered {E : Type} (mgr : Manager)
    (protos : Prototypes E) (p : Probe E) (h : p.Covered) :
    (MProcProbe.initDecodeFun mgr protos p).2.Covered := by
  dsimp only [MProcProbe.initDecodeFun]
  cases (mgr.GetMap "ringbuf_proc").err with
  | some err => exact h
  | none =>
    cases (mgr.GetMap "ringbuf_proc").found with
    | false => exact h
    | true => exact Probe.covered_register _ _ _ (Probe.covered_call _ _ h)

theorem MUDNSProbe_initDecodeFun_covered {E : Type} (mgr : Manager)
    (protos : Prototypes E) (p : Probe E) (h : p.Covered) :
    (MUDNSProbe.initDecodeFun mgr protos p).2.Covered := by
  dsimp only [MUDNSProbe.initDecodeFun]
  cases (mgr.GetMap "events").err with
  | some err => exact h
  | none =>
    cases (mgr.GetMap "events").found with
    | false => exact h
    | true => exact Probe.covered_register _ _ _ (Probe.covered_call _ _ h)

theorem MTCPSecProbe_initDecodeFun_covered {E : Type} (mgr : Manager)
    (protos : Prototypes E) (p : Probe E) (h : p.Covered) :
    (MTCPSecProbe.initDecodeFun mgr protos p).2.Covered := by
  dsimp only [MTCPSecProbe.initDecodeFun]
  cases (mgr.GetMap "ipv4_events").err with
  | some err => exact h
  | none =>
    cases (mgr.GetMap "ipv4_events").found with
    | false => exact h
    | true =>
      have h4 := Probe.covered_register _ (mgr.GetMap "ipv4_events").map protos.EventIPV4
        (Probe.covered_call p (.GetMap "ipv4_events") h)
      cases (mgr.GetMap "ipv6_events").err with
      | some err => exact h4
      | none =>
        cases (mgr.GetMap "ipv6_events").found with
        | false => exact h4
        | true =>
          have h6 := Probe.covered_register _ (mgr.GetMap "ipv6_events").map
            protos.EventIPV6 (Probe.covered_call _ (.GetMap "ipv6_events") h4)
          cases (mgr.GetMap "other_socket_events").err with
          | some err => exact h6
          | none =>
            cases (mgr.GetMap "other_socket_events").found with
            | false => exact h6
            | true =>
              exact Probe.covered_register _ _ _
                (Probe.covered_call _ (.GetMap "other_socket_events") h6)

/-- C7: for each of the seven variants, whatever the manager answers to `GetMap`, after
`Init` and then `initDecodeFun` (returning nil or an error) `DecodeFun(em)` reports found
for every `em` of `Events()`. -/
theorem decode_table_covers_events {E : Type} (mgr : Manager) (protos : Prototypes E)
    (p : Probe E) :
    (∀ em ∈ MTCPProbe.Events (MTCPProbe.initDecodeFun mgr protos (MTCPProbe.Init p).2).2,
      (MTCPProbe.DecodeFun (MTCPProbe.initDecodeFun mgr protos (MTCPProbe.Init p).2).2
        em).isSome = true) ∧
    (∀ em ∈ MTCPSecProbe.Events
        (MTCPSecProbe.initDecodeFun mgr protos (MTCPSecProbe.Init p).2).2,
      (MTCPSecProbe.DecodeFun
        (MTCPSecProbe.initDecodeFun mgr protos (MTCPSecProbe.Init p).2).2 em).isSome
        = true) ∧
    (∀ em ∈ MUDPProbe.Events (MUDPProbe.initDecodeFun mgr protos (MUDPProbe.Init p).2).2,
      (MUDPProbe.DecodeFun (MUDPProbe.initDecodeFun mgr protos (MUDPProbe.Init p).2).2
        em).isSome = true) ∧
    (∀ em ∈ MProcProbe.Events
        (MProcProbe.initDecodeFun mgr protos (MProcProbe.Init p).2).2,
      (MProcProbe.DecodeFun (MProcProbe.initDecodeFun mgr protos (MProcProbe.Init p).2).2
        em).isSome = true) ∧
    (∀ em ∈ MUDNSProbe.Events
        (MUDNSProbe.initDecodeFun mgr protos (MUDNSProbe.Init p).2).2,
      (MUDNSProbe.DecodeFun (MUDNSProbe.initDecodeFun mgr protos (MUDNSProbe.Init p).2).2
        em).isSome = true) ∧
    (∀ em ∈ MJavaRasp.Events (MJavaRasp.initDecodeFun mgr protos (MJavaRasp.Init p).2).2,
      (MJavaRasp.DecodeFun (MJavaRasp.initDecodeFun mgr protos (MJavaRasp.Init p).2).2
        em).isSome = true) ∧
    (∀ em ∈ MBPFCallProbe.Events
        (MBPFCallProbe.initDecodeFun mgr protos (MBPFCallProbe.Init p).2).2,
      (MBPFCallProbe.DecodeFun
        (MBPFCallProbe.initDecodeFun mgr protos (MBPFCallProbe.Init p).2).2 em).isSome
        = true) :=
  ⟨MTCPProbe_initDecodeFun_covered mgr protos _ rfl,
    MTCPSecProbe_initDecodeFun_covered mgr protos _ (Probe.covered_empty _ rfl),
    MUDPProbe_initDecodeFun_covered mgr protos _ (Probe.covered_empty _ rfl),
    MProcProbe_initDecodeFun_covered mgr protos _ (Probe.covered_empty _ rfl),
    MUDNSProbe_initDecodeFun_covered mgr protos _ (Probe.covered_empty _ rfl),
    MJavaRasp_initDecodeFun_covered mgr protos _ rfl,
    Probe.covered_empty _ rfl⟩


/-- Witness of C7: the three maps of `MTCPSecProbe` when every lookup succeeds. -/
theorem decode_table_covers_events_witness :
    MTCPSecProbe.Events (MTCPSecProbe.initDecodeFun Demo.manager Demo.protos
        (MTCPSecProbe.Init Demo.probe).2).2 =
        [⟨2, .PerfEventArray, "ipv4_events"⟩, ⟨2, .PerfEventArray, "ipv6_events"⟩,
          ⟨2, .PerfEventArray, "other_socket_events"⟩] ∧
      (MTCPSecProbe.DecodeFun (MTCPSecProbe.initDecodeFun Demo.manager Demo.protos
        (MTCPSecProbe.Init Demo.probe).2).2
        ⟨2, .PerfEventArray, "ipv6_events"⟩).isSome = true :=
  ⟨by decide,
    (decode_table_covers_events Demo.manager Demo.protos Demo.probe).2.1
      ⟨2, .PerfEventArray, "ipv6_events"⟩ (by decide)⟩

/-! ### Supervision -/

theorem ReadEvents.step_result_ne {st : ReadEvents} (c : Sched)
    (h : st.result ≠ some none) : (st.step c).result ≠ some none := by
  cases c with
  | main =>
    simp only [ReadEvents.step, ReadEvents.mainStep]
    split
    · exact h
    · split
      · split
        · exact h
        · exact h
        · split
          · exact h
          · exact h
      · split
        · simp
        · exact h
  | reader i err =>
    simp only [ReadEvents.step, ReadEvents.readerStep]
    split
    · split
      · exact h
      · exact h
    · exact h

theorem ReadEvents.foldl_result_ne (sched : List Sched) (st : ReadEvents)
    (h : st.result ≠ some none) :
    (sched.foldl ReadEvents.step st).result ≠ some none := by
  induction sched generalizing st with
  | nil => exact h
  | cons c rest ih => exact ih _ (ReadEvents.step_result_ne c h)

theorem Module.readEvents_result_ne (events : List EbpfMap) (sched : List Sched) :
    (Module.readEvents events sched).result ≠ some none :=
  ReadEvents.foldl_result_ne sched _ (by simp [ReadEvents.init])

theorem Module.Run_no_supervisor {S E W : Type} (child : IModule S E W) (s : S)
    (sched : List Sched) :
    (Module.Run child s sched).supervisor = false ∧
      (Module.Run child s sched).result ≠ some none := by
  unfold Module.Run
  rcases hs : child.Start s with ⟨e, s1⟩
  cases e with
  | some err => simp
  | none =>
    have hne := Module.readEvents_result_ne (child.Events s1) sched
    dsimp only
    rcases hr : (Module.readEvents (child.Events s1) sched).result with _ | r
    · simp
    · cases r with
      | none => exact absurd hr hne
      | some err => simp

theorem ReadEvents.foldl_main_fixed (st : ReadEvents) (h : st.mainStep = st) (n : Nat) :
    (List.replicate n Sched.main).foldl ReadEvents.step st = st := by
  induction n with
  | zero => rfl
  | succ n ih =>
    rw [List.replicate_succ, List.foldl_cons]
    show List.foldl ReadEvents.step st.mainStep _ = st
    rw [h, ih]


theorem ReadEvents.inv_step (events : List EbpfMap) (st : ReadEvents) (c : Sched)
    (h : ReadEvents.Inv events st) : ReadEvents.Inv events (st.step c) := by
  obtain ⟨hs, hr⟩ := h
  cases c with
  | reader i err =>
    simp only [ReadEvents.step, ReadEvents.readerStep]
    split
    · split
      · exact ⟨hs, hr⟩
      · exact ⟨hs, hr⟩
    · exact ⟨hs, hr⟩
  | main =>
    simp only [ReadEvents.step, ReadEvents.mainStep]
    cases hres : st.result with
    | some r => exact ⟨hs, hr⟩
    | none =>
      cases htodo : st.todo with
      | nil =>
        dsimp only
        split
        · exact ⟨by simpa [htodo] using hs, fun _ => rfl⟩
        · exact ⟨hs, hr⟩
      | cons event rest =>
        dsimp only
        rw [htodo] at hs
        cases hty : event.Type with
        | RingBuf =>
          refine ⟨?_, by simp [hres]⟩
          simpa [List.filterMap_cons, readerFor, hty] using hs
        | PerfEventArray =>
          refine ⟨?_, by simp [hres]⟩
          simpa [List.filterMap_cons, readerFor, hty] using hs
        | Other name =>
          dsimp only
          split
          · refine ⟨?_, by simp [hres]⟩
            simpa [List.filterMap_cons, readerFor, hty] using hs
          · refine ⟨?_, by simp [hres]⟩
            rw [htodo]
            exact hs

theorem ReadEvents.inv_foldl (events : List EbpfMap) (sched : List Sched)
    (st : ReadEvents) (h : ReadEvents.Inv events st) :
    ReadEvents.Inv events (sched.foldl ReadEvents.step st) := by
  induction sched generalizing st with
  | nil => exact h
  | cons c rest ih => exact ih _ (ReadEvents.inv_step events st c h)

theorem Module.readEvents_inv (events : List EbpfMap) (sched : List Sched) :
    ReadEvents.Inv events (Module.readEvents events sched) :=
  ReadEvents.inv_foldl events sched _ ⟨by simp [ReadEvents.init], by simp [ReadEvents.init]⟩

theorem ReadEvents.main_loop (todo : List EbpfMap) (st : ReadEvents)
    (hres : st.result = none) (htodo : st.todo = todo)
    (hcap : st.errChan.length + (todo.filterMap unsupportedFor).length ≤ errChanCap) :
    (List.replicate todo.length Sched.main).foldl ReadEvents.step st =
      { st with todo := [], errChan := st.errChan ++ todo.filterMap unsupportedFor,
                spawned := st.spawned ++ todo.filterMap readerFor } := by
  induction todo generalizing st with
  | nil =>
    cases st
    simp only at htodo
    simp [htodo]
  | cons event rest ih =>
    rw [List.length_cons, List.replicate_succ, List.foldl_cons]
    cases hty : event.Type with
    | RingBuf =>
      have hstep : st.step .main =
          { st with todo := rest, spawned := st.spawned ++ [.ringbufEventReader event] } := by
        simp [ReadEvents.step, ReadEvents.mainStep, hres, htodo, hty]
      have hnext := ih
        { st with todo := rest, spawned := st.spawned ++ [.ringbufEventReader event] }
        hres rfl (by simpa [unsupportedFor, hty] using hcap)
      rw [hstep, hnext]
      simp [readerFor, unsupportedFor, hty]
    | PerfEventArray =>
      have hstep : st.step .main =
          { st with todo := rest, spawned := st.spawned ++ [.perfEventReader event] } := by
        simp [ReadEvents.step, ReadEvents.mainStep, hres, htodo, hty]
      have hnext := ih
        { st with todo := rest, spawned := st.spawned ++ [.perfEventReader event] }
        hres rfl (by simpa [unsupportedFor, hty] using hcap)
      rw [hstep, hnext]
      simp [readerFor, unsupportedFor, hty]
    | Other name =>
      have hlen : (List.filterMap unsupportedFor (event :: rest)).length =
          (List.filterMap unsupportedFor rest).length + 1 := by
        simp [unsupportedFor, hty]
      have hlt : st.errChan.length < errChanCap := by omega
      have hstep : st.step .main =
          { st with todo := rest, errChan := st.errChan ++ [unsupportedError event] } := by
        simp [ReadEvents.step, ReadEvents.mainStep, hres, htodo, hty, hlt]
      have hnext := ih
        { st with todo := rest, errChan := st.errChan ++ [unsupportedError event] }
        hres rfl (by simp only [List.length_append, List.length_singleton]; omega)
      rw [hstep, hnext]
      simp [readerFor, unsupportedFor, hty]

theorem Module.readEvents_main_only (events : List EbpfMap) (k : Nat)
    (hcap : (events.filterMap unsupportedFor).length ≤ errChanCap)
    (hsome : events.filterMap unsupportedFor ≠ []) :
    Module.readEvents events (List.replicate (events.length + 1 + k) .main) =
      { todo := [], errChan := (events.filterMap unsupportedFor).tail,
        spawned := events.filterMap readerFor, sent := [], stuck := [],
        result := some ((events.filterMap unsupportedFor).head?) } := by
  unfold Module.readEvents
  rw [List.replicate_add, List.replicate_add, List.foldl_append, List.foldl_append,
    ReadEvents.main_loop events (ReadEvents.init events) rfl rfl
      (by simpa [ReadEvents.init] using hcap)]
  cases herrs : events.filterMap unsupportedFor with
  | nil => exact absurd herrs hsome
  | cons e rest =>
    have h1 : (List.replicate 1 Sched.main).foldl ReadEvents.step
        { ReadEvents.init events with
          todo := [], errChan := (ReadEvents.init events).errChan ++ e :: rest,
          spawned := (ReadEvents.init events).spawned ++ events.filterMap readerFor } =
        { todo := [], errChan := rest, spawned := events.filterMap readerFor,
          sent := [], stuck := [], result := some (some e) } := by
      simp [ReadEvents.init, ReadEvents.step, ReadEvents.mainStep]
    rw [h1]
    exact ReadEvents.foldl_main_fixed _ (by simp [ReadEvents.mainStep]) k

theorem head_unsupported (events : List EbpfMap) :
    (events.filterMap unsupportedFor).head? =
      (events.find? (fun e => decide (e.Type ≠ .RingBuf ∧ e.Type ≠ .PerfEventArray))).map
        unsupportedError := by
  induction events with
  | nil => rfl
  | cons e rest ih =>
    cases hty : e.Type with
    | RingBuf => simpa [List.filterMap_cons, unsupportedFor, hty, List.find?_cons] using ih
    | PerfEventArray =>
      simpa [List.filterMap_cons, unsupportedFor, hty, List.find?_cons] using ih
    | Other name => simp [List.filterMap_cons, unsupportedFor, hty, List.find?_cons]

theorem unsupported_ne_nil (events : List EbpfMap)
    (hsome : ∃ em ∈ events, em.Type ≠ .RingBuf ∧ em.Type ≠ .PerfEventArray) :
    events.filterMap unsupportedFor ≠ [] := by
  obtain ⟨em, hmem, h1, h2⟩ := hsome
  intro hnil
  have hin : unsupportedError em ∈ events.filterMap unsupportedFor := by
    rw [List.mem_filterMap]
    refine ⟨em, hmem, ?_⟩
    cases hty : em.Type with
    | RingBuf => exact absurd hty h1
    | PerfEventArray => exact absurd hty h2
    | Other name => simp [unsupportedFor, hty]
  rw [hnil] at hin
  cases hin


/-- Counterexample to C6: for the list of a ring buffer map and then a hash map,
`readEvents` returns the unsupported-kind error and the reader of the ring buffer map has
been started; for the list of a hash map and then a perf event array, the reader of the
perf event array has been started after the error was sent. When the reader started
first sends its failure first, that failure is the result; with nine unsupported maps
the ninth send finds the channel full and `readEvents` does not return. -/
theorem readEvents_spawns_despite_unsupported_counterexample :
    (Module.readEvents [Demo.ringMap, Demo.hashMap] [.main, .main, .main]).result =
        some (some (unsupportedError Demo.hashMap)) ∧
      (Module.readEvents [Demo.ringMap, Demo.hashMap] [.main, .main, .main]).spawned =
        [.ringbufEventReader Demo.ringMap] ∧
      (Module.readEvents [Demo.hashMap, Demo.perfMap] [.main, .main, .main]).result =
        some (some (unsupportedError Demo.hashMap)) ∧
      (Module.readEvents [Demo.hashMap, Demo.perfMap] [.main, .main, .main]).spawned =
        [.perfEventReader Demo.perfMap] ∧
      ¬ ((Module.readEvents [Demo.ringMap, Demo.hashMap] [.main, .main, .main]).spawned
        = []) ∧
      (Module.readEvents [Demo.ringMap, Demo.hashMap]
        [.main, .reader 0 (.new "creating reader"), .main, .main]).result =
        some (some (.new "creating reader")) ∧
      (Module.readEvents (List.replicate 9 Demo.hashMap) (List.replicate 12 .main)).result =
        none ∧
      (Module.readEvents (List.replicate 9 Demo.hashMap)
        (List.replicate 12 .main)).blockedOnSend = true := by
  decide

/-- C6, amended: `readEvents` does not stop at a map whose type has no reader. Under
every schedule, once `readEvents` has returned, a reader has been started for every
`RingBuf` and `PerfEventArray` map of the list, wherever the unsupported map stands.
When the list has an unsupported map, at most 8 of them, and no reader sends a failure,
`readEvents` returns the unsupported-kind error of the first unsupported map. -/
theorem readEvents_unsupported_kind (events : List EbpfMap)
    (hsome : ∃ em ∈ events, em.Type ≠ .RingBuf ∧ em.Type ≠ .PerfEventArray) :
    (∀ sched : List Sched, (Module.readEvents events sched).result ≠ none →
      (Module.readEvents events sched).spawned = events.filterMap readerFor) ∧
    ((events.filterMap unsupportedFor).length ≤ 8 → ∀ k : Nat,
      (∃ em,
        events.find? (fun e => decide (e.Type ≠ .RingBuf ∧ e.Type ≠ .PerfEventArray)) =
          some em ∧
        (Module.readEvents events (List.replicate (events.length + 1 + k) .main)).result =
          some (some (unsupportedError em))) ∧
      (Module.readEvents events (List.replicate (events.length + 1 + k) .main)).spawned =
        events.filterMap readerFor) := by
  constructor
  · intro sched hret
    have hinv := Module.readEvents_inv events sched
    have htodo := hinv.2 hret
    have hs := hinv.1
    rw [htodo] at hs
    simpa using hs
  · intro hcap k
    have hne := unsupported_ne_nil events hsome
    have hrun := Module.readEvents_main_only events k hcap hne
    have hhead := head_unsupported events
    cases hfind : events.find?
        (fun e => decide (e.Type ≠ .RingBuf ∧ e.Type ≠ .PerfEventArray)) with
    | none =>
      rw [hfind] at hhead
      cases herrs : events.filterMap unsupportedFor with
      | nil => exact absurd herrs hne
      | cons e rest =>
        rw [herrs] at hhead
        simp at hhead
    | some em =>
      rw [hfind] at hhead
      refine ⟨⟨em, rfl, ?_⟩, ?_⟩
      · rw [hrun, hhead]
        rfl
      · rw [hrun]

/-- Witness of C6 as amended: a perf event array, a hash map, a ring buffer. -/
theorem readEvents_unsupported_kind_witness :
    (Module.readEvents [Demo.perfMap, Demo.hashMap, Demo.ringMap]
        (List.replicate (3 + 1 + 0) .main)).spawned =
      [.perfEventReader Demo.perfMap, .ringbufEventReader Demo.ringMap] :=
  ((readEvents_unsupported_kind [Demo.perfMap, Demo.hashMap, Demo.ringMap]
    ⟨Demo.hashMap, by decide, by decide, by decide⟩).2 (by decide) 0).2


/-- C8 fails on the code: `Run` never executes `go func() { m.run() }()` and never
returns nil, whatever the child, its state and the schedule. With a child whose `Start`
returns nil and whose `Events()` is one ring buffer map, and no reader failure, `Run`
starts the reader and then stays in the receive of `readEvents`: it has not returned
after any number of steps. -/
theorem Module.Run_blocks_in_readEvents :
    (∀ (S E W : Type) (child : IModule S E W) (s : S) (sched : List Sched),
      (Module.Run child s sched).supervisor = false ∧
        (Module.Run child s sched).result ≠ some none) ∧
    (∀ n : Nat,
      (Module.Run (Demo.child [Demo.ringMap]) () (List.replicate (n + 1) .main)).result =
          none ∧
        (Module.Run (Demo.child [Demo.ringMap]) ()
          (List.replicate (n + 1) .main)).supervisor = false ∧
        (Module.Run (Demo.child [Demo.ringMap]) ()
          (List.replicate (n + 1) .main)).readEvents =
          some { todo := [], errChan := [],
                 spawned := [.ringbufEventReader Demo.ringMap],
                 sent := [], stuck := [], result := none }) := by
  refine ⟨fun S E W child s sched => Module.Run_no_supervisor child s sched, ?_⟩
  intro n
  have h : Module.readEvents [Demo.ringMap] (List.replicate (n + 1) .main) =
      { todo := [], errChan := [], spawned := [.ringbufEventReader Demo.ringMap],
        sent := [], stuck := [], result := none } := by
    unfold Module.readEvents
    rw [List.replicate_succ, List.foldl_cons]
    exact ReadEvents.foldl_main_fixed _ (by decide) n
  simp [Module.Run, Demo.child, h]

/-- Counterexample to C9: for a started `MTCPProbe`, the supervisory task that sees the
token fired returns and leaves the variant as it was: no `Stop(manager.CleanAll)` was
called on the manager, which `Close` would have called. -/
theorem run_does_not_Close_counterexample :
    (Module.run (MTCPProbe.asIModule Demo.events Demo.manager Demo.protos)
        (MTCPProbe.Start Demo.manager Demo.protos (MTCPProbe.Init Demo.probe).2).2
        true).status = .returned ∧
      (Module.run (MTCPProbe.asIModule Demo.events Demo.manager Demo.protos)
        (MTCPProbe.Start Demo.manager Demo.protos (MTCPProbe.Init Demo.probe).2).2
        true).child.managerCalls = [.InitWithOptions, .Start, .GetMap "events"] ∧
      (MTCPProbe.Close Demo.manager
        (MTCPProbe.Start Demo.manager Demo.protos
          (MTCPProbe.Init Demo.probe).2).2).2.managerCalls =
        [.InitWithOptions, .Start, .GetMap "events", .Stop] ∧
      ¬ (ManagerCall.Stop ∈
        (Module.run (MTCPProbe.asIModule Demo.events Demo.manager Demo.protos)
          (MTCPProbe.Start Demo.manager Demo.protos (MTCPProbe.Init Demo.probe).2).2
          true).child.managerCalls) := by
  decide

/-- C9, amended: when the cancellation token fires, `Module.run` calls the `Stop` of
its child exactly once, and returns when `Stop` returns nil. For each of the seven
variants `Stop` is `Module.Stop`, which returns nil and does nothing: the task returns
and the variant is as before, no call was made on the manager and `Close` was not
invoked. -/
theorem run_invokes_Stop_once {E W : Type} (I : IEventStruct E W) (mgr : Manager)
    (protos : Prototypes E) (p : Probe E) :
    (∀ (S : Type) (child : IModule S E W) (s : S),
      (Module.run child s true).trace.count .Stop = 1 ∧
        ((child.Stop s).1 = none →
          (Module.run child s true).trace = [.CtxDone true, .Stop] ∧
            (Module.run child s true).status = .returned ∧
            (Module.run child s true).child = (child.Stop s).2)) ∧
    (∀ child ∈ [MTCPProbe.asIModule I mgr protos, MTCPSecProbe.asIModule I mgr protos,
        MUDPProbe.asIModule I mgr protos, MProcProbe.asIModule I mgr protos,
        MUDNSProbe.asIModule I mgr protos, MJavaRasp.asIModule I mgr protos,
        MBPFCallProbe.asIModule I mgr protos],
      (Module.run child p true).trace = [.CtxDone true, .Stop] ∧
        (Module.run child p true).status = .returned ∧
        (Module.run child p true).child = p) := by
  constructor
  · intro S child s
    unfold Module.run
    rcases hs : child.Stop s with ⟨e, s1⟩
    cases e with
    | none => simp
    | some err => simp
  · intro child hmem
    simp only [List.mem_cons, List.mem_singleton, List.not_mem_nil, or_false] at hmem
    rcases hmem with h | h | h | h | h | h | h <;> subst h <;> exact ⟨rfl, rfl, rfl⟩

/-- Witness of C9 as amended: a started `MProcProbe`. -/
theorem run_invokes_Stop_once_witness :
    (Module.run (MProcProbe.asIModule Demo.events Demo.manager Demo.protos)
        (MProcProbe.Start Demo.manager Demo.protos (MProcProbe.Init Demo.probe).2).2
        true).trace = [.CtxDone true, .Stop] ∧
      (Module.run (MProcProbe.asIModule Demo.events Demo.manager Demo.protos)
        (MProcProbe.Start Demo.manager Demo.protos (MProcProbe.Init Demo.probe).2).2
        true).status = .returned :=
  ⟨((run_invokes_Stop_once Demo.events Demo.manager Demo.protos
      (MProcProbe.Start Demo.manager Demo.protos (MProcProbe.Init Demo.probe).2).2).1
      (Probe Nat) (MProcProbe.asIModule Demo.events Demo.manager Demo.protos)
      (MProcProbe.Start Demo.manager Demo.protos (MProcProbe.Init Demo.probe).2).2).2
      rfl |>.1,
    ((run_invokes_Stop_once Demo.events Demo.manager Demo.protos
      (MProcProbe.Start Demo.manager Demo.protos (MProcProbe.Init Demo.probe).2).2).1
      (Probe Nat) (MProcProbe.asIModule Demo.events Demo.manager Demo.protos)
      (MProcProbe.Start Demo.manager Demo.protos (MProcProbe.Init Demo.probe).2).2).2
      rfl |>.2.1⟩

/-! ### The `Start` of the variants -/

theorem MTCPProbe_Start_eq {E : Type} (mgr : Manager) (protos : Prototypes E)
    (p : Probe E) : MTCPProbe.Start mgr protos p = MTCPProbe.start mgr protos p := by
  unfold MTCPProbe.Start
  rcases MTCPProbe.start mgr protos p with ⟨e, p1⟩
  cases e <;> rfl

theorem MTCPProbe_start_eventMaps {E : Type} (mgr : Manager) (protos : Prototypes E)
    (p : Probe E) :
    (MTCPProbe.start mgr protos p).2.eventMaps.length ≤ p.eventMaps.length + 1 := by
  dsimp only [MTCPProbe.start, MTCPProbe.initDecodeFun, MTCPProbe.setupManagers, Probe.call]
  cases mgr.Asset "user/bytecode/tcp_set_state_kern.o" with
  | some e => simp
  | none =>
    cases mgr.InitWithOptions with
    | some e => simp
    | none =>
      cases mgr.Start with
      | some e => simp
      | none =>
        cases (mgr.GetMap "events").err with
        | some e => simp
        | none => cases (mgr.GetMap "events").found <;> simp

theorem MTCPProbe_start_fails {E : Type} (mgr : Manager) (protos : Prototypes E)
    (p : Probe E)
    (h : mgr.InitWithOptions ≠ none ∨ mgr.Start ≠ none ∨
      (mgr.GetMap "events").err ≠ none ∨ (mgr.GetMap "events").found = false) :
    ∃ err, (MTCPProbe.start mgr protos p).1 = some err := by
  dsimp only [MTCPProbe.start, MTCPProbe.initDecodeFun]
  cases mgr.Asset "user/bytecode/tcp_set_state_kern.o" with
  | some e => exact ⟨_, rfl⟩
  | none =>
    cases hI : mgr.InitWithOptions with
    | some e => exact ⟨_, rfl⟩
    | none =>
      cases hS : mgr.Start with
      | some e => exact ⟨_, rfl⟩
      | none =>
        cases hE : (mgr.GetMap "events").err with
        | some e => exact ⟨_, rfl⟩
        | none =>
          cases hF : (mgr.GetMap "events").found with
          | false => exact ⟨_, rfl⟩
          | true => simp [hI, hS, hE, hF] at h

theorem MUDPProbe_Start_eq {E : Type} (mgr : Manager) (protos : Prototypes E)
    (p : Probe E) : MUDPProbe.Start mgr protos p = MUDPProbe.start mgr protos p := by
  unfold MUDPProbe.Start
  rcases MUDPProbe.start mgr protos p with ⟨e, p1⟩
  cases e <;> rfl

theorem MUDPProbe_start_eventMaps {E : Type} (mgr : Manager) (protos : Prototypes E)
    (p : Probe E) :
    (MUDPProbe.start mgr protos p).2.eventMaps.length ≤ p.eventMaps.length + 1 := by
  dsimp only [MUDPProbe.start, MUDPProbe.initDecodeFun, MUDPProbe.setupManagers, Probe.call]
  cases mgr.Asset "user/bytecode/udp_lookup_kern.o" with
  | some e => simp
  | none =>
    cases mgr.InitWithOptions with
    | some e => simp
    | none =>
      cases mgr.Start with
      | some e => simp
      | none =>
        cases (mgr.GetMap "dns_events").err with
        | some e => simp
        | none => cases (mgr.GetMap "dns_events").found <;> simp

theorem MUDPProbe_start_fails {E : Type} (mgr : Manager) (protos : Prototypes E)
    (p : Probe E)
    (h : mgr.InitWithOptions ≠ none ∨ mgr.Start ≠ none ∨
      (mgr.GetMap "dns_events").err ≠ none ∨ (mgr.GetMap "dns_events").found = false) :
    ∃ err, (MUDPProbe.start mgr protos p).1 = some err := by
  dsimp only [MUDPProbe.start, MUDPProbe.initDecodeFun]
  cases mgr.Asset "user/bytecode/udp_lookup_kern.o" with
  | some e => exact ⟨_, rfl⟩
  | none =>
    cases hI : mgr.InitWithOptions with
    | some e => exact ⟨_, rfl⟩
    | none =>
      cases hS : mgr.Start with
      | some e => exact ⟨_, rfl⟩
      | none =>
        cases hE : (mgr.GetMap "dns_events").err with
        | some e => exact ⟨_, rfl⟩
        | none =>
          cases hF : (mgr.GetMap "dns_events").found with
          | false => exact ⟨_, rfl⟩
          | true => simp [hI, hS, hE, hF] at h

theorem MProcProbe_Start_eq {E : Type} (mgr : Manager) (protos : Prototypes E)
    (p : Probe E) : MProcProbe.Start mgr protos p = MProcProbe.start mgr protos p := by
  unfold MProcProbe.Start
  rcases MProcProbe.start mgr protos p with ⟨e, p1⟩
  cases e <;> rfl

theorem MProcProbe_start_eventMaps {E : Type} (mgr : Manager) (protos : Prototypes E)
    (p : Probe E) :
    (MProcProbe.start mgr protos p).2.eventMaps.length ≤ p.eventMaps.length + 1 := by
  dsimp only [MProcProbe.start, MProcProbe.initDecodeFun, MProcProbe.setupManagers, Probe.call]
  cases mgr.Asset "user/bytecode/proc_kern.o" with
  | some e => simp
  | none =>
    cases mgr.InitWithOptions with
    | some e => simp
    | none =>
      cases mgr.Start with
      | some e => simp
      | none =>
        cases (mgr.GetMap "ringbuf_proc").err with
        | some e => simp
        | none => cases (mgr.GetMap "ringbuf_proc").found <;> simp

theorem MProcProbe_start_fails {E : Type} (mgr : Manager) (protos : Prototypes E)
    (p : Probe E)
    (h : mgr.InitWithOptions ≠ none ∨ mgr.Start ≠ none ∨
      (mgr.GetMap "ringbuf_proc").err ≠ none ∨ (mgr.GetMap "ringbuf_proc").found = false) :
    ∃ err, (MProcProbe.start mgr protos p).1 = some err := by
  dsimp only [MProcProbe.start, MProcProbe.initDecodeFun]
  cases mgr.Asset "user/bytecode/proc_kern.o" with
  | some e => exact ⟨_, rfl⟩
  | none =>
    cases hI : mgr.InitWithOptions with
    | some e => exact ⟨_, rfl⟩
    | none =>
      cases hS : mgr.Start with
      | some e => exact ⟨_, rfl⟩
      | none =>
        cases hE : (mgr.GetMap "ringbuf_proc").err with
        | some e => exact ⟨_, rfl⟩
        | none =>
          cases hF : (mgr.GetMap "ringbuf_proc").found with
          | false => exact ⟨_, rfl⟩
          | true => simp [hI, hS, hE, hF] at h

theorem MUDNSProbe_Start_eq {E : Type} (mgr : Manager) (protos : Prototypes E)
    (p : Probe E) : MUDNSProbe.Start mgr protos p = MUDNSProbe.start mgr protos p := by
  unfold MUDNSProbe.Start
  rcases MUDNSProbe.start mgr protos p with ⟨e, p1⟩
  cases e <;> rfl

theorem MUDNSProbe_start_eventMaps {E : Type} (mgr : Manager) (protos : Prototypes E)
    (p : Probe E) :
    (MUDNSProbe.start mgr protos p).2.eventMaps.length ≤ p.eventMaps.length + 1 := by
  dsimp only [MUDNSProbe.start, MUDNSProbe.initDecodeFun, MUDNSProbe.setupManagers, Probe.call]
  cases mgr.Asset "user/bytecode/dns_lookup_kern.o" with
  | some e => simp
  | none =>
    cases mgr.InitWithOptions with
    | some e => simp
    | none =>
      cases mgr.Start with
      | some e => simp
      | none =>
        cases (mgr.GetMap "events").err with
        | some e => simp
        | none => cases (mgr.GetMap "events").found <;> simp

theorem MUDNSProbe_start_fails {E : Type} (mgr : Manager) (protos : Prototypes E)
    (p : Probe E)
    (h : mgr.InitWithOptions ≠ none ∨ mgr.Start ≠ none ∨
      (mgr.GetMap "events").err ≠ none ∨ (mgr.GetMap "events").found = false) :
    ∃ err, (MUDNSProbe.start mgr protos p).1 = some err := by
  dsimp only [MUDNSProbe.start, MUDNSProbe.initDecodeFun]
  cases mgr.Asset "user/bytecode/dns_lookup_kern.o" with
  | some e => exact ⟨_, rfl⟩
  | none =>
    cases hI : mgr.InitWithOptions with
    | some e => exact ⟨_, rfl⟩
    | none =>
      cases hS : mgr.Start with
      | some e => exact ⟨_, rfl⟩
      | none =>
        cases hE : (mgr.GetMap "events").err with
        | some e => exact ⟨_, rfl⟩
        | none =>
          cases hF : (mgr.GetMap "events").found with
          | false => exact ⟨_, rfl⟩
          | true => simp [hI, hS, hE, hF] at h

theorem MJavaRasp_Start_eq {E : Type} (mgr : Manager) (protos : Prototypes E)
    (p : Probe E) : MJavaRasp.Start mgr protos p = MJavaRasp.start mgr protos p := by
  unfold MJavaRasp.Start
  rcases MJavaRasp.start mgr protos p with ⟨e, p1⟩
  cases e <;> rfl

theorem MJavaRasp_start_eventMaps {E : Type} (mgr : Manager) (protos : Prototypes E)
    (p : Probe E) :
    (MJavaRasp.start mgr protos p).2.eventMaps.length ≤ p.eventMaps.length + 1 := by
  dsimp only [MJavaRasp.start, MJavaRasp.initDecodeFun, MJavaRasp.setupManagers, Probe.call]
  cases mgr.Asset "user/bytecode/java_exec_kern.o" with
  | some e => simp
  | none =>
    cases mgr.InitWithOptions with
    | some e => simp
    | none =>
      cases mgr.Start with
      | some e => simp
      | none =>
        cases (mgr.GetMap "jdk_execvpe_events").err with
        | some e => simp
        | none => cases (mgr.GetMap "jdk_execvpe_events").found <;> simp

theorem MJavaRasp_start_fails {E : Type} (mgr : Manager) (protos : Prototypes E)
    (p : Probe E)
    (h : mgr.InitWithOptions ≠ none ∨ mgr.Start ≠ none ∨
      (mgr.GetMap "jdk_execvpe_events").err ≠ none ∨ (mgr.GetMap "jdk_execvpe_events").found = false) :
    ∃ err, (MJavaRasp.start mgr protos p).1 = some err := by
  dsimp only [MJavaRasp.start, MJavaRasp.initDecodeFun]
  cases mgr.Asset "user/bytecode/java_exec_kern.o" with
  | some e => exact ⟨_, rfl⟩
  | none =>
    cases hI : mgr.InitWithOptions with
    | some e => exact ⟨_, rfl⟩
    | none =>
      cases hS : mgr.Start with
      | some e => exact ⟨_, rfl⟩
      | none =>
        cases hE : (mgr.GetMap "jdk_execvpe_events").err with
        | some e => exact ⟨_, rfl⟩
        | none =>
          cases hF : (mgr.GetMap "jdk_execvpe_events").found with
          | false => exact ⟨_, rfl⟩
          | true => simp [hI, hS, hE, hF] at h

theorem MTCPSecProbe_Start_eq {E : Type} (mgr : Manager) (protos : Prototypes E)
    (p : Probe E) : MTCPSecProbe.Start mgr protos p = MTCPSecProbe.start mgr protos p := by
  unfold MTCPSecProbe.Start
  rcases MTCPSecProbe.start mgr protos p with ⟨e, p1⟩
  cases e <;> rfl

theorem MTCPSecProbe_start_eventMaps {E : Type} (mgr : Manager) (protos : Prototypes E)
    (p : Probe E) :
    (MTCPSecProbe.start mgr protos p).2.eventMaps.length ≤ p.eventMaps.length + 3 := by
  dsimp only [MTCPSecProbe.start, MTCPSecProbe.initDecodeFun, MTCPSecProbe.setupManagers,
    Probe.call]
  cases mgr.Asset "user/bytecode/sec_socket_connect_kern.o" with
  | some e => simp
  | none =>
    cases mgr.InitWithOptions with
    | some e => simp
    | none =>
      cases mgr.Start with
      | some e => simp
      | none =>
        cases (mgr.GetMap "ipv4_events").err with
        | some e => simp
        | none =>
          cases (mgr.GetMap "ipv4_events").found with
          | false => simp
          | true =>
            cases (mgr.GetMap "ipv6_events").err with
            | some e => simp
            | none =>
              cases (mgr.GetMap "ipv6_events").found with
              | false => simp
              | true =>
                cases (mgr.GetMap "other_socket_events").err with
                | some e => simp
                | none => cases (mgr.GetMap "other_socket_events").found <;> simp

theorem MTCPSecProbe_start_fails {E : Type} (mgr : Manager) (protos : Prototypes E)
    (p : Probe E)
    (h : mgr.InitWithOptions ≠ none ∨ mgr.Start ≠ none ∨
      (mgr.GetMap "ipv4_events").err ≠ none ∨ (mgr.GetMap "ipv4_events").found = false ∨
      (mgr.GetMap "ipv6_events").err ≠ none ∨ (mgr.GetMap "ipv6_events").found = false ∨
      (mgr.GetMap "other_socket_events").err ≠ none ∨
      (mgr.GetMap "other_socket_events").found = false) :
    ∃ err, (MTCPSecProbe.start mgr protos p).1 = some err := by
  dsimp only [MTCPSecProbe.start, MTCPSecProbe.initDecodeFun]
  cases mgr.Asset "user/bytecode/sec_socket_connect_kern.o" with
  | some e => exact ⟨_, rfl⟩
  | none =>
    cases hI : mgr.InitWithOptions with
    | some e => exact ⟨_, rfl⟩
    | none =>
      cases hS : mgr.Start with
      | some e => exact ⟨_, rfl⟩
      | none =>
        cases hE4 : (mgr.GetMap "ipv4_events").err with
        | some e => exact ⟨_, rfl⟩
        | none =>
          cases hF4 : (mgr.GetMap "ipv4_events").found with
          | false => exact ⟨_, rfl⟩
          | true =>
            cases hE6 : (mgr.GetMap "ipv6_events").err with
            | some e => exact ⟨_, rfl⟩
            | none =>
              cases hF6 : (mgr.GetMap "ipv6_events").found with
              | false => exact ⟨_, rfl⟩
              | true =>
                cases hEo : (mgr.GetMap "other_socket_events").err with
                | some e => exact ⟨_, rfl⟩
                | none =>
                  cases hFo : (mgr.GetMap "other_socket_events").found with
                  | false => exact ⟨_, rfl⟩
                  | true => simp [hI, hS, hE4, hF4, hE6, hF6, hEo, hFo] at h

theorem MBPFCallProbe_Start_eq {E : Type} (mgr : Manager) (protos : Prototypes E)
    (p : Probe E) :
    MBPFCallProbe.Start mgr protos p = MBPFCallProbe.start mgr protos p := by
  unfold MBPFCallProbe.Start
  rcases MBPFCallProbe.start mgr protos p with ⟨e, p1⟩
  cases e <;> rfl

theorem MBPFCallProbe_start_tables {E : Type} (mgr : Manager) (protos : Prototypes E)
    (p : Probe E) :
    (MBPFCallProbe.start mgr protos p).2.eventMaps = p.eventMaps ∧
      (MBPFCallProbe.start mgr protos p).2.eventFuncMaps = p.eventFuncMaps := by
  dsimp only [MBPFCallProbe.start, MBPFCallProbe.initDecodeFun,
    MBPFCallProbe.setupManagers, Probe.call]
  cases mgr.Asset "user/bytecode/bpf_call_kern.o" with
  | some e => simp
  | none =>
    cases mgr.GetPerfMap "events" with
    | false => simp
    | true =>
      cases mgr.InitWithOptions with
      | some e => simp
      | none => cases mgr.Start <;> simp

theorem MBPFCallProbe_start_fails {E : Type} (mgr : Manager) (protos : Prototypes E)
    (p : Probe E) (h : mgr.InitWithOptions ≠ none ∨ mgr.Start ≠ none) :
    ∃ err, (MBPFCallProbe.start mgr protos p).1 = some err := by
  dsimp only [MBPFCallProbe.start, MBPFCallProbe.initDecodeFun]
  cases mgr.Asset "user/bytecode/bpf_call_kern.o" with
  | some e => exact ⟨_, rfl⟩
  | none =>
    cases mgr.GetPerfMap "events" with
    | false => exact ⟨_, rfl⟩
    | true =>
      cases hI : mgr.InitWithOptions with
      | some e => exact ⟨_, rfl⟩
      | none =>
        cases hS : mgr.Start with
        | some e => exact ⟨_, rfl⟩
        | none => simp [hI, hS] at h

/-! ### The failure channel -/

theorem nodup_bounded_length (l : List Nat) (n : Nat) (hn : l.Nodup)
    (hb : ∀ i ∈ l, i < n) : l.length ≤ n := by
  have h := Finset.card_le_card (s := l.toFinset) (t := Finset.range n)
    (by intro i hi; simp only [List.mem_toFinset] at hi; simpa using hb i hi)
  rwa [List.toFinset_card_of_nodup hn, Finset.card_range] at h

theorem ReadEvents.Bounded.sent_le {events : List EbpfMap} {st : ReadEvents}
    (h : ReadEvents.Bounded events st) : st.sent.length ≤ st.spawned.length :=
  nodup_bounded_length _ _ h.2.1 h.2.2

theorem ReadEvents.Bounded.sent_lt {events : List EbpfMap} {st : ReadEvents}
    (h : ReadEvents.Bounded events st) (i : Nat) (hi : i < st.spawned.length)
    (hni : i ∉ st.sent) : st.sent.length < st.spawned.length := by
  have := nodup_bounded_length (i :: st.sent) st.spawned.length
    (List.nodup_cons.mpr ⟨hni, h.2.1⟩)
    (by intro j hj
        rcases List.mem_cons.mp hj with rfl | hj
        · exact hi
        · exact h.2.2 j hj)
  simpa using this

theorem ReadEvents.bounded_step (events : List EbpfMap) (st : ReadEvents) (c : Sched)
    (h : ReadEvents.Bounded events st) : ReadEvents.Bounded events (st.step c) := by
  obtain ⟨hsum, hnd, hb⟩ := h
  cases c with
  | reader i err =>
    simp only [ReadEvents.step, ReadEvents.readerStep]
    split
    · rename_i hv
      split
      · refine ⟨?_, List.nodup_cons.mpr ⟨hv.2, hnd⟩, ?_⟩
        · simp only [List.length_append, List.length_singleton, List.length_cons, List.length_nil]
          omega
        · intro j hj
          rcases List.mem_cons.mp hj with rfl | hj
          · exact hv.1
          · exact hb j hj
      · refine ⟨?_, List.nodup_cons.mpr ⟨hv.2, hnd⟩, ?_⟩
        · simp only [List.length_cons]
          omega
        · intro j hj
          rcases List.mem_cons.mp hj with rfl | hj
          · exact hv.1
          · exact hb j hj
    · exact ⟨hsum, hnd, hb⟩
  | main =>
    simp only [ReadEvents.step, ReadEvents.mainStep]
    cases hres : st.result with
    | some r => exact ⟨hsum, hnd, hb⟩
    | none =>
      cases htodo : st.todo with
      | nil =>
        dsimp only
        cases hch : st.errChan with
        | nil => exact ⟨hsum, hnd, hb⟩
        | cons e more =>
          refine ⟨?_, hnd, hb⟩
          rw [hch, htodo] at hsum
          simp only [List.length_cons, List.length_nil] at hsum ⊢
          omega
      | cons event rest =>
        dsimp only
        rw [htodo] at hsum
        simp only [List.length_cons] at hsum
        cases hty : event.Type with
        | RingBuf =>
          refine ⟨?_, hnd, ?_⟩
          · simp only [List.length_append, List.length_singleton, List.length_cons, List.length_nil]
            omega
          · intro j hj
            have := hb j hj
            simp only [List.length_append, List.length_singleton, List.length_cons, List.length_nil]
            omega
        | PerfEventArray =>
          refine ⟨?_, hnd, ?_⟩
          · simp only [List.length_append, List.length_singleton, List.length_cons, List.length_nil]
            omega
          · intro j hj
            have := hb j hj
            simp only [List.length_append, List.length_singleton, List.length_cons, List.length_nil]
            omega
        | Other name =>
          dsimp only
          split
          · refine ⟨?_, hnd, hb⟩
            simp only [List.length_append, List.length_singleton, List.length_cons, List.length_nil]
            omega
          · refine ⟨?_, hnd, hb⟩
            rw [htodo]
            simp only [List.length_cons]
            omega

theorem ReadEvents.stuck_step (events : List EbpfMap) (st : ReadEvents) (c : Sched)
    (hlen : events.length ≤ errChanCap) (h : ReadEvents.Bounded events st)
    (hs : st.stuck = []) : (st.step c).stuck = [] := by
  cases c with
  | reader i err =>
    simp only [ReadEvents.step, ReadEvents.readerStep]
    split
    · rename_i hv
      have hlt := h.sent_lt i hv.1 hv.2
      have hsum := h.1
      have hroom : st.errChan.length < errChanCap := by omega
      simp [hroom, hs]
    · exact hs
  | main =>
    simp only [ReadEvents.step, ReadEvents.mainStep]
    split
    · exact hs
    · split
      · split
        · exact hs
        · exact hs
        · split
          · exact hs
          · exact hs
      · split
        · exact hs
        · exact hs

theorem ReadEvents.Bounded.room {events : List EbpfMap} {st : ReadEvents}
    (h : ReadEvents.Bounded events st) (hlen : events.length ≤ errChanCap)
    (hne : st.todo ≠ []) : st.errChan.length < errChanCap := by
  have h1 := h.1
  have h2 := h.sent_le
  have h3 : 0 < st.todo.length := List.length_pos.mpr hne
  omega

theorem ReadEvents.Bounded.not_blocked {events : List EbpfMap} {st : ReadEvents}
    (h : ReadEvents.Bounded events st) (hlen : events.length ≤ errChanCap) :
    st.blockedOnSend = false := by
  unfold ReadEvents.blockedOnSend
  cases hres : st.result with
  | some r => rfl
  | none =>
    cases htodo : st.todo with
    | nil => rfl
    | cons event rest =>
      have hroom := h.room hlen (by rw [htodo]; simp)
      simp only [Bool.and_eq_false_imp]
      intro _
      simpa using hroom

/-- The three facts that hold along every schedule when the list has at most
`errChanCap` maps. -/
theorem ReadEvents.good_foldl (events : List EbpfMap) (hlen : events.length ≤ errChanCap)
    (sched : List Sched) (st : ReadEvents)
    (h : ReadEvents.Inv events st ∧ ReadEvents.Bounded events st ∧ st.stuck = []) :
    ReadEvents.Inv events (sched.foldl ReadEvents.step st) ∧
      ReadEvents.Bounded events (sched.foldl ReadEvents.step st) ∧
      (sched.foldl ReadEvents.step st).stuck = [] := by
  induction sched generalizing st with
  | nil => exact h
  | cons c rest ih =>
    exact ih _ ⟨ReadEvents.inv_step events st c h.1, ReadEvents.bounded_step events st c h.2.1,
      ReadEvents.stuck_step events st c hlen h.2.1 h.2.2⟩

theorem ReadEvents.good_init (events : List EbpfMap) :
    ReadEvents.Inv events (ReadEvents.init events) ∧
      ReadEvents.Bounded events (ReadEvents.init events) ∧
      (ReadEvents.init events).stuck = [] :=
  ⟨⟨by simp [ReadEvents.init], by simp [ReadEvents.init]⟩,
    ⟨by simp [ReadEvents.init], by simp [ReadEvents.init], by simp [ReadEvents.init]⟩, rfl⟩

theorem ReadEvents.todo_step_main (events : List EbpfMap)
    (hlen : events.length ≤ errChanCap) (st : ReadEvents)
    (h : ReadEvents.Inv events st ∧ ReadEvents.Bounded events st ∧ st.stuck = []) :
    (st.step .main).todo.length = st.todo.length - 1 := by
  simp only [ReadEvents.step, ReadEvents.mainStep]
  cases htodo : st.todo with
  | nil =>
    cases st.result with
    | some r => simp [htodo]
    | none =>
      dsimp only
      split <;> simp [htodo]
  | cons event rest =>
    have hres : st.result = none := by
      by_contra hne
      have := h.1.2 hne
      rw [htodo] at this
      cases this
    have hroom := h.2.1.room hlen (by rw [htodo]; simp)
    rw [hres]
    dsimp only
    cases hty : event.Type <;> simp [hroom]

theorem ReadEvents.todo_step_reader (st : ReadEvents) (i : Nat) (err : Error) :
    (st.step (.reader i err)).todo = st.todo := by
  simp only [ReadEvents.step, ReadEvents.readerStep]
  split
  · split <;> rfl
  · rfl

theorem ReadEvents.todo_foldl (events : List EbpfMap) (hlen : events.length ≤ errChanCap)
    (sched : List Sched) (st : ReadEvents)
    (h : ReadEvents.Inv events st ∧ ReadEvents.Bounded events st ∧ st.stuck = []) :
    (sched.foldl ReadEvents.step st).todo.length ≤
      st.todo.length - sched.count .main := by
  induction sched generalizing st with
  | nil => simp
  | cons c rest ih =>
    have hnext := ih (st.step c)
      ⟨ReadEvents.inv_step events st c h.1, ReadEvents.bounded_step events st c h.2.1,
        ReadEvents.stuck_step events st c hlen h.2.1 h.2.2⟩
    rw [List.foldl_cons]
    cases c with
    | main =>
      rw [ReadEvents.todo_step_main events hlen st h] at hnext
      simp only [List.count_cons_self]
      omega
    | reader i err =>
      rw [ReadEvents.todo_step_reader] at hnext
      have hc : List.count Sched.main (Sched.reader i err :: rest) =
          List.count Sched.main rest := by
        simp [List.count_cons]
      rw [hc]
      exact hnext

/-- Counterexample to C12: the failure channel has capacity 8, whatever the list. With
nine maps of an unsupported type the ninth send of `readEvents` finds the channel full:
`readEvents` stays at that send and does not reach its receive loop. With a ring buffer
map followed by eight unsupported maps, the failure of the reader finds the channel full
and blocks. -/
theorem failure_channel_full_counterexample :
    errChanCap < (List.replicate 9 Demo.hashMap).length ∧
      (Module.readEvents (List.replicate 9 Demo.hashMap)
        (List.replicate 9 .main)).blockedOnSend = true ∧
      (Module.readEvents (List.replicate 9 Demo.hashMap)
        (List.replicate 30 .main)).todo = [Demo.hashMap] ∧
      (Module.readEvents (Demo.ringMap :: List.replicate 8 Demo.hashMap)
        (List.replicate 9 .main ++ [.reader 0 (.new "creating reader")])).stuck = [0] := by
  decide

/-- C12, amended: the failure channel has the fixed capacity 8. For every list of at
most 8 buffers, under every schedule, no failure report blocks (neither the send of a
reader nor the send of the unsupported-kind branch) and `readEvents` reaches its receive
loop once it has taken as many steps as the list has maps. Every variant has at most 3
buffers after `Init` and `Start`. -/
theorem readEvents_channel_room (events : List EbpfMap) (hlen : events.length ≤ 8) :
    (∀ sched : List Sched,
      (Module.readEvents events sched).stuck = [] ∧
        (Module.readEvents events sched).blockedOnSend = false ∧
        (Module.readEvents events sched).errChan.length ≤ errChanCap) ∧
    (∀ sched : List Sched, events.length ≤ sched.count .main →
      (Module.readEvents events sched).todo = []) ∧
    (∀ (E : Type) (mgr : Manager) (protos : Prototypes E) (p : Probe E),
      (MTCPProbe.Events (MTCPProbe.Start mgr protos (MTCPProbe.Init p).2).2).length ≤ 3 ∧
      (MTCPSecProbe.Events
        (MTCPSecProbe.Start mgr protos (MTCPSecProbe.Init p).2).2).length ≤ 3 ∧
      (MUDPProbe.Events (MUDPProbe.Start mgr protos (MUDPProbe.Init p).2).2).length ≤ 3 ∧
      (MProcProbe.Events (MProcProbe.Start mgr protos (MProcProbe.Init p).2).2).length ≤ 3 ∧
      (MUDNSProbe.Events (MUDNSProbe.Start mgr protos (MUDNSProbe.Init p).2).2).length ≤ 3 ∧
      (MJavaRasp.Events (MJavaRasp.Start mgr protos (MJavaRasp.Init p).2).2).length ≤ 3 ∧
      (MBPFCallProbe.Events
        (MBPFCallProbe.Start mgr protos (MBPFCallProbe.Init p).2).2).length ≤ 3) := by
  have hcap : events.length ≤ errChanCap := hlen
  refine ⟨?_, ?_, ?_⟩
  · intro sched
    have hg := ReadEvents.good_foldl events hcap sched _ (ReadEvents.good_init events)
    refine ⟨hg.2.2, hg.2.1.not_blocked hcap, ?_⟩
    have h1 := hg.2.1.1
    have h2 := hg.2.1.sent_le
    unfold Module.readEvents
    omega
  · intro sched hcount
    have hg := ReadEvents.todo_foldl events hcap sched _ (ReadEvents.good_init events)
    have hg2 : (sched.foldl ReadEvents.step (ReadEvents.init events)).todo.length ≤
        events.length - sched.count .main := hg
    have h0 : (sched.foldl ReadEvents.step (ReadEvents.init events)).todo.length = 0 := by
      omega
    exact List.length_eq_zero.mp h0
  · intro E mgr protos p
    refine ⟨?_, ?_, ?_, ?_, ?_, ?_, ?_⟩
    · have h := MTCPProbe_start_eventMaps mgr protos (MTCPProbe.Init p).2
      rw [MTCPProbe_Start_eq]
      simp only [MTCPProbe.Events, MTCPProbe.Init, List.length_nil] at h ⊢
      omega
    · have h := MTCPSecProbe_start_eventMaps mgr protos (MTCPSecProbe.Init p).2
      rw [MTCPSecProbe_Start_eq]
      simp only [MTCPSecProbe.Events, MTCPSecProbe.Init, List.length_nil] at h ⊢
      omega
    · have h := MUDPProbe_start_eventMaps mgr protos (MUDPProbe.Init p).2
      rw [MUDPProbe_Start_eq]
      simp only [MUDPProbe.Events, MUDPProbe.Init, List.length_nil] at h ⊢
      omega
    · have h := MProcProbe_start_eventMaps mgr protos (MProcProbe.Init p).2
      rw [MProcProbe_Start_eq]
      simp only [MProcProbe.Events, MProcProbe.Init, List.length_nil] at h ⊢
      omega
    · have h := MUDNSProbe_start_eventMaps mgr protos (MUDNSProbe.Init p).2
      rw [MUDNSProbe_Start_eq]
      simp only [MUDNSProbe.Events, MUDNSProbe.Init, List.length_nil] at h ⊢
      omega
    · have h := MJavaRasp_start_eventMaps mgr protos (MJavaRasp.Init p).2
      rw [MJavaRasp_Start_eq]
      simp only [MJavaRasp.Events, MJavaRasp.Init, List.length_nil] at h ⊢
      omega
    · have h := (MBPFCallProbe_start_tables mgr protos (MBPFCallProbe.Init p).2).1
      rw [MBPFCallProbe_Start_eq]
      simp only [MBPFCallProbe.Events, MBPFCallProbe.Init] at h ⊢
      rw [h]
      simp

/-- Witness of C12 as amended: three maps, the reader started first fails at once. -/
theorem readEvents_channel_room_witness :
    (Module.readEvents [Demo.ringMap, Demo.hashMap, Demo.perfMap]
        [.main, .reader 0 (.new "creating reader"), .main, .main]).stuck = [] ∧
      (Module.readEvents [Demo.ringMap, Demo.hashMap, Demo.perfMap]
        [.main, .reader 0 (.new "creating reader"), .main, .main]).todo = [] :=
  ⟨((readEvents_channel_room [Demo.ringMap, Demo.hashMap, Demo.perfMap] (by decide)).1
      [.main, .reader 0 (.new "creating reader"), .main, .main]).1,
    (readEvents_channel_room [Demo.ringMap, Demo.hashMap, Demo.perfMap] (by decide)).2.1
      [.main, .reader 0 (.new "creating reader"), .main, .main] (by decide)⟩

/-! ### First failure wins -/

theorem ReadEvents.step_result_some (st : ReadEvents) (c : Sched) (r : Option Error)
    (h : st.result = some r) : (st.step c).result = some r := by
  cases c with
  | main => simp [ReadEvents.step, ReadEvents.mainStep, h]
  | reader i err =>
    simp only [ReadEvents.step, ReadEvents.readerStep]
    split
    · split <;> exact h
    · exact h

theorem ReadEvents.foldl_result_some (sched : List Sched) (st : ReadEvents)
    (r : Option Error) (h : st.result = some r) :
    (sched.foldl ReadEvents.step st).result = some r := by
  induction sched generalizing st with
  | nil => exact h
  | cons c rest ih => exact ih _ (ReadEvents.step_result_some st c r h)

/-- While `readEvents` has not returned the channel holds what was delivered; when it
has returned, its result is the first error delivered. -/
theorem ReadEvents.delivered_foldl (sched : List Sched) (st : ReadEvents)
    (hres : st.result = none) :
    ((sched.foldl ReadEvents.step st).result = none ∧
        (sched.foldl ReadEvents.step st).errChan =
          st.errChan ++ ReadEvents.delivered st sched) ∨
      (∃ e, (sched.foldl ReadEvents.step st).result = some (some e) ∧
        (st.errChan ++ ReadEvents.delivered st sched).head? = some e) := by
  induction sched generalizing st with
  | nil => exact Or.inl ⟨hres, by simp [ReadEvents.delivered]⟩
  | cons c rest ih =>
    rw [List.foldl_cons]
    simp only [ReadEvents.delivered]
    cases c with
    | reader i err =>
      by_cases hv : i < st.spawned.length ∧ i ∉ st.sent
      · by_cases hroom : st.errChan.length < errChanCap
        · have hstep : st.step (.reader i err) =
              { st with sent := i :: st.sent, errChan := st.errChan ++ [err] } := by
            simp [ReadEvents.step, ReadEvents.readerStep, hv, hroom]
          have hdel : st.delivers (.reader i err) = some err := by
            simp [ReadEvents.delivers, hv, hroom]
          have hn := ih (st.step (.reader i err)) (by rw [hstep]; exact hres)
          rw [hdel]
          rw [hstep] at hn ⊢
          simpa [List.append_assoc] using hn
        · have hstep : st.step (.reader i err) =
              { st with sent := i :: st.sent, stuck := i :: st.stuck } := by
            simp [ReadEvents.step, ReadEvents.readerStep, hv, hroom]
          have hdel : st.delivers (.reader i err) = none := by
            simp [ReadEvents.delivers, hroom]
          have hn := ih (st.step (.reader i err)) (by rw [hstep]; exact hres)
          rw [hdel]
          rw [hstep] at hn ⊢
          simpa using hn
      · have hstep : st.step (.reader i err) = st := by
          simp [ReadEvents.step, ReadEvents.readerStep, hv]
        have hdel : st.delivers (.reader i err) = none := by
          simp only [ReadEvents.delivers]
          rw [if_neg]
          intro h
          exact hv ⟨h.1, h.2.1⟩
        have hn := ih st hres
        rw [hdel, hstep]
        simpa using hn
    | main =>
      cases htodo : st.todo with
      | nil =>
        have hdel : st.delivers .main = none := by
          simp [ReadEvents.delivers, hres, htodo]
        rw [hdel]
        cases hch : st.errChan with
        | nil =>
          have hstep : st.step .main = st := by
            simp [ReadEvents.step, ReadEvents.mainStep, hres, htodo, hch]
          have hn := ih st hres
          rw [hstep]
          simpa [hch] using hn
        | cons e more =>
          have hstep : (st.step .main).result = some (some e) := by
            simp [ReadEvents.step, ReadEvents.mainStep, hres, htodo, hch]
          exact Or.inr ⟨e, ReadEvents.foldl_result_some rest _ _ hstep, by simp⟩
      | cons event more =>
        cases hty : event.Type with
        | RingBuf =>
          have hstep : st.step .main =
              { st with todo := more,
                        spawned := st.spawned ++ [.ringbufEventReader event] } := by
            simp [ReadEvents.step, ReadEvents.mainStep, hres, htodo, hty]
          have hdel : st.delivers .main = none := by
            simp [ReadEvents.delivers, hres, htodo, unsupportedFor, hty]
          have hn := ih (st.step .main) (by rw [hstep]; exact hres)
          rw [hdel]
          rw [hstep] at hn ⊢
          simpa using hn
        | PerfEventArray =>
          have hstep : st.step .main =
              { st with todo := more,
                        spawned := st.spawned ++ [.perfEventReader event] } := by
            simp [ReadEvents.step, ReadEvents.mainStep, hres, htodo, hty]
          have hdel : st.delivers .main = none := by
            simp [ReadEvents.delivers, hres, htodo, unsupportedFor, hty]
          have hn := ih (st.step .main) (by rw [hstep]; exact hres)
          rw [hdel]
          rw [hstep] at hn ⊢
          simpa using hn
        | Other name =>
          by_cases hroom : st.errChan.length < errChanCap
          · have hstep : st.step .main =
                { st with todo := more,
                          errChan := st.errChan ++ [unsupportedError event] } := by
              simp [ReadEvents.step, ReadEvents.mainStep, hres, htodo, hty, hroom]
            have hdel : st.delivers .main = some (unsupportedError event) := by
              simp [ReadEvents.delivers, hres, htodo, unsupportedFor, hty, hroom]
            have hn := ih (st.step .main) (by rw [hstep]; exact hres)
            rw [hdel]
            rw [hstep] at hn ⊢
            simpa [List.append_assoc] using hn
          · have hstep : st.step .main = st := by
              simp [ReadEvents.step, ReadEvents.mainStep, hres, htodo, hty, hroom]
            have hdel : st.delivers .main = none := by
              simp [ReadEvents.delivers, hres, htodo, hroom]
            have hn := ih st hres
            rw [hdel, hstep]
            simpa using hn

theorem Module.Run_result_eq {S E W : Type} (child : IModule S E W) (s : S)
    (sched : List Sched) (hstart : (child.Start s).1 = none) :
    (Module.Run child s sched).result =
      (Module.readEvents (child.Events (child.Start s).2) sched).result := by
  unfold Module.Run
  rcases hs : child.Start s with ⟨e, s1⟩
  rw [hs] at hstart
  simp only at hstart
  subst hstart
  dsimp only
  rcases hr : (Module.readEvents (child.Events s1) sched).result with _ | r
  · rfl
  · cases r <;> rfl

theorem ReadEvents.receive_after_loop (events : List EbpfMap)
    (hlen : events.length ≤ errChanCap) (st : ReadEvents)
    (h : ReadEvents.Inv events st ∧ ReadEvents.Bounded events st ∧ st.stuck = [])
    (hres : st.result = none) (e : Error) (more : List Error)
    (hch : st.errChan = e :: more) :
    ((List.replicate (events.length + 1) Sched.main).foldl ReadEvents.step st).result =
      some (some e) := by
  have hsum := h.2.1.1
  have hsent := h.2.1.sent_le
  have hle : st.todo.length ≤ events.length := by omega
  have hfm : (st.todo.filterMap unsupportedFor).length ≤ st.todo.length :=
    List.length_filterMap_le _ _
  have hsplit : events.length + 1 = st.todo.length + (1 + (events.length - st.todo.length)) := by
    omega
  rw [hsplit, List.replicate_add, List.replicate_add, List.foldl_append, List.foldl_append,
    ReadEvents.main_loop st.todo st hres rfl (by omega)]
  apply ReadEvents.foldl_result_some
  simp [ReadEvents.step, ReadEvents.mainStep, hres, hch]

/-- Counterexample to C14: a ring buffer map and eight unsupported maps. The reader
fails first, its failure is the first delivered, and seven more are delivered; the
eighth unsupported map finds the channel full, `readEvents` stays at its send and never
returns the failure, and neither does `Run`. -/
theorem first_failure_not_returned_counterexample :
    ReadEvents.delivered (ReadEvents.init (Demo.ringMap :: List.replicate 8 Demo.hashMap))
        ([.main, .reader 0 (.new "creating reader")] ++ List.replicate 20 .main) =
        .new "creating reader" :: List.replicate 7 (unsupportedError Demo.hashMap) ∧
      (Module.readEvents (Demo.ringMap :: List.replicate 8 Demo.hashMap)
        ([.main, .reader 0 (.new "creating reader")] ++ List.replicate 20 .main)).result =
        none ∧
      (Module.readEvents (Demo.ringMap :: List.replicate 8 Demo.hashMap)
        ([.main, .reader 0 (.new "creating reader")] ++
          List.replicate 20 .main)).blockedOnSend = true ∧
      (Module.Run (Demo.child (Demo.ringMap :: List.replicate 8 Demo.hashMap)) ()
        ([.main, .reader 0 (.new "creating reader")] ++ List.replicate 20 .main)).result =
        none := by
  decide

/-- C14, amended: for a module whose variant `Start` succeeds. When `Events()` has at most
8 buffers, once a failure has been delivered on the failure channel `readEvents` returns
the first failure delivered, after at most one step for each map and one for the
receive, and `Run` returns the same error. Whatever the number of buffers, whenever
`readEvents` returns, its result is the first failure delivered and the result of `Run`,
and failures delivered later do not alter the result. -/
theorem first_failure_wins {S E W : Type} (child : IModule S E W) (s : S)
    (hstart : (child.Start s).1 = none) :
    ((child.Events (child.Start s).2).length ≤ 8 → ∀ sched : List Sched,
      ReadEvents.delivered (ReadEvents.init (child.Events (child.Start s).2)) sched ≠ [] →
      (Module.readEvents (child.Events (child.Start s).2)
          (sched ++ List.replicate ((child.Events (child.Start s).2).length + 1)
            .main)).result =
          some ((ReadEvents.delivered (ReadEvents.init (child.Events (child.Start s).2))
            sched).head?) ∧
        (Module.Run child s
          (sched ++ List.replicate ((child.Events (child.Start s).2).length + 1)
            .main)).result =
          some ((ReadEvents.delivered (ReadEvents.init (child.Events (child.Start s).2))
            sched).head?)) ∧
    (∀ (sched : List Sched) (err : Error),
      (Module.readEvents (child.Events (child.Start s).2) sched).result =
          some (some err) →
      (ReadEvents.delivered (ReadEvents.init (child.Events (child.Start s).2))
          sched).head? = some err ∧
        (Module.Run child s sched).result = some (some err)) ∧
    (∀ (sched more : List Sched) (r : Option Error),
      (Module.Run child s sched).result = some r →
      (Module.Run child s (sched ++ more)).result = some r) := by
  refine ⟨?_, ?_, ?_⟩
  · intro hlen sched hne
    have hcap : (child.Events (child.Start s).2).length ≤ errChanCap := hlen
    have hres : (Module.readEvents (child.Events (child.Start s).2)
        (sched ++ List.replicate ((child.Events (child.Start s).2).length + 1)
          .main)).result =
        some ((ReadEvents.delivered (ReadEvents.init (child.Events (child.Start s).2))
          sched).head?) := by
      unfold Module.readEvents
      rw [List.foldl_append]
      have hd := ReadEvents.delivered_foldl sched
        (ReadEvents.init (child.Events (child.Start s).2)) rfl
      have hg := ReadEvents.good_foldl _ hcap sched _
        (ReadEvents.good_init (child.Events (child.Start s).2))
      have herr : (ReadEvents.init (child.Events (child.Start s).2)).errChan = [] := rfl
      rw [herr, List.nil_append] at hd
      rcases hd with ⟨hnone, hch⟩ | ⟨e, hsome, hhead⟩
      · cases hD : ReadEvents.delivered
            (ReadEvents.init (child.Events (child.Start s).2)) sched with
        | nil => exact absurd hD hne
        | cons e more =>
          rw [hD] at hch
          rw [ReadEvents.receive_after_loop _ hcap _ hg hnone e more hch]
          rfl
      · rw [ReadEvents.foldl_result_some _ _ _ hsome]
        exact congrArg some hhead.symm
    exact ⟨hres, by rw [Module.Run_result_eq child s _ hstart, hres]⟩
  · intro sched err hret
    refine ⟨?_, by rw [Module.Run_result_eq child s _ hstart, hret]⟩
    have hd := ReadEvents.delivered_foldl sched
      (ReadEvents.init (child.Events (child.Start s).2)) rfl
    unfold Module.readEvents at hret
    rcases hd with ⟨hnone, _⟩ | ⟨e, hsome, hhead⟩
    · rw [hnone] at hret
      cases hret
    · rw [hsome] at hret
      cases hret
      simpa [ReadEvents.init] using hhead
  · intro sched more r hret
    rw [Module.Run_result_eq child s _ hstart] at hret ⊢
    unfold Module.readEvents at hret ⊢
    rw [List.foldl_append]
    exact ReadEvents.foldl_result_some more _ r hret

/-- Witness of C14 as amended: two ring buffer maps, the second reader fails first, then
the first reader; and nine ring buffer maps, of which the fourth reader fails. -/
theorem first_failure_wins_witness :
    (Module.Run (Demo.child [Demo.ringMap, Demo.ringMap]) ()
      ([.main, .main, .reader 1 (.new "reading: EIO"), .reader 0 (.new "reading: EBADF")]
        ++ List.replicate ([Demo.ringMap, Demo.ringMap].length + 1) .main)).result =
        some (some (.new "reading: EIO")) ∧
      (ReadEvents.delivered (ReadEvents.init (List.replicate 9 Demo.ringMap))
        (List.replicate 9 .main ++ [.reader 3 (.new "reading: EIO"), .main])).head? =
        some (.new "reading: EIO") ∧
      (Module.Run (Demo.child (List.replicate 9 Demo.ringMap)) ()
        (List.replicate 9 .main ++ [.reader 3 (.new "reading: EIO"), .main])).result =
        some (some (.new "reading: EIO")) :=
  ⟨(((first_failure_wins (Demo.child [Demo.ringMap, Demo.ringMap]) () rfl).1 (by decide)
      [.main, .main, .reader 1 (.new "reading: EIO"), .reader 0 (.new "reading: EBADF")]
      (by decide)).2).trans (by decide),
    (first_failure_wins (Demo.child (List.replicate 9 Demo.ringMap)) () rfl).2.1
      (List.replicate 9 Sched.main ++ [Sched.reader 3 (Error.new "reading: EIO"), Sched.main])
      (Error.new "reading: EIO") (by decide)⟩

/-! ### Start failures, and the decode of `MJavaRasp` -/

theorem Module.Run_of_Start_error {S E W : Type} (child : IModule S E W) (s : S)
    (sched : List Sched) (err : Error) (h : (child.Start s).1 = some err) :
    (Module.Run child s sched).failedWith err := by
  unfold Module.Run RunState.failedWith
  rcases hs : child.Start s with ⟨e, s1⟩
  rw [hs] at h
  simp only at h
  subst h
  exact ⟨rfl, rfl, rfl⟩

/-- C15: for each of the seven variants, when the manager fails to attach or a buffer
that `initDecodeFun` looks up is not found (or its lookup errs), `Start` returns an
error, and `Run` returns that error without calling `readEvents`: `Events()` is not
enumerated, no reader is started, and the supervisory task is not started. -/
theorem Start_failure_stops_Run {E W : Type} (I : IEventStruct E W) (mgr : Manager)
    (protos : Prototypes E) (p : Probe E) (sched : List Sched) :
    (mgr.attachFails ∨ mgr.lookupFails "events" →
      ∃ err, (MTCPProbe.Start mgr protos p).1 = some err ∧
        (Module.Run (MTCPProbe.asIModule I mgr protos) p sched).failedWith err) ∧
    (mgr.attachFails ∨ mgr.lookupFails "ipv4_events" ∨ mgr.lookupFails "ipv6_events" ∨
        mgr.lookupFails "other_socket_events" →
      ∃ err, (MTCPSecProbe.Start mgr protos p).1 = some err ∧
        (Module.Run (MTCPSecProbe.asIModule I mgr protos) p sched).failedWith err) ∧
    (mgr.attachFails ∨ mgr.lookupFails "dns_events" →
      ∃ err, (MUDPProbe.Start mgr protos p).1 = some err ∧
        (Module.Run (MUDPProbe.asIModule I mgr protos) p sched).failedWith err) ∧
    (mgr.attachFails ∨ mgr.lookupFails "ringbuf_proc" →
      ∃ err, (MProcProbe.Start mgr protos p).1 = some err ∧
        (Module.Run (MProcProbe.asIModule I mgr protos) p sched).failedWith err) ∧
    (mgr.attachFails ∨ mgr.lookupFails "events" →
      ∃ err, (MUDNSProbe.Start mgr protos p).1 = some err ∧
        (Module.Run (MUDNSProbe.asIModule I mgr protos) p sched).failedWith err) ∧
    (mgr.attachFails ∨ mgr.lookupFails "jdk_execvpe_events" →
      ∃ err, (MJavaRasp.Start mgr protos p).1 = some err ∧
        (Module.Run (MJavaRasp.asIModule I mgr protos) p sched).failedWith err) ∧
    (mgr.attachFails →
      ∃ err, (MBPFCallProbe.Start mgr protos p).1 = some err ∧
        (Module.Run (MBPFCallProbe.asIModule I mgr protos) p sched).failedWith err) := by
  refine ⟨?_, ?_, ?_, ?_, ?_, ?_, ?_⟩
  · intro h
    obtain ⟨err, he⟩ := MTCPProbe_start_fails mgr protos p
      (by rcases h with (h | h) | (h | h) <;> simp [h])
    rw [← MTCPProbe_Start_eq] at he
    exact ⟨err, he, Module.Run_of_Start_error (MTCPProbe.asIModule I mgr protos) p sched
      err he⟩
  · intro h
    obtain ⟨err, he⟩ := MTCPSecProbe_start_fails mgr protos p
      (by rcases h with (h | h) | (h | h) | (h | h) | (h | h) <;> simp [h])
    rw [← MTCPSecProbe_Start_eq] at he
    exact ⟨err, he, Module.Run_of_Start_error (MTCPSecProbe.asIModule I mgr protos) p
      sched err he⟩
  · intro h
    obtain ⟨err, he⟩ := MUDPProbe_start_fails mgr protos p
      (by rcases h with (h | h) | (h | h) <;> simp [h])
    rw [← MUDPProbe_Start_eq] at he
    exact ⟨err, he, Module.Run_of_Start_error (MUDPProbe.asIModule I mgr protos) p sched
      err he⟩
  · intro h
    obtain ⟨err, he⟩ := MProcProbe_start_fails mgr protos p
      (by rcases h with (h | h) | (h | h) <;> simp [h])
    rw [← MProcProbe_Start_eq] at he
    exact ⟨err, he, Module.Run_of_Start_error (MProcProbe.asIModule I mgr protos) p sched
      err he⟩
  · intro h
    obtain ⟨err, he⟩ := MUDNSProbe_start_fails mgr protos p
      (by rcases h with (h | h) | (h | h) <;> simp [h])
    rw [← MUDNSProbe_Start_eq] at he
    exact ⟨err, he, Module.Run_of_Start_error (MUDNSProbe.asIModule I mgr protos) p sched
      err he⟩
  · intro h
    obtain ⟨err, he⟩ := MJavaRasp_start_fails mgr protos p
      (by rcases h with (h | h) | (h | h) <;> simp [h])
    rw [← MJavaRasp_Start_eq] at he
    exact ⟨err, he, Module.Run_of_Start_error (MJavaRasp.asIModule I mgr protos) p sched
      err he⟩
  · intro h
    obtain ⟨err, he⟩ := MBPFCallProbe_start_fails mgr protos p h
    rw [← MBPFCallProbe_Start_eq] at he
    exact ⟨err, he, Module.Run_of_Start_error (MBPFCallProbe.asIModule I mgr protos) p
      sched err he⟩

/-- Witness of C15: the manager attaches and reports `ringbuf_proc` not found. -/
theorem Start_failure_stops_Run_witness :
    ∃ err, (MProcProbe.Start Demo.managerWithoutMaps Demo.protos Demo.probe).1 = some err ∧
      (Module.Run (MProcProbe.asIModule Demo.events Demo.managerWithoutMaps Demo.protos)
        Demo.probe [.main, .main]).failedWith err :=
  (Start_failure_stops_Run Demo.events Demo.managerWithoutMaps Demo.protos Demo.probe
    [.main, .main]).2.2.2.1 (Or.inr (Or.inr rfl))

/-- C16: `MJavaRasp.Decode(em, b)` returns what `Module.Decode(em, b)` returns when the
`MJavaRasp` is its child: the same text and the same error (and the same calls and
memory), whether the prototype is found and decodes, is found and fails to decode, or
is not found. -/
theorem MJavaRasp_Decode_eq_Module_Decode {E W : Type} (I : IEventStruct E W)
    (mgr : Manager) (protos : Prototypes E) (p : Probe E) (em : EbpfMap) (b : Bytes)
    (w : W) :
    MJavaRasp.Decode I p em b w =
        Module.Decode I ((MJavaRasp.asIModule I mgr protos).DecodeFun p) em b w ∧
      ((MJavaRasp.asIModule I mgr protos).Decode p em b w).result =
        (Module.Decode I ((MJavaRasp.asIModule I mgr protos).DecodeFun p) em b w).result ∧
      ((MJavaRasp.asIModule I mgr protos).Decode p em b w).err =
        (Module.Decode I ((MJavaRasp.asIModule I mgr protos).DecodeFun p) em b w).err := by
  have h : MJavaRasp.Decode I p em b w =
      Module.Decode I ((MJavaRasp.asIModule I mgr protos).DecodeFun p) em b w := by
    unfold MJavaRasp.Decode Module.Decode
    show (match MJavaRasp.DecodeFun p em with
      | none => _
      | some es => _) = (match MJavaRasp.DecodeFun p em with
      | none => _
      | some es => _)
    cases MJavaRasp.DecodeFun p em <;> rfl
  refine ⟨h, ?_, ?_⟩
  · show (MJavaRasp.Decode I p em b w).result = _
    rw [h]
  · show (MJavaRasp.Decode I p em b w).err = _
    rw [h]

/-- Witness of C16: a started `MJavaRasp`, a payload that decodes, one that does not,
and a map without prototype. -/
theorem MJavaRasp_Decode_eq_Module_Decode_witness :
    ((MJavaRasp.asIModule Demo.events Demo.manager Demo.protos).Decode
        (MJavaRasp.Start Demo.manager Demo.protos (MJavaRasp.Init Demo.probe).2).2
        ⟨2, .PerfEventArray, "jdk_execvpe_events"⟩ [7] [[]]).result = "one byte" ∧
      ((MJavaRasp.asIModule Demo.events Demo.manager Demo.protos).Decode
        (MJavaRasp.Start Demo.manager Demo.protos (MJavaRasp.Init Demo.probe).2).2
        ⟨2, .PerfEventArray, "jdk_execvpe_events"⟩ [] [[]]).err =
        some (.new "short read") ∧
      ((MJavaRasp.asIModule Demo.events Demo.manager Demo.protos).Decode
        (MJavaRasp.Start Demo.manager Demo.protos (MJavaRasp.Init Demo.probe).2).2
        Demo.ringMap [7] [[]]).result = "" :=
  ⟨(MJavaRasp_Decode_eq_Module_Decode Demo.events Demo.manager Demo.protos
      (MJavaRasp.Start Demo.manager Demo.protos (MJavaRasp.Init Demo.probe).2).2
      ⟨2, .PerfEventArray, "jdk_execvpe_events"⟩ [7] [[]]).2.1.trans (by decide),
    (MJavaRasp_Decode_eq_Module_Decode Demo.events Demo.manager Demo.protos
      (MJavaRasp.Start Demo.manager Demo.protos (MJavaRasp.Init Demo.probe).2).2
      ⟨2, .PerfEventArray, "jdk_execvpe_events"⟩ [] [[]]).2.2.trans (by decide),
    (MJavaRasp_Decode_eq_Module_Decode Demo.events Demo.manager Demo.protos
      (MJavaRasp.Start Demo.manager Demo.protos (MJavaRasp.Init Demo.probe).2).2
      Demo.ringMap [7] [[]]).2.1.trans (by decide)⟩

/-! ### The callback of `MBPFCallProbe` -/

/-- Counterexample to C13: for a started `MBPFCallProbe` and the bytes `[7]` on CPU 0,
the callback passes `BPFCALL EVENT CPU:0, one byte` to `Write`, while `Decode` for the
perf map yields the empty text and an error, the variant having no prototype for any
map; even with a decode table that has the prototype, `Decode` yields `one byte`, not
the text of the callback. For bytes that do not decode, the callback ends the process
with `Fatalf`, while the perf reader logs the error and stays in its loop. -/
theorem callback_text_differs_counterexample :
    writes (MBPFCallProbe.dataHandler Demo.events Demo.newEvent 0 [7] [[]]).trace =
        ["BPFCALL EVENT CPU:0, one byte"] ∧
      ((MBPFCallProbe.asIModule Demo.events Demo.manager Demo.protos).Decode
        (MBPFCallProbe.Start Demo.manager Demo.protos (MBPFCallProbe.Init Demo.probe).2).2
        Demo.perfMap [7] [[]]).result = "" ∧
      ((MBPFCallProbe.asIModule Demo.events Demo.manager Demo.protos).Decode
        (MBPFCallProbe.Start Demo.manager Demo.protos (MBPFCallProbe.Init Demo.probe).2).2
        Demo.perfMap [7] [[]]).err ≠ none ∧
      (Module.Decode Demo.events Demo.decodeFun Demo.perfMap [7] [[]]).result =
        "one byte" ∧
      (MBPFCallProbe.dataHandler Demo.events Demo.newEvent 0 [] [[]]).status = .exited ∧
      (MBPFCallProbe.dataHandler Demo.events Demo.newEvent 0 [] [[]]).trace =
        [.Fatalf "decode error:short read"] ∧
      (Module.perfEventReader .takes (Module.Decode Demo.events Demo.decodeFun) Demo.perfMap none
        (okCycles [⟨0, [], 0⟩]) [[]]).status = .running ∧
      (Module.perfEventReader .takes (Module.Decode Demo.events Demo.decodeFun) Demo.perfMap none
        (okCycles [⟨0, [], 0⟩]) [[]]).trace =
        [.NewReader Demo.perfMap, .CtxDone false, .Read, .Decode Demo.perfMap [],
          .Log "this.child.decode error:short read"] := by
  decide

/-- C13, amended: the callback decodes the bytes into a new `BpfCallEvent`. When the
`Decode` succeeds it passes to `Write` the text `BPFCALL EVENT CPU:<cpu>, ` followed by
the `String()` of the event; when it fails it calls `logger.Fatalf` and writes nothing.
`MBPFCallProbe` registers no buffer and no prototype, so after `Init` and `Start` its
`Events()` is empty and `Decode(buffer, bytes)` returns the empty text and the not-found
error for every buffer and every byte string. -/
theorem callback_path {E W : Type} (I : IEventStruct E W) (newBpfCallEvent : W → E × W)
    (cpu : Int) (data : Bytes) (w : W) :
    ((I.Decode (newBpfCallEvent w).1 data (newBpfCallEvent w).2).1 = none →
      (MBPFCallProbe.dataHandler I newBpfCallEvent cpu data w).trace =
          [.Write ("BPFCALL EVENT CPU:" ++ toString cpu ++ ", " ++
            I.String (newBpfCallEvent w).1
              (I.Decode (newBpfCallEvent w).1 data (newBpfCallEvent w).2).2)] ∧
        (MBPFCallProbe.dataHandler I newBpfCallEvent cpu data w).status = .returned) ∧
    (∀ err, (I.Decode (newBpfCallEvent w).1 data (newBpfCallEvent w).2).1 = some err →
      (MBPFCallProbe.dataHandler I newBpfCallEvent cpu data w).trace =
          [.Fatalf ("decode error:" ++ err.Error)] ∧
        (MBPFCallProbe.dataHandler I newBpfCallEvent cpu data w).status = .exited) ∧
    (∀ (mgr : Manager) (protos : Prototypes E) (p : Probe E) (em : EbpfMap),
      MBPFCallProbe.Events
          (MBPFCallProbe.Start mgr protos (MBPFCallProbe.Init p).2).2 = [] ∧
        ((MBPFCallProbe.asIModule I mgr protos).Decode
          (MBPFCallProbe.Start mgr protos (MBPFCallProbe.Init p).2).2 em data w).result
          = "" ∧
        ((MBPFCallProbe.asIModule I mgr protos).Decode
          (MBPFCallProbe.Start mgr protos (MBPFCallProbe.Init p).2).2 em data w).err =
          some (.new ("can't found decode function :" ++ em.String ++ ", address:" ++
            em.pointer))) := by
  refine ⟨?_, ?_, ?_⟩
  · intro hd
    have h : I.Decode (newBpfCallEvent w).1 data (newBpfCallEvent w).2 =
        (none, (I.Decode (newBpfCallEvent w).1 data (newBpfCallEvent w).2).2) := by
      rw [← hd]
    unfold MBPFCallProbe.dataHandler
    dsimp only
    rw [h]
    exact ⟨rfl, rfl⟩
  · intro err hd
    have h : I.Decode (newBpfCallEvent w).1 data (newBpfCallEvent w).2 =
        (some err, (I.Decode (newBpfCallEvent w).1 data (newBpfCallEvent w).2).2) := by
      rw [← hd]
    unfold MBPFCallProbe.dataHandler
    dsimp only
    rw [h]
    exact ⟨rfl, rfl⟩
  · intro mgr protos p em
    have ht := MBPFCallProbe_start_tables mgr protos (MBPFCallProbe.Init p).2
    rw [← MBPFCallProbe_Start_eq] at ht
    have hf : MBPFCallProbe.DecodeFun
        (MBPFCallProbe.Start mgr protos (MBPFCallProbe.Init p).2).2 em = none := by
      unfold MBPFCallProbe.DecodeFun
      rw [ht.2]
      rfl
    refine ⟨ht.1, ?_, ?_⟩
    · show (Module.Decode I _ em data w).result = ""
      simp [Module.Decode, hf]
    · show (Module.Decode I _ em data w).err = _
      simp [Module.Decode, hf]

/-- Witness of C13 as amended: the bytes `[7]` on CPU 2. -/
theorem callback_path_witness :
    (MBPFCallProbe.dataHandler Demo.events Demo.newEvent 2 [7] [[]]).trace =
      [.Write "BPFCALL EVENT CPU:2, one byte"] :=
  ((callback_path Demo.events Demo.newEvent 2 [7] [[]]).1 (by decide)).1.trans
    (by decide)

end Swarms
